import Mathlib

/-!
# Verification of the slinit service supervisor

A shallow embedding, in Lean 4, of the core of the `slinit` service
supervisor (a Go re-implementation of a dinit-style init system), together
with theorems settling the specification claims about it.

Embedded components:
* the service state machine and two-phase queue scheduler
  (`pkg/service/record.go`, the `ServiceSet` scheduler);
* the restart rate limiter (`pkg/service/process.go` `CheckRestart`);
* the PID-file reader (`pkg/process/pidfile.go`) and the bgprocess
  launcher-exit handler (`pkg/service/bgprocess.go`);
* the control-protocol framing and codecs (`pkg/control/protocol.go`) and
  the command dispatch / start-stop handlers (`pkg/control/connection.go`);
* the shutdown executor (`pkg/shutdown/shutdown.go`);
* the event-loop signal handler (`eventloop`);
* `SignalProcess` (`pkg/process/exec.go`).

Go machine integers are modelled as `Nat`/`Int` with explicit reductions
modulo `2^w` at the points where Go performs a narrowing conversion.
Fallible or possibly diverging code (the fueled mutually recursive state
machine) returns `Option`.
-/

namespace Slinit

/-! ## Basic enumerations (pkg/service/types.go) -/

/-- `ServiceState` (types.go): STOPPED, STARTING, STARTED, STOPPING. -/
inductive SState
  | stopped
  | starting
  | started
  | stopping
deriving DecidableEq, Repr

/-- `DependencyType` (types.go). -/
inductive DepType
  | regular
  | soft
  | waitsFor
  | milestone
  | before
  | after
deriving DecidableEq, Repr

/-- `StoppedReason` (types.go). -/
inductive SReason
  | normal
  | depRestart
  | depFailed
  | failed
  | execFailed
  | timedOut
  | terminated
deriving DecidableEq, Repr

/-- `AutoRestartMode` (types.go). -/
inductive RestartMode
  | never
  | always
  | onFailure
deriving DecidableEq, Repr

/-- `ShutdownType` (types.go). -/
inductive ShutdownTy
  | none
  | remain
  | halt
  | poweroff
  | reboot
  | softReboot
deriving DecidableEq, Repr

/-! ## Signal numbers (Linux, as used via the syscall package) -/

def sigHUP : Nat := 1
def sigINT : Nat := 2
def sigQUIT : Nat := 3
def sigKILL : Nat := 9
def sigTERM : Nat := 15
def sigCHLD : Nat := 17

/-! ## C8: event-loop signal handling (eventloop `EventLoop.handleSignal`)

The Go handler switches on the received signal; for the shutdown signals it
calls `initiateShutdown` with a shutdown type and returns true.  We model it
as a pure function from the signal number and the process's PID to the
initiated shutdown type (`Option.none` when no shutdown is initiated) and
the boolean return value. -/

def handleSignal (sig : Nat) (pid : Nat) : Option ShutdownTy × Bool :=
  if sig = sigTERM then
    (some ShutdownTy.halt, true)
  else if sig = sigINT then
    if pid = 1 then (some ShutdownTy.reboot, true)
    else (some ShutdownTy.halt, true)
  else if sig = sigQUIT then
    (some ShutdownTy.poweroff, true)
  else if sig = sigHUP then
    (Option.none, false)
  else if sig = sigCHLD then
    (Option.none, false)
  else
    (Option.none, false)

/-! ## C7: shutdown executor (pkg/shutdown/shutdown.go)

`Execute` performs externally visible syscall effects in a fixed order; we
model the effect trace.  `rebootFunc` is mockable in the source; here its
outcome is the parameter `rebootErr` (true when the reboot syscall returns
an error). -/

/-- An externally visible action of the shutdown executor. -/
inductive SysAction
  | kill (pid : Int) (sig : Nat)
  | sleepNs (ns : Nat)
  | sync
  | rebootCall (cmd : Nat)
  | logRebootFailed
  | infiniteHold
deriving DecidableEq, Repr

/-- `ProcessKillGracePeriod = 1 * time.Second`, in nanoseconds. -/
def ProcessKillGracePeriodNs : Nat := 1000000000

/-- Linux `LINUX_REBOOT_CMD_HALT`. -/
def LINUX_REBOOT_CMD_HALT : Nat := 0xcdef0123
/-- Linux `LINUX_REBOOT_CMD_POWER_OFF`. -/
def LINUX_REBOOT_CMD_POWER_OFF : Nat := 0x4321fedc
/-- Linux `LINUX_REBOOT_CMD_RESTART`. -/
def LINUX_REBOOT_CMD_RESTART : Nat := 0x1234567

/-- `KillAllProcesses`: SIGTERM broadcast, grace sleep, SIGKILL broadcast. -/
def KillAllProcesses : List SysAction :=
  [SysAction.kill (-1) sigTERM,
   SysAction.sleepNs ProcessKillGracePeriodNs,
   SysAction.kill (-1) sigKILL]

/-- `rebootSystem`: maps a `ShutdownType` to the Linux reboot command
(default branch falls back to halt). -/
def rebootSystemCmd (t : ShutdownTy) : Nat :=
  match t with
  | ShutdownTy.halt => LINUX_REBOOT_CMD_HALT
  | ShutdownTy.poweroff => LINUX_REBOOT_CMD_POWER_OFF
  | ShutdownTy.reboot => LINUX_REBOOT_CMD_RESTART
  | _ => LINUX_REBOOT_CMD_HALT

/-- `Execute`: kill sweep, fsync, reboot syscall, then (the syscall having
returned) an error log when it failed and an unconditional infinite hold —
PID 1 must never exit.  On a successful reboot syscall the kernel does not
return control, so the tail of the trace is what the *code* would do. -/
def Execute (t : ShutdownTy) (rebootErr : Bool) : List SysAction :=
  KillAllProcesses ++
    [SysAction.sync, SysAction.rebootCall (rebootSystemCmd t)] ++
    (if rebootErr then [SysAction.logRebootFailed] else []) ++
    [SysAction.infiniteHold]

/-! ## C10: `SignalProcess` (pkg/process/exec.go)

Returns the kill syscall issued, as `some (targetPid, sig)`, or `none` when
no syscall is made. -/

def SignalProcess (pid : Int) (sig : Nat) (processOnly : Bool) :
    Option (Int × Nat) :=
  if pid ≤ 0 then Option.none
  else if processOnly then some (pid, sig)
  else some (-pid, sig)

/-! ## C4: restart rate limiter (pkg/service/process.go `CheckRestart`)

The mutable state consists of the window-start time and the in-window
count; the configuration is the maximum count and the interval.  Times are
`Int` nanosecond timestamps (`time.Time`/`time.Duration` differences). -/

structure RestartLimiter where
  restartIntervalTime : Int
  restartIntervalCount : Int
deriving DecidableEq, Repr

/-- `CheckRestart` evaluated at time `now`: returns whether the restart is
allowed together with the updated limiter state. -/
def CheckRestart (maxRestartCount : Int) (restartInterval : Int)
    (now : Int) (s : RestartLimiter) : Bool × RestartLimiter :=
  if maxRestartCount ≤ 0 then
    (true, s)
  else
    let elapsed := now - s.restartIntervalTime
    if elapsed < restartInterval then
      if s.restartIntervalCount ≥ maxRestartCount then
        (false, s)
      else
        (true, { s with restartIntervalCount := s.restartIntervalCount + 1 })
    else
      (true, { restartIntervalTime := now, restartIntervalCount := 1 })

/-! ## C5: PID-file reader (pkg/process/pidfile.go `ReadPIDFile`)

The file contents are `Option (List Char)` (`none` models a read error);
the `kill(pid, 0)` probe is an oracle parameter. -/

/-- Outcome of the `kill(pid, 0)` liveness probe. -/
inductive KillOutcome
  | ok
  | esrch
  | eperm
  | otherErr
deriving DecidableEq, Repr

/-- `PIDResult` (pidfile.go). -/
inductive PIDResult
  | ok
  | failed
  | terminated
deriving DecidableEq, Repr

/-- ASCII whitespace as recognised by Go's `strings.TrimSpace` on ASCII
input (the PID-file contents of interest are ASCII). -/
def goIsSpace (c : Char) : Bool :=
  c = ' ' || c = '\t' || c = '\n' || c = '\r' || c = '\x0b' || c = '\x0c'

/-- `strings.TrimSpace` on a character list. -/
def trimSpace (s : List Char) : List Char :=
  ((s.dropWhile goIsSpace).reverse.dropWhile goIsSpace).reverse

/-- `content[:idx]` for `idx` the first `'\n'` (whole string when there is
no newline): everything before the first newline. -/
def firstLine (s : List Char) : List Char :=
  s.takeWhile (fun c => c ≠ '\n')

/-- Digit-string value: `some n` iff the list is nonempty and all digits. -/
def digitsVal (s : List Char) : Option Nat :=
  if s = [] then Option.none
  else
    s.foldl
      (fun acc c =>
        match acc with
        | Option.none => Option.none
        | some n => if c.isDigit then some (n * 10 + (c.toNat - '0'.toNat)) else Option.none)
      (some 0)

/-- `strconv.Atoi`: optional sign then a nonempty digit string (the int64
range check is not modelled; PID values of interest are small). -/
def atoi (s : List Char) : Option Int :=
  match s with
  | '+' :: rest => (digitsVal rest).map (fun n => (n : Int))
  | '-' :: rest => (digitsVal rest).map (fun n => -(n : Int))
  | _ => (digitsVal s).map (fun n => (n : Int))

/-- `ReadPIDFile`: read, trim, cut at first newline, trim, parse, require a
positive value, then probe with signal 0. -/
def ReadPIDFile (contents : Option (List Char)) (probe : Int → KillOutcome) :
    Int × PIDResult :=
  match contents with
  | Option.none => (0, PIDResult.failed)
  | some data =>
    let content := trimSpace data
    if content = [] then (0, PIDResult.failed)
    else
      let content := firstLine content
      match atoi (trimSpace content) with
      | Option.none => (0, PIDResult.failed)
      | some pid =>
        if pid ≤ 0 then (0, PIDResult.failed)
        else
          match probe pid with
          | KillOutcome.ok => (pid, PIDResult.ok)
          | KillOutcome.esrch => (pid, PIDResult.terminated)
          | KillOutcome.eperm => (pid, PIDResult.ok)
          | KillOutcome.otherErr => (pid, PIDResult.failed)

/-- Modelled from the spec's words, for comparison with `ReadPIDFile`:
"parse PID (first token up to newline), trim whitespace, validate positive
integer" — the PID a correct parse must yield, `none` when the parse must
fail. -/
def specParsePID (contents : Option (List Char)) : Option Int :=
  match contents with
  | Option.none => Option.none
  | some data =>
    match atoi (trimSpace (firstLine (trimSpace data))) with
    | Option.none => Option.none
    | some pid => if 0 < pid then some pid else Option.none

/-- Outcome of `BGProcessService.handleLauncherExit` (bgprocess.go). -/
inductive LauncherOutcome
  | startedWithPID (daemonPID : Int)
  | failedExec
  | failedLauncherExit
  | failedPIDFile
  | failedDaemonDead
deriving DecidableEq, Repr

/-- `handleLauncherExit`: exec error and unclean launcher exit are start
failures; otherwise the PID file decides — `PIDResultOK` records the daemon
PID and calls `Started`, the other results are start failures. -/
def handleLauncherExit (execErr : Bool) (exitedClean : Bool)
    (pidContents : Option (List Char)) (probe : Int → KillOutcome) :
    LauncherOutcome :=
  if execErr then LauncherOutcome.failedExec
  else if !exitedClean then LauncherOutcome.failedLauncherExit
  else
    let pr := ReadPIDFile pidContents probe
    match pr.2 with
    | PIDResult.failed => LauncherOutcome.failedPIDFile
    | PIDResult.terminated => LauncherOutcome.failedDaemonDead
    | PIDResult.ok => LauncherOutcome.startedWithPID pr.1

/-! ## C3: control command dispatch (pkg/control/connection.go `dispatch`)

Command and reply codes from pkg/control/protocol.go. -/

def CmdQueryVersion : Nat := 0
def CmdFindService : Nat := 1
def CmdLoadService : Nat := 2
def CmdStartService : Nat := 3
def CmdStopService : Nat := 4
def CmdUnpinService : Nat := 7
def CmdListServices : Nat := 8
def CmdBootTime : Nat := 9
def CmdShutdown : Nat := 10
def CmdServiceStatus : Nat := 18
def CmdSetTrigger : Nat := 19
def CmdSignal : Nat := 21
def CmdCloseHandle : Nat := 23

def RplyACK : Nat := 50
def RplyNAK : Nat := 51
def RplyBadReq : Nat := 52
def RplyCPVersion : Nat := 58
def RplyServiceRecord : Nat := 59
def RplyNoService : Nat := 60
def RplyAlreadySS : Nat := 61
def RplySvcInfo : Nat := 62
def RplyListDone : Nat := 63
def RplyBootTime : Nat := 64
def RplyShuttingDown : Nat := 69
def RplyServiceStatus : Nat := 70

/-- The handler a command byte is routed to by `Connection.dispatch`; the
switch's default branch writes a BAD_REQUEST reply. -/
inductive DispatchTarget
  | queryVersion
  | findService
  | loadService
  | startService
  | stopService
  | listServices
  | serviceStatus
  | shutdown
  | closeHandle
  | setTrigger
  | signalCmd
  | unpinService
  | badRequest
deriving DecidableEq, Repr

/-- `Connection.dispatch`: exactly the cases present in the Go switch. -/
def dispatchTarget (cmd : Nat) : DispatchTarget :=
  if cmd = CmdQueryVersion then DispatchTarget.queryVersion
  else if cmd = CmdFindService then DispatchTarget.findService
  else if cmd = CmdLoadService then DispatchTarget.loadService
  else if cmd = CmdStartService then DispatchTarget.startService
  else if cmd = CmdStopService then DispatchTarget.stopService
  else if cmd = CmdListServices then DispatchTarget.listServices
  else if cmd = CmdServiceStatus then DispatchTarget.serviceStatus
  else if cmd = CmdShutdown then DispatchTarget.shutdown
  else if cmd = CmdCloseHandle then DispatchTarget.closeHandle
  else if cmd = CmdSetTrigger then DispatchTarget.setTrigger
  else if cmd = CmdSignal then DispatchTarget.signalCmd
  else if cmd = CmdUnpinService then DispatchTarget.unpinService
  else DispatchTarget.badRequest

/-! ## C9: protocol codecs (pkg/control/protocol.go)

Byte buffers are `List Nat` with each element a byte value; multi-byte
integers are little-endian, written and read with the helpers below.
Narrowing Go conversions (`uint32(int32(x))`, `uint64(x)`) are explicit
`% 2^w` reductions on `Int`. -/

/-- Little-endian 16-bit write (`binary.LittleEndian.PutUint16`). -/
def put16 (n : Nat) : List Nat :=
  [n % 256, n / 256 % 256]

/-- Little-endian 32-bit write. -/
def put32 (n : Nat) : List Nat :=
  [n % 256, n / 256 % 256, n / 65536 % 256, n / 16777216 % 256]

/-- Little-endian 64-bit write. -/
def put64 (n : Nat) : List Nat :=
  put32 (n % 4294967296) ++ put32 (n / 4294967296)

/-- Little-endian 16-bit read of the first two bytes. -/
def get16 (b : List Nat) : Nat :=
  b.getD 0 0 + 256 * b.getD 1 0

/-- Little-endian 32-bit read of the first four bytes. -/
def get32 (b : List Nat) : Nat :=
  b.getD 0 0 + 256 * b.getD 1 0 + 65536 * b.getD 2 0 + 16777216 * b.getD 3 0

/-- Little-endian 64-bit read of the first eight bytes. -/
def get64 (b : List Nat) : Nat :=
  get32 b + 4294967296 * get32 (b.drop 4)

/-- Go `uint32(int32(z))` / `uint32(z)` for `z : Int`: the low 32 bits. -/
def toUInt32bits (z : Int) : Nat :=
  (z % 4294967296).toNat

/-- Go `uint64(z)` for `z : Int` (an `int64` value): the low 64 bits. -/
def toUInt64bits (z : Int) : Nat :=
  (z % 18446744073709551616).toNat

/-- Go `int32(u)` for an unsigned 32-bit value: two's-complement reading. -/
def toInt32 (n : Nat) : Int :=
  if n < 2147483648 then (n : Int) else (n : Int) - 4294967296

/-- Go `int64(u)` for an unsigned 64-bit value: two's-complement reading. -/
def toInt64 (n : Nat) : Int :=
  if n < 9223372036854775808 then (n : Int) else (n : Int) - 18446744073709551616

/-- Status flag bits (protocol.go). -/
def StatusFlagHasPID : Nat := 1
def StatusFlagMarkedActive : Nat := 2
def StatusFlagWaitingDeps : Nat := 4
def StatusFlagHasConsole : Nat := 8

/-- The fields of a `service.Service` read by the encoders: state, target
state and type as their `uint8` values, the name as bytes, the PID
(`svc.PID()`, a Go `int`), `IsMarkedActive`, `HasConsole`, and
`GetExitStatus().ExitCode()`. -/
structure SvcView where
  name : List Nat
  state : Nat
  target : Nat
  stype : Nat
  pid : Int
  markedActive : Bool
  hasConsole : Bool
  exitCode : Int
deriving DecidableEq, Repr

/-- The flags byte built by `EncodeServiceStatus` / `EncodeSvcInfo`:
HAS_PID when `pid > 0`, MARKED_ACTIVE, HAS_CONSOLE. -/
def statusFlagsByte (v : SvcView) : Nat :=
  (if 0 < v.pid then StatusFlagHasPID else 0) +
    (if v.markedActive then StatusFlagMarkedActive else 0) +
    (if v.hasConsole then StatusFlagHasConsole else 0)

/-- `ServiceStatusInfo` (protocol.go): the decoded status reply. -/
structure ServiceStatusInfo where
  state : Nat
  targetState : Nat
  svcType : Nat
  flags : Nat
  pid : Int
  exitStatus : Int
deriving DecidableEq, Repr

/-- `EncodeServiceStatus`: state(1) target(1) type(1) flags(1) pid(4)
exitStatus(4). -/
def EncodeServiceStatus (v : SvcView) : List Nat :=
  [v.state % 256, v.target % 256, v.stype % 256, statusFlagsByte v] ++
    put32 (toUInt32bits v.pid) ++ put32 (toUInt32bits v.exitCode)

/-- `DecodeServiceStatus`. -/
def DecodeServiceStatus (data : List Nat) : Option ServiceStatusInfo :=
  if data.length < 12 then Option.none
  else
    some
      { state := data.getD 0 0
        targetState := data.getD 1 0
        svcType := data.getD 2 0
        flags := data.getD 3 0
        pid := toInt32 (get32 (data.drop 4))
        exitStatus := toInt32 (get32 (data.drop 8)) }

/-- `SvcInfoEntry` (protocol.go): one decoded list entry. -/
structure SvcInfoEntry where
  name : List Nat
  state : Nat
  targetState : Nat
  svcType : Nat
  flags : Nat
  pid : Int
deriving DecidableEq, Repr

/-- `DecodeServiceName`: nameLen(2) + name bytes; returns the name and the
number of bytes consumed. -/
def DecodeServiceName (data : List Nat) : Option (List Nat × Nat) :=
  if data.length < 2 then Option.none
  else
    let nameLen := get16 data
    if data.length < 2 + nameLen then Option.none
    else some ((data.drop 2).take nameLen, 2 + nameLen)

/-- `EncodeSvcInfo`: nameLen(2) name state(1) target(1) type(1) flags(1)
pid(4). -/
def EncodeSvcInfo (v : SvcView) : List Nat :=
  put16 v.name.length ++ v.name ++
    [v.state % 256, v.target % 256, v.stype % 256, statusFlagsByte v] ++
    put32 (toUInt32bits v.pid)

/-- `DecodeSvcInfo`: returns the entry and the number of bytes consumed. -/
def DecodeSvcInfo (data : List Nat) : Option (SvcInfoEntry × Nat) :=
  match DecodeServiceName data with
  | Option.none => Option.none
  | some (name, n) =>
    if data.length < n + 8 then Option.none
    else
      some
        ({ name := name
           state := (data.drop n).getD 0 0
           targetState := (data.drop n).getD 1 0
           svcType := (data.drop n).getD 2 0
           flags := (data.drop n).getD 3 0
           pid := toInt32 (get32 (data.drop (n + 4))) }, n + 8)

/-- `BootTimeEntry` (protocol.go). -/
structure BootTimeEntry where
  name : List Nat
  startupNs : Int
  state : Nat
  svcType : Nat
  pid : Int
deriving DecidableEq, Repr

/-- `BootTimeInfo` (protocol.go). -/
structure BootTimeInfo where
  kernelUptimeNs : Int
  bootStartNs : Int
  bootReadyNs : Int
  bootSvcName : List Nat
  services : List BootTimeEntry
deriving DecidableEq, Repr

/-- One per-service record of `EncodeBootTime`: nameLen(2) name
startupNs(8) state(1) type(1) pid(4). -/
def encodeBootTimeEntry (e : BootTimeEntry) : List Nat :=
  put16 e.name.length ++ e.name ++ put64 (toUInt64bits e.startupNs) ++
    [e.state % 256, e.svcType % 256] ++ put32 (toUInt32bits e.pid)

/-- `EncodeBootTime`: kernelUptime(8) bootStart(8) bootReady(8)
nameLen(2) name numSvcs(2) entries. -/
def EncodeBootTime (info : BootTimeInfo) : List Nat :=
  put64 (toUInt64bits info.kernelUptimeNs) ++
    put64 (toUInt64bits info.bootStartNs) ++
    put64 (toUInt64bits info.bootReadyNs) ++
    put16 info.bootSvcName.length ++ info.bootSvcName ++
    put16 info.services.length ++
    (info.services.map encodeBootTimeEntry).flatten

/-- The per-service decode loop of `DecodeBootTime`: `numSvcs` iterations,
each checking the remaining length exactly as the Go offsets do. -/
def decodeBootTimeEntries : Nat → List Nat → Option (List BootTimeEntry)
  | 0, _ => some []
  | k + 1, data =>
    if data.length < 2 then Option.none
    else
      let sNameLen := get16 data
      if data.length < 2 + sNameLen + 14 then Option.none
      else
        let body := data.drop (2 + sNameLen)
        let e : BootTimeEntry :=
          { name := (data.drop 2).take sNameLen
            startupNs := toInt64 (get64 body)
            state := body.getD 8 0
            svcType := body.getD 9 0
            pid := toInt32 (get32 (body.drop 10)) }
        (decodeBootTimeEntries k (body.drop 14)).map (fun es => e :: es)

/-- `DecodeBootTime`. -/
def DecodeBootTime (data : List Nat) : Option BootTimeInfo :=
  if data.length < 28 then Option.none
  else
    let ku := toInt64 (get64 data)
    let bs := toInt64 (get64 (data.drop 8))
    let br := toInt64 (get64 (data.drop 16))
    let rest := data.drop 24
    if rest.length < 2 then Option.none
    else
      let nameLen := get16 rest
      let rest := rest.drop 2
      if rest.length < nameLen then Option.none
      else
        let name := rest.take nameLen
        let rest := rest.drop nameLen
        if rest.length < 2 then Option.none
        else
          let numSvcs := get16 rest
          let rest := rest.drop 2
          (decodeBootTimeEntries numSvcs rest).map (fun es =>
            { kernelUptimeNs := ku
              bootStartNs := bs
              bootReadyNs := br
              bootSvcName := name
              services := es })

/-- Byte-ness of a buffer: every element is below 256 (name bytes of a Go
string always are). -/
def isBytes (b : List Nat) : Prop :=
  ∀ x ∈ b, x < 256

instance (b : List Nat) : Decidable (isBytes b) := by
  unfold isBytes
  infer_instance

/-- In-range conditions for one boot-time entry, as guaranteed by the Go
types (`string` length in `uint16` after the cast, `int64`, `uint8`,
`int32`). -/
def entryWF (e : BootTimeEntry) : Prop :=
  e.name.length < 65536 ∧ isBytes e.name ∧
    -9223372036854775808 ≤ e.startupNs ∧ e.startupNs < 9223372036854775808 ∧
    e.state < 256 ∧ e.svcType < 256 ∧
    -2147483648 ≤ e.pid ∧ e.pid < 2147483648

instance (e : BootTimeEntry) : Decidable (entryWF e) := by
  unfold entryWF
  infer_instance

/-- In-range conditions for a `BootTimeInfo` value. -/
def bootTimeWF (info : BootTimeInfo) : Prop :=
  (-9223372036854775808 ≤ info.kernelUptimeNs ∧ info.kernelUptimeNs < 9223372036854775808) ∧
    (-9223372036854775808 ≤ info.bootStartNs ∧ info.bootStartNs < 9223372036854775808) ∧
    (-9223372036854775808 ≤ info.bootReadyNs ∧ info.bootReadyNs < 9223372036854775808) ∧
    info.bootSvcName.length < 65536 ∧ isBytes info.bootSvcName ∧
    info.services.length < 65536 ∧ ∀ e ∈ info.services, entryWF e

instance (info : BootTimeInfo) : Decidable (bootTimeWF info) := by
  unfold bootTimeWF
  infer_instance

/-! ## The service state machine (pkg/service/record.go, ServiceSet)

Services are identified by `Nat` indices into `St.recs`; dependency edges
are shared objects (mutated through both endpoints, as in the Go code) and
live in a central store `St.edges`, with each record holding the edge
indices of its outgoing (`dependsOn`) and incoming (`dependents`) edges.

The embedding instantiates the `Service` interface dispatch for the
INTERNAL variant (`BringUp` = `Started`, `BringDown` = `Stopped`, always
interruptible, default `CheckRestart`/`GetExitStatus`), the variant used
throughout the scheduler's own tests; process-backed variants differ only
in these hooks, which run outside `ProcessQueues`.

Wall-clock timestamps (`startRequestTime` etc.), logging and listener
notification have no effect on the machine state and are omitted. -/

/-- `ServiceDep` (dependency.go): a directed edge `src → dst` ("from
depends on to"). -/
structure Edge where
  src : Nat
  dst : Nat
  depType : DepType
  waitingOn : Bool
  holdingAcq : Bool
deriving DecidableEq, Repr

/-- `ServiceDep.IsHard`: REGULAR, or MILESTONE still waiting. -/
def Edge.isHard (e : Edge) : Bool :=
  e.depType = DepType.regular || (e.depType = DepType.milestone && e.waitingOn)

/-- `ServiceDep.IsOnlyOrdering`: BEFORE or AFTER. -/
def Edge.isOnlyOrdering (e : Edge) : Bool :=
  e.depType = DepType.before || e.depType = DepType.after

/-- `ServiceRecord` (record.go): the shared per-service state, restricted
to the fields read or written by the embedded operations. -/
structure Rec where
  state : SState := SState.stopped
  desired : SState := SState.stopped
  autoRestart : RestartMode := RestartMode.never
  pinnedStopped : Bool := false
  pinnedStarted : Bool := false
  deptPinnedStarted : Bool := false
  waitingForDeps : Bool := false
  waitingForConsole : Bool := false
  haveConsole : Bool := false
  startExplicit : Bool := false
  propRequire : Bool := false
  propRelease : Bool := false
  propFailure : Bool := false
  propStart : Bool := false
  propStop : Bool := false
  propPinDpt : Bool := false
  startFailed : Bool := false
  startSkipped : Bool := false
  inAutoRestart : Bool := false
  inUserRestart : Bool := false
  forceStop : Bool := false
  requiredBy : Int := 0
  dependsOn : List Nat := []
  dependents : List Nat := []
  stopReason : SReason := SReason.normal
  inPropQueue : Bool := false
  inStopQueue : Bool := false
  startsOnConsole : Bool := false
  runsOnConsole : Bool := false
  alwaysChain : Bool := false
  chainTo : Option Nat := Option.none
deriving DecidableEq, Repr

/-- `IsStartPinned`. -/
def Rec.isStartPinned (r : Rec) : Bool :=
  r.pinnedStarted || r.deptPinnedStarted

/-- `CanInterruptStop`. -/
def Rec.canInterruptStop (r : Rec) : Bool :=
  r.waitingForDeps && !r.forceStop

/-- `IsFundamentallyStopped`. -/
def Rec.isFundamentallyStopped (r : Rec) : Bool :=
  r.state = SState.stopped || (r.state = SState.starting && r.waitingForDeps)

/-- `ServiceSet` (part of the service package): all records and edges, the
two scheduler queues, the console queue, the active-service counter and
the shutdown bookkeeping. -/
structure St where
  recs : List Rec
  edges : List Edge
  propQueue : List Nat
  stopQueue : List Nat
  consoleQueue : List Nat
  activeServices : Int
  restartEnabled : Bool
  shutdownType : ShutdownTy
deriving DecidableEq, Repr

/-- The default record (all-stopped, no flags), the `getD` fallback for
out-of-range indices (which no reachable operation produces). -/
def recDefault : Rec := {}

/-- The `getD` fallback edge. -/
def edgeDefault : Edge :=
  { src := 0, dst := 0, depType := DepType.regular, waitingOn := false, holdingAcq := false }

def St.recAt (st : St) (i : Nat) : Rec := st.recs.getD i recDefault

def St.edge (st : St) (j : Nat) : Edge := st.edges.getD j edgeDefault

def St.updRec (st : St) (i : Nat) (f : Rec → Rec) : St :=
  { st with recs := st.recs.set i (f (st.recAt i)) }

def St.updEdge (st : St) (j : Nat) (f : Edge → Edge) : St :=
  { st with edges := st.edges.set j (f (st.edge j)) }

/-- `ServiceSet.AddPropQueue`: append once, guarded by `InPropQueue`. -/
def AddPropQueue (st : St) (i : Nat) : St :=
  if (st.recAt i).inPropQueue then st
  else
    { st.updRec i (fun r => { r with inPropQueue := true }) with
        propQueue := st.propQueue ++ [i] }

/-- `ServiceSet.AddTransitionQueue`: append once, guarded by
`InStopQueue`. -/
def AddTransitionQueue (st : St) (i : Nat) : St :=
  if (st.recAt i).inStopQueue then st
  else
    { st.updRec i (fun r => { r with inStopQueue := true }) with
        stopQueue := st.stopQueue ++ [i] }

/-- `ServiceSet.ServiceActive`. -/
def ServiceActive (st : St) : St :=
  { st with activeServices := st.activeServices + 1 }

/-- `ServiceSet.ServiceInactive`. -/
def ServiceInactive (st : St) : St :=
  { st with activeServices := st.activeServices - 1 }

/-- `ServiceSet.IsShuttingDown`. -/
def IsShuttingDown (st : St) : Bool :=
  !st.restartEnabled

/-- `ServiceSet.UnqueueConsole`: remove the first occurrence. -/
def UnqueueConsole (st : St) (i : Nat) : St :=
  { st with consoleQueue := st.consoleQueue.erase i }

/-! Internal-variant hook values (internal.go together with the
`ServiceRecord` defaults): `CanInterruptStart` and `InterruptStart` return
true, `CheckRestart` defaults to true, and `GetExitStatus` is the zero
`ExitStatus` (no status: `Exited()` and `Signaled()` false, `ExitCode()`
-1). -/

def internalCanInterruptStart : Bool := true
def internalInterruptStart : Bool := true
def internalCheckRestart : Bool := true
def internalExited : Bool := false
def internalSignaled : Bool := false
def internalExitCode : Int := -1

/-- `Require`: bump the reference count; on the 0→1 edge schedule a start
unless already starting/started. -/
def Require (st : St) (i : Nat) : St :=
  let st := st.updRec i (fun r => { r with requiredBy := r.requiredBy + 1 })
  let r := st.recAt i
  if r.requiredBy = 1 then
    if r.state ≠ SState.starting ∧ r.state ≠ SState.started then
      AddPropQueue (st.updRec i (fun r => { r with propStart := true })) i
    else st
  else st

/-- `ForcedStop`. -/
def ForcedStop (st : St) (i : Nat) : St :=
  if (st.recAt i).state ≠ SState.stopped then
    let st := st.updRec i (fun r => { r with forceStop := true })
    if !(st.recAt i).isStartPinned then
      AddPropQueue (st.updRec i (fun r => { r with propStop := true })) i
    else st
  else st

/-- `PinStart`. -/
def PinStart (st : St) (i : Nat) : St :=
  let r := st.recAt i
  if !r.pinnedStarted then
    let st :=
      if !r.deptPinnedStarted then
        r.dependsOn.foldl
          (fun st j =>
            let e := st.edge j
            if e.isHard then
              if !(st.recAt e.dst).deptPinnedStarted then
                AddPropQueue (st.updRec e.dst (fun r => { r with propPinDpt := true })) e.dst
              else st
            else st)
          st
      else st
    st.updRec i (fun r => { r with pinnedStarted := true })
  else st

/-- `PinStop`. -/
def PinStop (st : St) (i : Nat) : St :=
  st.updRec i (fun r => { r with pinnedStopped := true })

/-- `dependencyStarted`: a dependency of `i` is now started. -/
def dependencyStarted (st : St) (i : Nat) : St :=
  let r := st.recAt i
  if (r.state = SState.starting ∨ r.state = SState.started) ∧ r.waitingForDeps then
    AddTransitionQueue st i
  else st

/-- `dependentStopped`: a dependent of `i` has stopped. -/
def dependentStopped (st : St) (i : Nat) : St :=
  let r := st.recAt i
  if r.state = SState.stopping ∧ r.waitingForDeps then
    AddTransitionQueue st i
  else st

/-- `stopCheckDependents`: no hard dependent still holds an acquisition
(and is not itself waiting on this edge). -/
def stopCheckDependents (st : St) (i : Nat) : Bool :=
  (st.recAt i).dependents.all (fun j =>
    let e := st.edge j
    !(e.isHard && e.holdingAcq && !e.waitingOn))

/-- `checkDepsStarted`: no outgoing edge still has `waiting_on`. -/
def checkDepsStarted (st : St) (i : Nat) : Bool :=
  (st.recAt i).dependsOn.all (fun j => !(st.edge j).waitingOn)

/-- `startCheckDependencies`: mark `waiting_on` on each outgoing edge whose
target is not yet started (ordering-only edges only while the target is
starting), and on incoming ordering-only edges whose source is starting;
returns whether no outgoing wait was needed. -/
def startCheckDependencies (st : St) (i : Nat) : Bool × St :=
  let p :=
    (st.recAt i).dependsOn.foldl
      (fun (p : Bool × St) j =>
        let st := p.2
        let e := st.edge j
        let toState := (st.recAt e.dst).state
        if e.isOnlyOrdering && toState ≠ SState.starting then p
        else if toState ≠ SState.started then
          (false, st.updEdge j (fun e => { e with waitingOn := true }))
        else p)
      (true, st)
  let st :=
    (p.2.recAt i).dependents.foldl
      (fun st j =>
        let e := st.edge j
        if !e.waitingOn ∧ e.isOnlyOrdering then
          if (st.recAt e.src).state = SState.starting then
            st.updEdge j (fun e => { e with waitingOn := true })
          else st
        else st)
      p.2
  (p.1, st)

/-- `initiateStart`. -/
def initiateStart (st : St) (i : Nat) : St :=
  let st := st.updRec i (fun r =>
    { r with startFailed := false, startSkipped := false,
             state := SState.starting, waitingForDeps := true })
  let p := startCheckDependencies st i
  if p.1 then AddTransitionQueue p.2 i else p.2

/-- `queueForConsole`. -/
def queueForConsole (st : St) (i : Nat) : St :=
  let st := st.updRec i (fun r => { r with waitingForConsole := true })
  { st with consoleQueue := st.consoleQueue ++ [i] }

/-- `DoPropagation`'s `prop_require` block: acquire every non-ordering
dependency, then clear the flag. -/
def propRequireStage (st : St) (i : Nat) : St :=
  if (st.recAt i).propRequire then
    let st :=
      (st.recAt i).dependsOn.foldl
        (fun st j =>
          let e := st.edge j
          if !e.isOnlyOrdering then
            (Require st e.dst).updEdge j (fun e => { e with holdingAcq := true })
          else st)
        st
    st.updRec i (fun r => { r with propRequire := false })
  else st

/-- Option-valued fold, for the Go loops whose bodies call fueled
operations. -/
def optFold {σ α : Type} (f : σ → α → Option σ) : List α → σ → Option σ
  | [], s => some s
  | x :: xs, s =>
    match f s x with
    | Option.none => Option.none
    | some s' => optFold f xs s'

/-- The mutually recursive operations of the service state machine, as one
record of functions; the fuel-indexed family `machine` below ties the
recursive knot, one fuel unit per nested call. -/
structure Machine where
  Release : St → Nat → Bool → Option St
  ReleaseDependencies : St → Nat → Option St
  doStart : St → Nat → Option St
  allDepsStarted : St → Nat → Option St
  bringUp : St → Nat → Option (Bool × St)
  Started : St → Nat → Option St
  Stopped : St → Nat → Option St
  failedToStart : St → Nat → Bool → Bool → Option St
  doStop : St → Nat → Bool → Option St
  stopDependents : St → Nat → Bool → Bool → Option (Bool × St)
  releaseConsole : St → Nat → Option St
  PullConsoleQueue : St → Option St
  AcquiredConsole : St → Nat → Option St
  propReleaseStage : St → Nat → Option St
  propFailureStage : St → Nat → Option St
  propStartStage : St → Nat → Option St
  propStopStage : St → Nat → Option St
  propPinStage : St → Nat → Option St
  DoPropagation : St → Nat → Option St
  ExecuteTransition : St → Nat → Option St
  drainPropQueue : St → Option St
  ProcessQueues : St → Option St
  Start : St → Nat → Option St
  Stop : St → Nat → Bool → Option St
  Restart : St → Nat → Option (Bool × St)
  Unpin : St → Nat → Option St

/-- The out-of-fuel machine: every operation fails. -/
def haltedMachine : Machine where
  Release := fun st i issueStop => Option.none
  ReleaseDependencies := fun st i => Option.none
  doStart := fun st i => Option.none
  allDepsStarted := fun st i => Option.none
  bringUp := fun st i => Option.none
  Started := fun st i => Option.none
  Stopped := fun st i => Option.none
  failedToStart := fun st i depFailed immediateStop => Option.none
  doStop := fun st i withRestart => Option.none
  stopDependents := fun st i forRestart restartDeps => Option.none
  releaseConsole := fun st i => Option.none
  PullConsoleQueue := fun st => Option.none
  AcquiredConsole := fun st i => Option.none
  propReleaseStage := fun st i => Option.none
  propFailureStage := fun st i => Option.none
  propStartStage := fun st i => Option.none
  propStopStage := fun st i => Option.none
  propPinStage := fun st i => Option.none
  DoPropagation := fun st i => Option.none
  ExecuteTransition := fun st i => Option.none
  drainPropQueue := fun st => Option.none
  ProcessQueues := fun st => Option.none
  Start := fun st i => Option.none
  Stop := fun st i bringDown => Option.none
  Restart := fun st i => Option.none
  Unpin := fun st i => Option.none

/-- One recursion layer of the state machine: each operation, with its
recursive calls taken from `m`.  The bodies transcribe record.go and the
`ServiceSet` scheduler; see the per-operation wrappers below. -/
def stepMachine (m : Machine) : Machine where
  Release := fun st i issueStop =>
    let st := st.updRec i (fun r => { r with requiredBy := r.requiredBy - 1 })
    if (st.recAt i).requiredBy = 0 then
      let st := st.updRec i (fun r => { r with desired := SState.stopped })
      if (st.recAt i).isStartPinned then some st
      else
        let newRelease := !(st.recAt i).propRequire
        let st := st.updRec i (fun r =>
          { r with propRelease := newRelease, propRequire := false })
        let st := if newRelease then AddPropQueue st i else st
        let r := st.recAt i
        if r.state ≠ SState.stopped ∧ r.state ≠ SState.stopping ∧ issueStop then
          m.doStop (st.updRec i (fun r => { r with stopReason := SReason.normal })) i false
        else some st
    else some st
  ReleaseDependencies := fun st i =>
    optFold
      (fun st j =>
        let e := st.edge j
        if e.holdingAcq then
          m.Release (st.updEdge j (fun e => { e with holdingAcq := false })) e.dst true
        else some st)
      ((st.recAt i).dependsOn) st
  doStart := fun st i =>
    let wasActive := (st.recAt i).state ≠ SState.stopped
    let st := st.updRec i (fun r => { r with desired := SState.started })
    if (st.recAt i).pinnedStopped then
      if !wasActive then m.failedToStart st i false false
      else some st
    else
      let st :=
        if !wasActive then
          (st.recAt i).dependents.foldl
            (fun st j =>
              let e := st.edge j
              if !e.isHard then
                if !e.holdingAcq ∧
                    ((st.recAt e.src).state = SState.started ∨
                      (st.recAt e.src).state = SState.starting) then
                  (st.updEdge j (fun e => { e with holdingAcq := true })).updRec i
                    (fun r => { r with requiredBy := r.requiredBy + 1 })
                else st
              else st)
            st
        else st
      if wasActive then
        if (st.recAt i).state ≠ SState.stopping then some st
        else if !(st.recAt i).canInterruptStop then some st
        else some (initiateStart st i)
      else
        let st := ServiceActive st
        let newRequire := !(st.recAt i).propRelease
        let st := st.updRec i (fun r =>
          { r with propRequire := newRequire, propRelease := false })
        let st := if newRequire then AddPropQueue st i else st
        some (initiateStart st i)
  allDepsStarted := fun st i =>
    if (st.recAt i).startsOnConsole ∧ !(st.recAt i).haveConsole then
      some (queueForConsole st i)
    else
      let st := st.updRec i (fun r => { r with waitingForDeps := false })
      match m.bringUp st i with
      | Option.none => Option.none
      | some (ok, st) =>
        if ok then some st
        else
          m.failedToStart (st.updRec i (fun r => { r with state := SState.stopping })) i
            false true
  bringUp := fun st i =>
    (m.Started st i).map (fun st => (true, st))
  Started := fun st i =>
    let st? :=
      if (st.recAt i).haveConsole ∧ !(st.recAt i).runsOnConsole then m.releaseConsole st i
      else some st
    match st? with
    | Option.none => Option.none
    | some st =>
      let st := st.updRec i (fun r => { r with state := SState.started })
      if (st.recAt i).forceStop ∨ (st.recAt i).desired = SState.stopped then
        m.doStop st i false
      else
        some
          ((st.recAt i).dependents.foldl
            (fun st j =>
              if (st.edge j).waitingOn then
                let st := dependencyStarted st (st.edge j).src
                st.updEdge j (fun e => { e with waitingOn := false })
              else st)
            st)
  Stopped := fun st i =>
    let st? := if (st.recAt i).haveConsole then m.releaseConsole st i else some st
    match st? with
    | Option.none => Option.none
    | some st =>
      let st := st.updRec i (fun r => { r with forceStop := false })
      let willRestart :=
        (st.recAt i).desired = SState.started ∧ !(st.recAt i).pinnedStopped
      let st? :=
        if !willRestart then
          optFold
            (fun st j =>
              let e := st.edge j
              if !e.isHard then
                let st :=
                  if e.waitingOn then
                    dependencyStarted (st.updEdge j (fun e => { e with waitingOn := false }))
                      e.src
                  else st
                if (st.edge j).holdingAcq then
                  m.Release (st.updEdge j (fun e => { e with holdingAcq := false })) i false
                else some st
              else some st)
            ((st.recAt i).dependents) st
        else some st
      match st? with
      | Option.none => Option.none
      | some st =>
        let st :=
          (st.recAt i).dependsOn.foldl (fun st j => dependentStopped st (st.edge j).dst) st
        let st := st.updRec i (fun r => { r with state := SState.stopped })
        let st? :=
          if willRestart then some (initiateStart st i)
          else
            if (st.recAt i).startExplicit then
              m.Release (st.updRec i (fun r => { r with startExplicit := false })) i false
            else if (st.recAt i).requiredBy = 0 then some (ServiceInactive st)
            else some st
        match st? with
        | Option.none => Option.none
        | some st =>
          if !(st.recAt i).startFailed then
            match (st.recAt i).chainTo with
            | some c =>
              if !IsShuttingDown st then
                let shouldChain :=
                  (st.recAt i).alwaysChain ∨
                    ((st.recAt i).stopReason = SReason.terminated ∧ internalExited = true ∧
                      internalExitCode = 0 ∧ ¬willRestart)
                if shouldChain then
                  if c < st.recs.length then m.Start st c else some st
                else some st
              else some st
            | Option.none => some st
          else some st
  failedToStart := fun st i depFailed immediateStop =>
    let st := st.updRec i (fun r => { r with desired := SState.stopped })
    let st :=
      if (st.recAt i).waitingForConsole then
        (UnqueueConsole st i).updRec i (fun r => { r with waitingForConsole := false })
      else st
    let st? :=
      if (st.recAt i).startExplicit then
        m.Release (st.updRec i (fun r => { r with startExplicit := false })) i false
      else some st
    match st? with
    | Option.none => Option.none
    | some st =>
      let st? :=
        optFold
          (fun st j =>
            let e := st.edge j
            let st? :=
              match e.depType with
              | DepType.regular | DepType.milestone =>
                if (st.recAt e.src).state = SState.starting then
                  some
                    (AddPropQueue (st.updRec e.src (fun r => { r with propFailure := true }))
                      e.src)
                else some st
              | _ =>
                if e.waitingOn then
                  some
                    (dependencyStarted (st.updEdge j (fun e => { e with waitingOn := false }))
                      e.src)
                else some st
            match st? with
            | Option.none => Option.none
            | some st =>
              if (st.edge j).holdingAcq then
                m.Release (st.updEdge j (fun e => { e with holdingAcq := false })) i false
              else some st)
          ((st.recAt i).dependents) st
      match st? with
      | Option.none => Option.none
      | some st =>
        let st := st.updRec i (fun r => { r with startFailed := true, pinnedStarted := false })
        if immediateStop then m.Stopped st i else some st
  doStop := fun st i withRestart =>
    if (st.recAt i).isStartPinned then some st
    else
      let st := st.updRec i (fun r => { r with inAutoRestart := false, inUserRestart := false })
      let r := st.recAt i
      let checkA := r.autoRestart = RestartMode.always ∧ r.desired = SState.started
      let checkF :=
        r.autoRestart = RestartMode.onFailure ∧ r.desired = SState.started ∧
          (internalSignaled = true ∨ (internalExited = true ∧ internalExitCode ≠ 0))
      let forRestart :=
        if withRestart then true
        else if checkA ∨ checkF then internalCheckRestart else false
      let st :=
        if ¬withRestart ∧ (checkA ∨ checkF) then
          st.updRec i (fun r => { r with inAutoRestart := internalCheckRestart })
        else st
      let restartDeps := withRestart
      let st? :=
        if !forRestart ∧ (st.recAt i).startExplicit then
          m.Release (st.updRec i (fun r => { r with startExplicit := false })) i false
        else some st
      match st? with
      | Option.none => Option.none
      | some st =>
        match m.stopDependents st i forRestart restartDeps with
        | Option.none => Option.none
        | some (allDepsStopped, st) =>
          let finish : St → Option St := fun st =>
            let st := st.updRec i (fun r =>
              { r with state := SState.stopping, waitingForDeps := !allDepsStopped })
            some (if allDepsStopped then AddTransitionQueue st i else st)
          let r := st.recAt i
          if r.state ≠ SState.started then
            if r.state = SState.starting then
              if !r.waitingForDeps ∧ !r.waitingForConsole then
                if !internalCanInterruptStart then some st
                else if !internalInterruptStart then some st
                else finish st
              else
                let st :=
                  if r.waitingForConsole then
                    (UnqueueConsole st i).updRec i
                      (fun r => { r with waitingForConsole := false })
                  else st
                finish st
            else some st
          else finish st
  stopDependents := fun st i forRestart restartDeps =>
    optFold
      (fun (p : Bool × St) j =>
        let allStopped := p.1
        let st := p.2
        let e := st.edge j
        if e.isHard then
          let allStopped :=
            if !(st.recAt e.src).isFundamentallyStopped then false else allStopped
          let st :=
            if (st.recAt i).forceStop then
              if (st.recAt i).desired = SState.stopped then
                ForcedStop
                  (st.updRec e.src (fun r =>
                    { r with stopReason := SReason.depFailed, desired := SState.stopped }))
                  e.src
              else ForcedStop st e.src
            else st
          if (st.recAt e.src).state ≠ SState.stopped then
            if (st.recAt i).desired = SState.stopped then
              if (st.recAt e.src).desired ≠ SState.stopped then
                let st := st.updRec e.src (fun r => { r with desired := SState.stopped })
                let st? :=
                  if (st.recAt e.src).startExplicit then
                    m.Release (st.updRec e.src (fun r => { r with startExplicit := false }))
                      e.src true
                  else some st
                match st? with
                | Option.none => Option.none
                | some st =>
                  some (allStopped,
                    AddPropQueue (st.updRec e.src (fun r => { r with propStop := true })) e.src)
              else some (allStopped, st)
            else if restartDeps ∧ (st.recAt e.src).state ≠ SState.stopping then
              some (allStopped,
                AddPropQueue
                  (st.updRec e.src (fun r =>
                    { r with stopReason := SReason.depRestart, inUserRestart := true,
                             propStop := true }))
                  e.src)
            else some (allStopped, st)
          else some (allStopped, st)
        else if !forRestart then
          let st :=
            if e.waitingOn then
              dependencyStarted (st.updEdge j (fun e => { e with waitingOn := false })) e.src
            else st
          if (st.edge j).holdingAcq then
            match m.Release (st.updEdge j (fun e => { e with holdingAcq := false })) i false with
            | Option.none => Option.none
            | some st => some (allStopped, st)
          else some (allStopped, st)
        else some (allStopped, st))
      ((st.recAt i).dependents) (true, st)
  releaseConsole := fun st i =>
    m.PullConsoleQueue (st.updRec i (fun r => { r with haveConsole := false }))
  PullConsoleQueue := fun st =>
    match st.consoleQueue with
    | [] => some st
    | j :: rest => m.AcquiredConsole { st with consoleQueue := rest } j
  AcquiredConsole := fun st i =>
    let st := st.updRec i (fun r =>
      { r with waitingForConsole := false, haveConsole := true })
    if (st.recAt i).state ≠ SState.starting then m.releaseConsole st i
    else if checkDepsStarted st i then m.allDepsStarted st i
    else m.releaseConsole st i
  propReleaseStage := fun st i =>
    if (st.recAt i).propRelease then
      match m.ReleaseDependencies st i with
      | Option.none => Option.none
      | some st => some (st.updRec i (fun r => { r with propRelease := false }))
    else some st
  propFailureStage := fun st i =>
    if (st.recAt i).propFailure then
      m.failedToStart
        (st.updRec i (fun r =>
          { r with propFailure := false, stopReason := SReason.depFailed,
                   state := SState.stopped }))
        i true true
    else some st
  propStartStage := fun st i =>
    if (st.recAt i).propStart then
      m.doStart (st.updRec i (fun r => { r with propStart := false })) i
    else some st
  propStopStage := fun st i =>
    if (st.recAt i).propStop then
      m.doStop (st.updRec i (fun r => { r with propStop := false })) i
        ((st.recAt i).inUserRestart)
    else some st
  propPinStage := fun st i =>
    if (st.recAt i).propPinDpt then
      let st := st.updRec i (fun r => { r with propPinDpt := false })
      let deptPin :=
        (st.recAt i).dependents.any (fun j =>
          let e := st.edge j
          e.isHard && (st.recAt e.src).isStartPinned)
      if deptPin ≠ (st.recAt i).deptPinnedStarted then
        let st := st.updRec i (fun r => { r with deptPinnedStarted := deptPin })
        let st :=
          (st.recAt i).dependsOn.foldl
            (fun st j =>
              let e := st.edge j
              if e.isHard then
                if (st.recAt e.dst).deptPinnedStarted ≠ deptPin then
                  AddPropQueue (st.updRec e.dst (fun r => { r with propPinDpt := true })) e.dst
                else st
              else st)
            st
        let r := st.recAt i
        if !r.deptPinnedStarted ∧ !r.pinnedStarted then
          if (r.desired = SState.stopped ∨ r.forceStop) ∧ r.state = SState.started then
            m.doStop st i false
          else some st
        else some st
      else some st
    else some st
  DoPropagation := fun st i =>
    let st := propRequireStage st i
    match m.propReleaseStage st i with
    | Option.none => Option.none
    | some st =>
      match m.propFailureStage st i with
      | Option.none => Option.none
      | some st =>
        match m.propStartStage st i with
        | Option.none => Option.none
        | some st =>
          match m.propStopStage st i with
          | Option.none => Option.none
          | some st => m.propPinStage st i
  ExecuteTransition := fun st i =>
    if (st.recAt i).state = SState.starting then
      if checkDepsStarted st i then
        m.allDepsStarted (st.updRec i (fun r => { r with waitingForDeps := false })) i
      else some st
    else if (st.recAt i).state = SState.stopping then
      if stopCheckDependents st i then
        m.Stopped (st.updRec i (fun r => { r with waitingForDeps := false })) i
      else some st
    else some st
  drainPropQueue := fun st =>
    match st.propQueue with
    | [] => some st
    | j :: rest =>
      let st := { st with propQueue := rest }
      let st := st.updRec j (fun r => { r with inPropQueue := false })
      match m.DoPropagation st j with
      | Option.none => Option.none
      | some st => m.drainPropQueue st
  ProcessQueues := fun st =>
    if st.propQueue = [] ∧ st.stopQueue = [] then some st
    else
      match m.drainPropQueue st with
      | Option.none => Option.none
      | some st =>
        match st.stopQueue with
        | [] => m.ProcessQueues st
        | j :: rest =>
          let st := { st with stopQueue := rest }
          let st := st.updRec j (fun r => { r with inStopQueue := false })
          match m.ExecuteTransition st j with
          | Option.none => Option.none
          | some st => m.ProcessQueues st
  Start := fun st i =>
    if (st.recAt i).pinnedStopped then some st
    else
      let st :=
        if !(st.recAt i).startExplicit then
          st.updRec i (fun r =>
            { r with requiredBy := r.requiredBy + 1, startExplicit := true })
        else st
      m.doStart st i
  Stop := fun st i bringDown =>
    let st :=
      if (st.recAt i).startExplicit then
        st.updRec i (fun r =>
          { r with startExplicit := false, requiredBy := r.requiredBy - 1 })
      else st
    let st :=
      if bringDown ∨ (st.recAt i).requiredBy = 0 then
        st.updRec i (fun r => { r with desired := SState.stopped })
      else st
    if (st.recAt i).isStartPinned then some st
    else
      let bd := bringDown ∨ (st.recAt i).requiredBy = 0
      let st :=
        if (st.recAt i).requiredBy = 0 then
          let newRel := !(st.recAt i).propRequire
          let st := st.updRec i (fun r => { r with propRelease := newRel })
          if newRel then AddPropQueue st i else st
        else st
      if bd ∧ (st.recAt i).state ≠ SState.stopped then
        m.doStop (st.updRec i (fun r => { r with stopReason := SReason.normal })) i false
      else some st
  Restart := fun st i =>
    if (st.recAt i).state = SState.started then
      match
        m.doStop
          (st.updRec i (fun r => { r with stopReason := SReason.normal, forceStop := true }))
          i true
      with
      | Option.none => Option.none
      | some st => some (true, st)
    else some (false, st)
  Unpin := fun st i =>
    if (st.recAt i).pinnedStarted then
      let st := st.updRec i (fun r => { r with pinnedStarted := false })
      if (st.recAt i).deptPinnedStarted then some st
      else
        let st :=
          (st.recAt i).dependsOn.foldl
            (fun st j =>
              let e := st.edge j
              if e.isHard then
                if (st.recAt e.dst).deptPinnedStarted then
                  AddPropQueue (st.updRec e.dst (fun r => { r with propPinDpt := true })) e.dst
                else st
              else st)
            st
        let st? :=
          if (st.recAt i).state = SState.started then
            let st :=
              if (st.recAt i).requiredBy = 0 then
                AddPropQueue (st.updRec i (fun r => { r with propRelease := true })) i
              else st
            if (st.recAt i).desired = SState.stopped ∨ (st.recAt i).forceStop then
              match m.doStop st i false with
              | Option.none => Option.none
              | some st => m.ProcessQueues st
            else some st
          else some st
        match st? with
        | Option.none => Option.none
        | some st =>
          some
            (if (st.recAt i).pinnedStopped then
              st.updRec i (fun r => { r with pinnedStopped := false })
            else st)
    else
      some
        (if (st.recAt i).pinnedStopped then
          st.updRec i (fun r => { r with pinnedStopped := false })
        else st)

/-- The fueled machine. -/
def machine : Nat → Machine
  | 0 => haltedMachine
  | fu + 1 => stepMachine (machine fu)

/-- `Release`: drop the reference count; crossing to 0 schedules release
propagation and (with `issueStop`) an immediate stop. -/
def Release (fu : Nat) (st : St) (i : Nat) (issueStop : Bool) : Option St :=
  (machine fu).Release st i issueStop

/-- `ReleaseDependencies`: release every held acquisition. -/
def ReleaseDependencies (fu : Nat) (st : St) (i : Nat) : Option St :=
  (machine fu).ReleaseDependencies st i

/-- `doStart`. -/
def doStart (fu : Nat) (st : St) (i : Nat) : Option St :=
  (machine fu).doStart st i

/-- `allDepsStarted`: console gate, then the variant's `BringUp` (internal:
`Started`, always succeeding — the failure branch is the
`failedToStart` call shown). -/
def allDepsStarted (fu : Nat) (st : St) (i : Nat) : Option St :=
  (machine fu).allDepsStarted st i

/-- INTERNAL `BringUp`: call `Started`, report success. -/
def bringUp (fu : Nat) (st : St) (i : Nat) : Option (Bool × St) :=
  (machine fu).bringUp st i

/-- `Started`: the service reached STARTED. -/
def Started (fu : Nat) (st : St) (i : Nat) : Option St :=
  (machine fu).Started st i

/-- `Stopped`: the service has actually stopped. -/
def Stopped (fu : Nat) (st : St) (i : Nat) : Option St :=
  (machine fu).Stopped st i

/-- `failedToStart`. -/
def failedToStart (fu : Nat) (st : St) (i : Nat) (depFailed immediateStop : Bool) : Option St :=
  (machine fu).failedToStart st i depFailed immediateStop

/-- `doStop`. -/
def doStop (fu : Nat) (st : St) (i : Nat) (withRestart : Bool) : Option St :=
  (machine fu).doStop st i withRestart

/-- `stopDependents`: force or schedule the stop of hard dependents, break
soft links; returns whether every hard dependent is already fundamentally
stopped. -/
def stopDependents (fu : Nat) (st : St) (i : Nat) (forRestart restartDeps : Bool) : Option (Bool × St) :=
  (machine fu).stopDependents st i forRestart restartDeps

/-- `releaseConsole`. -/
def releaseConsole (fu : Nat) (st : St) (i : Nat) : Option St :=
  (machine fu).releaseConsole st i

/-- `ServiceSet.PullConsoleQueue`. -/
def PullConsoleQueue (fu : Nat) (st : St) : Option St :=
  (machine fu).PullConsoleQueue st

/-- `AcquiredConsole`. -/
def AcquiredConsole (fu : Nat) (st : St) (i : Nat) : Option St :=
  (machine fu).AcquiredConsole st i

/-- `DoPropagation`'s `prop_release` block. -/
def propReleaseStage (fu : Nat) (st : St) (i : Nat) : Option St :=
  (machine fu).propReleaseStage st i

/-- `DoPropagation`'s `prop_failure` block. -/
def propFailureStage (fu : Nat) (st : St) (i : Nat) : Option St :=
  (machine fu).propFailureStage st i

/-- `DoPropagation`'s `prop_start` block. -/
def propStartStage (fu : Nat) (st : St) (i : Nat) : Option St :=
  (machine fu).propStartStage st i

/-- `DoPropagation`'s `prop_stop` block. -/
def propStopStage (fu : Nat) (st : St) (i : Nat) : Option St :=
  (machine fu).propStopStage st i

/-- `DoPropagation`'s `prop_pin_dpt` block. -/
def propPinStage (fu : Nat) (st : St) (i : Nat) : Option St :=
  (machine fu).propPinStage st i

/-- `DoPropagation`: apply the six pending propagation flags in order. -/
def DoPropagation (fu : Nat) (st : St) (i : Nat) : Option St :=
  (machine fu).DoPropagation st i

/-- `ExecuteTransition`. -/
def ExecuteTransition (fu : Nat) (st : St) (i : Nat) : Option St :=
  (machine fu).ExecuteTransition st i

/-- The inner `for len(ss.propQueue) > 0` loop of `ProcessQueues`. -/
def drainPropQueue (fu : Nat) (st : St) : Option St :=
  (machine fu).drainPropQueue st

/-- `ProcessQueues`: drain propagation fully, then one transition step, to
a fixed point. -/
def ProcessQueues (fu : Nat) (st : St) : Option St :=
  (machine fu).ProcessQueues st

/-- `Start`. -/
def Start (fu : Nat) (st : St) (i : Nat) : Option St :=
  (machine fu).Start st i

/-- `Stop`. -/
def Stop (fu : Nat) (st : St) (i : Nat) (bringDown : Bool) : Option St :=
  (machine fu).Stop st i bringDown

/-- `Restart`: only meaningful from STARTED; returns whether a restart was
issued. -/
def Restart (fu : Nat) (st : St) (i : Nat) : Option (Bool × St) :=
  (machine fu).Restart st i

/-- `Unpin`. -/
def Unpin (fu : Nat) (st : St) (i : Nat) : Option St :=
  (machine fu).Unpin st i

/-- `ServiceSet.StartService`. -/
def StartService (fu : Nat) (st : St) (i : Nat) : Option St :=
  match Start fu st i with
  | Option.none => Option.none
  | some st => ProcessQueues fu st

/-- `ServiceSet.StopService`. -/
def StopService (fu : Nat) (st : St) (i : Nat) : Option St :=
  match Stop fu st i true with
  | Option.none => Option.none
  | some st => ProcessQueues fu st

/-- `ServiceSet.StopAllServices` (the Go map iteration is modelled in index
order). -/
def StopAllServices (fu : Nat) (st : St) (t : ShutdownTy) : Option St :=
  let st := { st with restartEnabled := false, shutdownType := t }
  match
    optFold
      (fun st i =>
        match Stop fu st i false with
        | Option.none => Option.none
        | some st => Unpin fu st i)
      (List.range st.recs.length) st
  with
  | Option.none => Option.none
  | some st => ProcessQueues fu st

/-- `AddDep`: create an edge and wire it into both endpoints (loader-time
graph construction; the runtime acquisition branch is included as in the
source). -/
def AddDep (st : St) (i : Nat) (toIdx : Nat) (d : DepType) : St :=
  let j := st.edges.length
  let e : Edge :=
    { src := i, dst := toIdx, depType := d, waitingOn := false, holdingAcq := false }
  let st := { st with edges := st.edges ++ [e] }
  let st := st.updRec i (fun r => { r with dependsOn := r.dependsOn ++ [j] })
  let st := st.updRec toIdx (fun r => { r with dependents := r.dependents ++ [j] })
  if d ≠ DepType.before ∧ d ≠ DepType.after then
    if d = DepType.regular ∨ (st.recAt toIdx).state = SState.started ∨
        (st.recAt toIdx).state = SState.starting then
      if (st.recAt i).state = SState.starting ∨ (st.recAt i).state = SState.started then
        (Require st toIdx).updEdge j (fun e => { e with holdingAcq := true })
      else st
    else st
  else st

/-! ### Entry-point commands and reachability -/

/-- The state-machine entry points reachable from the control server and
the event loop. -/
inductive Cmd
  | startSvc (i : Nat)
  | stopSvc (i : Nat)
  | restartSvc (i : Nat)
  | pinStartSvc (i : Nat)
  | pinStopSvc (i : Nat)
  | unpinSvc (i : Nat)
  | stopAll (t : ShutdownTy)
deriving DecidableEq, Repr

/-- One command, as dispatched by the control connection / event loop
(mutators followed by a queue drain, as in the handlers). -/
def runCmd (fu : Nat) (st : St) : Cmd → Option St
  | Cmd.startSvc i => StartService fu st i
  | Cmd.stopSvc i => StopService fu st i
  | Cmd.restartSvc i =>
    match Restart fu st i with
    | Option.none => Option.none
    | some (_, st) => ProcessQueues fu st
  | Cmd.pinStartSvc i => some (PinStart st i)
  | Cmd.pinStopSvc i => some (PinStop st i)
  | Cmd.unpinSvc i =>
    match Unpin fu st i with
    | Option.none => Option.none
    | some st => ProcessQueues fu st
  | Cmd.stopAll t => StopAllServices fu st t

/-- Run a command list. -/
def runCmds (fu : Nat) (cs : List Cmd) (st : St) : Option St :=
  optFold (runCmd fu) cs st

/-! ### Scheduler invariants (the claims' properties) -/

/-- The six propagation flags. -/
inductive PropFlag
  | require
  | release
  | failure
  | start
  | stop
  | pinDpt
deriving DecidableEq, Repr

instance : Fintype PropFlag :=
  ⟨⟨{PropFlag.require, PropFlag.release, PropFlag.failure,
     PropFlag.start, PropFlag.stop, PropFlag.pinDpt}, by decide⟩,
   fun f => by cases f <;> decide⟩

/-- Read one propagation flag of a record. -/
def flagOn (r : Rec) : PropFlag → Bool
  | PropFlag.require => r.propRequire
  | PropFlag.release => r.propRelease
  | PropFlag.failure => r.propFailure
  | PropFlag.start => r.propStart
  | PropFlag.stop => r.propStop
  | PropFlag.pinDpt => r.propPinDpt

/-- Queue consistency: the `in_*_queue` booleans agree with queue
membership, the queues are duplicate-free, and queue members are valid
service indices. -/
def QueueInv (st : St) : Prop :=
  (∀ i < st.recs.length, ((st.recAt i).inPropQueue = true ↔ i ∈ st.propQueue)) ∧
    st.propQueue.Nodup ∧
    (∀ i < st.recs.length, ((st.recAt i).inStopQueue = true ↔ i ∈ st.stopQueue)) ∧
    st.stopQueue.Nodup ∧
    (∀ i ∈ st.propQueue, i < st.recs.length) ∧
    (∀ i ∈ st.stopQueue, i < st.recs.length) ∧
    (∀ i ∈ st.consoleQueue, i < st.recs.length)

instance (st : St) : Decidable (QueueInv st) := by
  unfold QueueInv
  infer_instance

/-- Graph well-formedness: edge endpoints are valid service indices and the
per-record edge lists hold valid edge indices. -/
def GraphWF (st : St) : Prop :=
  (∀ e ∈ st.edges, e.src < st.recs.length ∧ e.dst < st.recs.length) ∧
    (∀ i < st.recs.length,
      (∀ j ∈ (st.recAt i).dependsOn, j < st.edges.length) ∧
        (∀ j ∈ (st.recAt i).dependents, j < st.edges.length))

instance (st : St) : Decidable (GraphWF st) := by
  unfold GraphWF
  infer_instance

/-- The scheduler's structural invariant. -/
def Inv (st : St) : Prop :=
  QueueInv st ∧ GraphWF st

instance (st : St) : Decidable (Inv st) := by
  unfold Inv
  infer_instance

/-- Claim C2's supporting invariant: a pending propagation flag implies
membership in the propagation queue. -/
def FlagsQueued (st : St) : Prop :=
  ∀ i < st.recs.length, ∀ f : PropFlag,
    flagOn (st.recAt i) f = true → i ∈ st.propQueue

instance (st : St) : Decidable (FlagsQueued st) := by
  unfold FlagsQueued
  infer_instance

/-- Claim C2's conclusion: all six propagation flags false on every
service. -/
def PropFlagsClear (st : St) : Prop :=
  ∀ i < st.recs.length, ∀ f : PropFlag, flagOn (st.recAt i) f = false

instance (st : St) : Decidable (PropFlagsClear st) := by
  unfold PropFlagsClear
  infer_instance

/-- Claim C1's invariant: every STARTED service has the target of every
hard outgoing edge STARTED. -/
def HardDepsStarted (st : St) : Prop :=
  ∀ i < st.recs.length, (st.recAt i).state = SState.started →
    ∀ j ∈ (st.recAt i).dependsOn, (st.edge j).isHard = true →
      (st.recAt (st.edge j).dst).state = SState.started

instance (st : St) : Decidable (HardDepsStarted st) := by
  unfold HardDepsStarted
  infer_instance

/-- The amended C1 invariant: the same, restricted to services that are not
start-pinned. -/
def HardDepsStartedUnpinned (st : St) : Prop :=
  ∀ i < st.recs.length, (st.recAt i).state = SState.started →
    (st.recAt i).isStartPinned = false →
    ∀ j ∈ (st.recAt i).dependsOn, (st.edge j).isHard = true →
      (st.recAt (st.edge j).dst).state = SState.started

instance (st : St) : Decidable (HardDepsStartedUnpinned st) := by
  unfold HardDepsStartedUnpinned
  infer_instance

/-- Growth/flag relation between two states: the structural invariant
holds after, the record and edge counts are preserved, the propagation
queue only grows, and any raised propagation flag is either inherited or
covered by propagation-queue membership. -/
def Steps (st st' : St) : Prop :=
  Inv st' ∧ st'.recs.length = st.recs.length ∧
    st'.edges.length = st.edges.length ∧
    (∀ i, i ∈ st.propQueue → i ∈ st'.propQueue) ∧
    (∀ i f, flagOn (st'.recAt i) f = true →
      flagOn (st.recAt i) f = true ∨ i ∈ st'.propQueue)

/-- One propagation flag of one service is covered by queue membership. -/
def FlagCov (st : St) (f : PropFlag) (i : Nat) : Prop :=
  flagOn (st.recAt i) f = true → i ∈ st.propQueue

/-- The inductive specification of the fueled machine, one clause per
operation: internal operations `Steps`; the propagation stages and
`DoPropagation` additionally cover the handled flag of their service; the
queue drains empty the queues and clear the flags; `Unpin` (which runs a
nested `ProcessQueues`) preserves the flag-coverage invariant. -/
structure MachineGood (m : Machine) : Prop where
  release : ∀ st i b st', Inv st → i < st.recs.length →
    m.Release st i b = some st' → Steps st st'
  releaseDeps : ∀ st i st', Inv st → i < st.recs.length →
    m.ReleaseDependencies st i = some st' → Steps st st'
  doStart : ∀ st i st', Inv st → i < st.recs.length →
    m.doStart st i = some st' → Steps st st'
  allDeps : ∀ st i st', Inv st → i < st.recs.length →
    m.allDepsStarted st i = some st' → Steps st st'
  bringUp : ∀ st i p, Inv st → i < st.recs.length →
    m.bringUp st i = some p → Steps st p.2
  started : ∀ st i st', Inv st → i < st.recs.length →
    m.Started st i = some st' → Steps st st'
  stopped : ∀ st i st', Inv st → i < st.recs.length →
    m.Stopped st i = some st' → Steps st st'
  failed : ∀ st i b c st', Inv st → i < st.recs.length →
    m.failedToStart st i b c = some st' → Steps st st'
  stop2 : ∀ st i b st', Inv st → i < st.recs.length →
    m.doStop st i b = some st' → Steps st st'
  stopDeps : ∀ st i b c p, Inv st → i < st.recs.length →
    m.stopDependents st i b c = some p → Steps st p.2
  relConsole : ∀ st i st', Inv st → i < st.recs.length →
    m.releaseConsole st i = some st' → Steps st st'
  pullConsole : ∀ st st', Inv st →
    m.PullConsoleQueue st = some st' → Steps st st'
  acqConsole : ∀ st i st', Inv st → i < st.recs.length →
    m.AcquiredConsole st i = some st' → Steps st st'
  stageRel : ∀ st i st', Inv st → i < st.recs.length →
    m.propReleaseStage st i = some st' →
    Steps st st' ∧ FlagCov st' PropFlag.release i
  stageFail : ∀ st i st', Inv st → i < st.recs.length →
    m.propFailureStage st i = some st' →
    Steps st st' ∧ FlagCov st' PropFlag.failure i
  stageStart : ∀ st i st', Inv st → i < st.recs.length →
    m.propStartStage st i = some st' →
    Steps st st' ∧ FlagCov st' PropFlag.start i
  stageStop : ∀ st i st', Inv st → i < st.recs.length →
    m.propStopStage st i = some st' →
    Steps st st' ∧ FlagCov st' PropFlag.stop i
  stagePin : ∀ st i st', Inv st → i < st.recs.length →
    m.propPinStage st i = some st' →
    Steps st st' ∧ FlagCov st' PropFlag.pinDpt i
  doProp : ∀ st i st', Inv st → i < st.recs.length →
    m.DoPropagation st i = some st' →
    Steps st st' ∧ ∀ f, FlagCov st' f i
  execTrans : ∀ st i st', Inv st → i < st.recs.length →
    m.ExecuteTransition st i = some st' → Steps st st'
  drain : ∀ st st', Inv st → FlagsQueued st →
    m.drainPropQueue st = some st' →
    Inv st' ∧ st'.recs.length = st.recs.length ∧
      st'.edges.length = st.edges.length ∧
      st'.propQueue = [] ∧ PropFlagsClear st'
  process : ∀ st st', Inv st → FlagsQueued st →
    m.ProcessQueues st = some st' →
    Inv st' ∧ st'.recs.length = st.recs.length ∧
      st'.edges.length = st.edges.length ∧
      st'.propQueue = [] ∧ st'.stopQueue = [] ∧ PropFlagsClear st'
  start : ∀ st i st', Inv st → i < st.recs.length →
    m.Start st i = some st' → Steps st st'
  stop : ∀ st i b st', Inv st → i < st.recs.length →
    m.Stop st i b = some st' → Steps st st'
  restart : ∀ st i p, Inv st → i < st.recs.length →
    m.Restart st i = some p → Steps st p.2
  unpin : ∀ st i st', Inv st → FlagsQueued st → i < st.recs.length →
    m.Unpin st i = some st' →
    Inv st' ∧ st'.recs.length = st.recs.length ∧
      st'.edges.length = st.edges.length ∧ FlagsQueued st'

/-- A command's service index is valid for the state it runs against. -/
def Cmd.valid (st : St) : Cmd → Prop
  | Cmd.startSvc i => i < st.recs.length
  | Cmd.stopSvc i => i < st.recs.length
  | Cmd.restartSvc i => i < st.recs.length
  | Cmd.pinStartSvc i => i < st.recs.length
  | Cmd.pinStopSvc i => i < st.recs.length
  | Cmd.unpinSvc i => i < st.recs.length
  | Cmd.stopAll _ => True

/-- A fresh service set with `n` services, no edges (the `NewServiceSet` /
`NewServiceRecord` defaults). -/
def mkSt (n : Nat) : St :=
  { recs := List.replicate n {}, edges := [],
    propQueue := [], stopQueue := [], consoleQueue := [], activeServices := 0,
    restartEnabled := true, shutdownType := ShutdownTy.none }

/-! ### Concrete scenario states

`c1init`: two internal services, service 0 with a REGULAR dependency on
service 1 (as built by `AddDep`).  `c1mid`, `c1pre`, `c1fin` are the
machine states after `StartService 0; PinStart 0`, then after `Stop 1
true`, then after the final `ProcessQueues` — the stepwise equalities are
proved below. -/

def c1init : St := AddDep (mkSt 2) 0 1 DepType.regular

def c1mid : St :=
  { recs := [{ state := SState.started, desired := SState.started, pinnedStarted := true,
               startExplicit := true, requiredBy := 1, dependsOn := [0] },
             { state := SState.started, desired := SState.started, propPinDpt := true,
               requiredBy := 1, dependents := [0], inPropQueue := true }],
    edges := [{ src := 0, dst := 1, depType := DepType.regular, waitingOn := false,
                holdingAcq := true }],
    propQueue := [1], stopQueue := [], consoleQueue := [], activeServices := 2,
    restartEnabled := true, shutdownType := ShutdownTy.none }

def c1pre : St :=
  { recs := [{ state := SState.started, pinnedStarted := true, propStop := true,
               dependsOn := [0], inPropQueue := true },
             { state := SState.stopping, waitingForDeps := true, propPinDpt := true,
               requiredBy := 1, dependents := [0], inPropQueue := true }],
    edges := [{ src := 0, dst := 1, depType := DepType.regular, waitingOn := false,
                holdingAcq := true }],
    propQueue := [1, 0], stopQueue := [], consoleQueue := [], activeServices := 2,
    restartEnabled := true, shutdownType := ShutdownTy.none }

def c1fin : St :=
  { recs := [{ state := SState.started, pinnedStarted := true, dependsOn := [0] },
             { state := SState.stopping, deptPinnedStarted := true, waitingForDeps := true,
               requiredBy := 1, dependents := [0] }],
    edges := [{ src := 0, dst := 1, depType := DepType.regular, waitingOn := false,
                holdingAcq := true }],
    propQueue := [], stopQueue := [], consoleQueue := [], activeServices := 2,
    restartEnabled := true, shutdownType := ShutdownTy.none }

/-- Continuation of the C1 trace: `c1rs` is the state after `StartService
0` from `c1fin` (the pinned, stop-bounced dependent is explicitly started
again, resetting its desired state to STARTED), `c1up` the state after
`Unpin 0` from `c1rs` (the pin is dropped and the dependency's stale
`dept_pinned_started` is queued for clearing, but no stop is resumed
because `desired` is STARTED), and `c1end` the state after the final
`ProcessQueues` — service 0 STARTED and unpinned, service 1 still
STOPPING, all queues empty. -/

def c1rs : St :=
  { recs := [{ state := SState.started, desired := SState.started, pinnedStarted := true,
               startExplicit := true, requiredBy := 1, dependsOn := [0] },
             { state := SState.stopping, deptPinnedStarted := true, waitingForDeps := true,
               requiredBy := 1, dependents := [0] }],
    edges := [{ src := 0, dst := 1, depType := DepType.regular, waitingOn := false,
                holdingAcq := true }],
    propQueue := [], stopQueue := [], consoleQueue := [], activeServices := 2,
    restartEnabled := true, shutdownType := ShutdownTy.none }

def c1up : St :=
  { recs := [{ state := SState.started, desired := SState.started,
               startExplicit := true, requiredBy := 1, dependsOn := [0] },
             { state := SState.stopping, deptPinnedStarted := true, waitingForDeps := true,
               propPinDpt := true, requiredBy := 1, dependents := [0],
               inPropQueue := true }],
    edges := [{ src := 0, dst := 1, depType := DepType.regular, waitingOn := false,
                holdingAcq := true }],
    propQueue := [1], stopQueue := [], consoleQueue := [], activeServices := 2,
    restartEnabled := true, shutdownType := ShutdownTy.none }

def c1end : St :=
  { recs := [{ state := SState.started, desired := SState.started,
               startExplicit := true, requiredBy := 1, dependsOn := [0] },
             { state := SState.stopping, waitingForDeps := true,
               requiredBy := 1, dependents := [0] }],
    edges := [{ src := 0, dst := 1, depType := DepType.regular, waitingOn := false,
                holdingAcq := true }],
    propQueue := [], stopQueue := [], consoleQueue := [], activeServices := 2,
    restartEnabled := true, shutdownType := ShutdownTy.none }

/-! ### C6: control start/stop handlers (connection.go) -/

/-- Control replies relevant to the start/stop handlers. -/
inductive CtlReply
  | ack
  | nak
  | badReq
  | alreadySS
  | shuttingDown
deriving DecidableEq, Repr

/-- `Connection.handleStartService`: bad handle, shutting-down and
already-started checks, then `StartService` and ACK. -/
def handleStartService (fu : Nat) (st : St) (svc : Option Nat) :
    Option (CtlReply × St) :=
  match svc with
  | Option.none => some (CtlReply.badReq, st)
  | some i =>
    if IsShuttingDown st then some (CtlReply.shuttingDown, st)
    else if (st.recAt i).state = SState.started then some (CtlReply.alreadySS, st)
    else
      match StartService fu st i with
      | Option.none => Option.none
      | some st => some (CtlReply.ack, st)

/-- `Connection.handleStopService`. -/
def handleStopService (fu : Nat) (st : St) (svc : Option Nat) :
    Option (CtlReply × St) :=
  match svc with
  | Option.none => some (CtlReply.badReq, st)
  | some i =>
    if (st.recAt i).state = SState.stopped then some (CtlReply.alreadySS, st)
    else
      match StopService fu st i with
      | Option.none => Option.none
      | some st => some (CtlReply.ack, st)

/-- Witness states for the start/stop handlers: one STARTED service, not
shutting down. -/
def c6started : St :=
  { recs := [{ state := SState.started, desired := SState.started, startExplicit := true,
               requiredBy := 1 }],
    edges := [], propQueue := [], stopQueue := [], consoleQueue := [], activeServices := 1,
    restartEnabled := true, shutdownType := ShutdownTy.none }

/-- The same service set in shutdown mode (`StopAllServices` has disabled
restarts) with the service still STARTED. -/
def c6shut : St :=
  { c6started with restartEnabled := false, shutdownType := ShutdownTy.halt }

/-! # Theorems

The claims of the specification, settled against the embedding above.
Scratch evaluations of the machine appear only as `example`s replaying the
behaviours asserted by the repository's own tests. -/

set_option maxRecDepth 40000

/-! ## Sanity examples: the embedded machine replays record_test.go -/

/-- `TestInternalServiceStartStop`. -/
example :
    (StartService 9 (mkSt 1) 0).map (fun st => ((st.recAt 0).state, st.activeServices)) =
      some (SState.started, 1) := by decide

/-- `TestServiceWithDependency` (start): starting the dependent starts the
dependency. -/
example :
    (StartService 9 c1init 0).map (fun st => ((st.recAt 0).state, (st.recAt 1).state)) =
      some (SState.started, SState.started) := by decide

/-- `TestServicePinStop`: a stop-pinned service refuses to start. -/
example :
    (runCmds 9 [Cmd.pinStopSvc 0, Cmd.startSvc 0] (mkSt 1)).map
        (fun st => (st.recAt 0).state) =
      some SState.stopped := by decide

/-! ## C8 — event-loop signal mapping -/

/-- **C8** The signal handler maps SIGTERM to HALT, SIGINT to REBOOT when
PID 1 and HALT otherwise, SIGQUIT to POWEROFF; SIGHUP and SIGCHLD initiate
no shutdown. -/
theorem C8_signal_mapping (pid : Nat) (hpid : pid ≠ 1) :
    handleSignal sigTERM pid = (some ShutdownTy.halt, true) ∧
    handleSignal sigINT 1 = (some ShutdownTy.reboot, true) ∧
    handleSignal sigINT pid = (some ShutdownTy.halt, true) ∧
    handleSignal sigQUIT pid = (some ShutdownTy.poweroff, true) ∧
    handleSignal sigHUP pid = (Option.none, false) ∧
    handleSignal sigCHLD pid = (Option.none, false) := by
  refine ⟨rfl, rfl, ?_, rfl, rfl, rfl⟩
  simp [handleSignal, sigTERM, sigINT, hpid]

/-- Witness for C8 at PID 4711 (not PID 1). -/
theorem C8_signal_mapping_witness :
    handleSignal sigTERM 4711 = (some ShutdownTy.halt, true) ∧
    handleSignal sigINT 1 = (some ShutdownTy.reboot, true) ∧
    handleSignal sigINT 4711 = (some ShutdownTy.halt, true) ∧
    handleSignal sigQUIT 4711 = (some ShutdownTy.poweroff, true) ∧
    handleSignal sigHUP 4711 = (Option.none, false) ∧
    handleSignal sigCHLD 4711 = (Option.none, false) :=
  C8_signal_mapping 4711 (by decide)

/-! ## C7 — shutdown executor -/

/-- **C7** `Execute` performs, in order: SIGTERM broadcast to -1, the
1-second grace sleep, SIGKILL broadcast, filesystem sync, then the reboot
syscall with HALT ↦ `LINUX_REBOOT_CMD_HALT`, POWEROFF ↦ `…_POWER_OFF`,
REBOOT ↦ `…_RESTART`; when the reboot syscall fails the process holds
forever (the trace ends in `infiniteHold`, which never returns). -/
theorem C7_shutdown_pipeline (t : ShutdownTy) (e : Bool) :
    Execute t e =
      [SysAction.kill (-1) sigTERM, SysAction.sleepNs ProcessKillGracePeriodNs,
        SysAction.kill (-1) sigKILL, SysAction.sync,
        SysAction.rebootCall (rebootSystemCmd t)] ++
        (if e then [SysAction.logRebootFailed] else []) ++ [SysAction.infiniteHold] ∧
    rebootSystemCmd ShutdownTy.halt = LINUX_REBOOT_CMD_HALT ∧
    rebootSystemCmd ShutdownTy.poweroff = LINUX_REBOOT_CMD_POWER_OFF ∧
    rebootSystemCmd ShutdownTy.reboot = LINUX_REBOOT_CMD_RESTART ∧
    ProcessKillGracePeriodNs = 1000000000 ∧
    (Execute t e).getLast? = some SysAction.infiniteHold := by
  refine ⟨?_, rfl, rfl, rfl, rfl, ?_⟩ <;> cases e <;> rfl

/-! ## C10 — SignalProcess on a cleared PID -/

/-- **C10** For every `pid ≤ 0`, `SignalProcess` returns nil without
issuing any kill syscall; in particular a stop or kill-escalation path
acting on a cleared (zero) PID can never signal the -1 broadcast group or
the 0 own-process group. -/
theorem C10_signalprocess_guards_nonpositive (pid : Int) (sig : Nat) (po : Bool)
    (h : pid ≤ 0) :
    SignalProcess pid sig po = Option.none := by
  simp [SignalProcess, h]

/-- Witness for C10 at the cleared PID 0 (SIGTERM, group delivery). -/
theorem C10_signalprocess_guards_nonpositive_witness :
    SignalProcess 0 sigTERM false = Option.none :=
  C10_signalprocess_guards_nonpositive 0 sigTERM false (by decide)

/-! ## C3 — BOOT_TIME has no dispatch case (code bug) -/

/-- **C3** The claim (and the repository's own `TestBootTimeCommand`)
require a BOOT_TIME request to be answered with a BOOT_TIME reply, but
`Connection.dispatch` has no `CmdBootTime` case: command byte 9 falls to
the default branch and is answered with BAD_REQUEST. -/
theorem C3_boottime_not_dispatched :
    dispatchTarget CmdBootTime = DispatchTarget.badRequest ∧
    CmdBootTime = 9 ∧ RplyBadReq = 52 ∧ RplyBootTime = 64 ∧ RplyBadReq ≠ RplyBootTime := by
  decide

/-! ## C4 — restart rate limiter -/

/-- 10 seconds in nanoseconds (`restart-limit-interval=10s`). -/
def interval10s : Int := 10000000000

/-- **C4** `CheckRestart` implements the restart rate limit: with
`max-count ≤ 0` it always allows; a call after the window expired resets
the window start to `now` with count 1 and allows; and with
`max_count = 3, interval = 10s`, four calls whose last three fall within
the interval of the window start opened by the first see the first three
allowed and the fourth refused (the state unchanged, so every further
in-window call is refused too and the service stays stopped). -/
theorem C4_restart_rate_limit :
    (∀ (maxC intv now : Int) (s : RestartLimiter), maxC ≤ 0 →
      (CheckRestart maxC intv now s).1 = true) ∧
    (∀ (maxC intv now : Int) (s : RestartLimiter), 0 < maxC →
      intv ≤ now - s.restartIntervalTime →
      CheckRestart maxC intv now s =
        (true, { restartIntervalTime := now, restartIntervalCount := 1 })) ∧
    (∀ (s0 : RestartLimiter) (t0 t1 t2 t3 : Int),
      interval10s ≤ t0 - s0.restartIntervalTime →
      t1 - t0 < interval10s → t2 - t0 < interval10s → t3 - t0 < interval10s →
      (CheckRestart 3 interval10s t0 s0).1 = true ∧
      (CheckRestart 3 interval10s t0 s0).2 =
        { restartIntervalTime := t0, restartIntervalCount := 1 } ∧
      (CheckRestart 3 interval10s t1 (CheckRestart 3 interval10s t0 s0).2).1 = true ∧
      (CheckRestart 3 interval10s t2
        (CheckRestart 3 interval10s t1 (CheckRestart 3 interval10s t0 s0).2).2).1 = true ∧
      CheckRestart 3 interval10s t3
          (CheckRestart 3 interval10s t2
            (CheckRestart 3 interval10s t1 (CheckRestart 3 interval10s t0 s0).2).2).2 =
        (false,
          (CheckRestart 3 interval10s t2
            (CheckRestart 3 interval10s t1 (CheckRestart 3 interval10s t0 s0).2).2).2)) := by
  refine ⟨?_, ?_, ?_⟩
  · intro maxC intv now s h
    simp [CheckRestart, h]
  · intro maxC intv now s hpos hexp
    rw [CheckRestart, if_neg (by omega), if_neg (by omega)]
  · intro s0 t0 t1 t2 t3 h0 h1 h2 h3
    have e0 : CheckRestart 3 interval10s t0 s0 =
        (true, { restartIntervalTime := t0, restartIntervalCount := 1 }) := by
      rw [CheckRestart, if_neg (by omega), if_neg (by omega)]
    have e1 : CheckRestart 3 interval10s t1
        ({ restartIntervalTime := t0, restartIntervalCount := 1 } : RestartLimiter) =
        (true, { restartIntervalTime := t0, restartIntervalCount := 2 }) := by
      rw [CheckRestart, if_neg (by omega), if_pos (by simpa using h1), if_neg (by simp)]
      rfl
    have e2 : CheckRestart 3 interval10s t2
        ({ restartIntervalTime := t0, restartIntervalCount := 2 } : RestartLimiter) =
        (true, { restartIntervalTime := t0, restartIntervalCount := 3 }) := by
      rw [CheckRestart, if_neg (by omega), if_pos (by simpa using h2), if_neg (by simp)]
      rfl
    have e3 : CheckRestart 3 interval10s t3
        ({ restartIntervalTime := t0, restartIntervalCount := 3 } : RestartLimiter) =
        (false, { restartIntervalTime := t0, restartIntervalCount := 3 }) := by
      rw [CheckRestart, if_neg (by omega), if_pos (by simpa using h3), if_pos (by simp)]
    rw [e0]
    simp only
    rw [e1]
    simp only
    rw [e2]
    simp only
    rw [e3]
    simp [e0, e1, e2, e3]

/-- Witness for C4: unlimited at max-count 0; window reset; and the
concrete four-crashes-in-10s scenario at times 20s, 21s, 22s, 23s from a
fresh limiter. -/
theorem C4_restart_rate_limit_witness :
    (CheckRestart 0 interval10s 5 ⟨0, 0⟩).1 = true ∧
    CheckRestart 3 interval10s 20000000000 ⟨0, 0⟩ =
      (true, { restartIntervalTime := 20000000000, restartIntervalCount := 1 }) ∧
    (CheckRestart 3 interval10s 23000000000
        (CheckRestart 3 interval10s 22000000000
          (CheckRestart 3 interval10s 21000000000
            (CheckRestart 3 interval10s 20000000000 ⟨0, 0⟩).2).2).2).1 = false := by
  refine ⟨C4_restart_rate_limit.1 0 interval10s 5 ⟨0, 0⟩ (by decide), ?_, ?_⟩
  · exact C4_restart_rate_limit.2.1 3 interval10s 20000000000 ⟨0, 0⟩ (by decide) (by decide)
  · have h := (C4_restart_rate_limit.2.2 ⟨0, 0⟩ 20000000000 21000000000 22000000000
      23000000000 (by decide) (by decide) (by decide) (by decide)).2.2.2.2
    rw [h]

/-! ## C5 — PID-file reader and bgprocess launcher-exit handling -/

/-- **C5** `ReadPIDFile` parses the first line (whitespace-trimmed) and
requires a positive integer: it returns OK exactly when the `kill(pid, 0)`
probe succeeds or fails with EPERM, TERMINATED exactly on ESRCH, FAILED on
any read or parse failure, non-positive PID, or other probe error; the
bgprocess launcher-exit handler then treats OK as Started with the daemon
PID recorded and every other outcome as a start failure. -/
theorem C5_pidfile_classification (contents : Option (List Char))
    (probe : Int → KillOutcome) :
    (ReadPIDFile contents probe =
      match specParsePID contents with
      | Option.none => (0, PIDResult.failed)
      | some pid =>
        match probe pid with
        | KillOutcome.ok => (pid, PIDResult.ok)
        | KillOutcome.esrch => (pid, PIDResult.terminated)
        | KillOutcome.eperm => (pid, PIDResult.ok)
        | KillOutcome.otherErr => (pid, PIDResult.failed)) ∧
    (∀ b, handleLauncherExit true b contents probe = LauncherOutcome.failedExec) ∧
    (handleLauncherExit false false contents probe = LauncherOutcome.failedLauncherExit) ∧
    ((ReadPIDFile contents probe).2 = PIDResult.ok →
      handleLauncherExit false true contents probe =
        LauncherOutcome.startedWithPID (ReadPIDFile contents probe).1) ∧
    ((ReadPIDFile contents probe).2 = PIDResult.terminated →
      handleLauncherExit false true contents probe = LauncherOutcome.failedDaemonDead) ∧
    ((ReadPIDFile contents probe).2 = PIDResult.failed →
      handleLauncherExit false true contents probe = LauncherOutcome.failedPIDFile) := by
  refine ⟨?_, fun b => rfl, rfl, ?_, ?_, ?_⟩
  · unfold ReadPIDFile specParsePID
    cases contents with
    | none => rfl
    | some data =>
      dsimp only
      by_cases hempty : trimSpace data = []
      · rw [if_pos hempty, hempty]
        rfl
      · rw [if_neg hempty]
        cases hatoi : atoi (trimSpace (firstLine (trimSpace data))) with
        | none => simp
        | some pid =>
          dsimp only
          by_cases hpos : pid ≤ 0
          · rw [if_pos hpos, if_neg (by omega)]
          · rw [if_neg hpos, if_pos (by omega)]
  · intro h
    unfold handleLauncherExit
    simp only [Bool.not_true, if_neg, Bool.false_eq_true, if_false, reduceIte]
    rcases hr : ReadPIDFile contents probe with ⟨pid, res⟩
    rw [hr] at h
    simp at h
    rw [h]
  · intro h
    unfold handleLauncherExit
    simp only [Bool.not_true, Bool.false_eq_true, if_false, reduceIte]
    rcases hr : ReadPIDFile contents probe with ⟨pid, res⟩
    rw [hr] at h
    simp at h
    rw [h]
  · intro h
    unfold handleLauncherExit
    simp only [Bool.not_true, Bool.false_eq_true, if_false, reduceIte]
    rcases hr : ReadPIDFile contents probe with ⟨pid, res⟩
    rw [hr] at h
    simp at h
    rw [h]

/-- Witness for C5: the PID file `" 123\n..."` with a live-process probe
starts the daemon with PID 123; the probe failing with ESRCH yields a
start failure. -/
theorem C5_pidfile_classification_witness :
    ReadPIDFile (some (' ' :: '1' :: '2' :: '3' :: '\n' :: 'x' :: []))
        (fun _ => KillOutcome.ok) = (123, PIDResult.ok) ∧
    handleLauncherExit false true (some (' ' :: '1' :: '2' :: '3' :: '\n' :: 'x' :: []))
        (fun _ => KillOutcome.ok) = LauncherOutcome.startedWithPID 123 ∧
    ReadPIDFile (some ('1' :: '2' :: '3' :: []))
        (fun _ => KillOutcome.esrch) = (123, PIDResult.terminated) ∧
    handleLauncherExit false true (some ('1' :: '2' :: '3' :: []))
        (fun _ => KillOutcome.esrch) = LauncherOutcome.failedDaemonDead := by
  have h1 := (C5_pidfile_classification
    (some (' ' :: '1' :: '2' :: '3' :: '\n' :: 'x' :: [])) (fun _ => KillOutcome.ok)).1
  have h2 := (C5_pidfile_classification
    (some (' ' :: '1' :: '2' :: '3' :: '\n' :: 'x' :: []))
    (fun _ => KillOutcome.ok)).2.2.2.1
  have h3 := (C5_pidfile_classification
    (some ('1' :: '2' :: '3' :: [])) (fun _ => KillOutcome.esrch)).1
  have h4 := (C5_pidfile_classification
    (some ('1' :: '2' :: '3' :: [])) (fun _ => KillOutcome.esrch)).2.2.2.2.1
  refine ⟨?_, ?_, ?_, ?_⟩
  · rw [h1]; decide
  · rw [h2] <;> rw [h1] <;> decide
  · rw [h3]; decide
  · rw [h4]; rw [h3]; decide

/-! ## C6 — START/STOP on already started/stopped services -/

/-- **C6 counterexample** The claim as stated fails when the service set is
shutting down: with a valid handle to a STARTED service, START_SERVICE
replies SHUTTING_DOWN, not ALREADY_STARTED_STOPPED (the shutdown check
precedes the already-started check in `handleStartService`). -/
theorem C6_counterexample :
    (c6shut.recAt 0).state = SState.started ∧
    handleStartService 9 c6shut (some 0) = some (CtlReply.shuttingDown, c6shut) ∧
    CtlReply.shuttingDown ≠ CtlReply.alreadySS := by
  refine ⟨by decide, ?_, by decide⟩
  decide

/-- **C6 (amended)** For a valid handle to a STARTED service,
START_SERVICE replies ALREADY_STARTED_STOPPED and leaves the whole service
set unchanged, *provided the set is not shutting down*; STOP_SERVICE on a
STOPPED service replies ALREADY_STARTED_STOPPED and mutates nothing
(unconditionally). -/
theorem C6_already_started_stopped (fu : Nat) (st : St) (i : Nat) :
    (IsShuttingDown st = false → (st.recAt i).state = SState.started →
      handleStartService fu st (some i) = some (CtlReply.alreadySS, st)) ∧
    ((st.recAt i).state = SState.stopped →
      handleStopService fu st (some i) = some (CtlReply.alreadySS, st)) := by
  constructor
  · intro hshut hstate
    unfold handleStartService
    dsimp only
    rw [hshut, hstate]
    simp
  · intro hstate
    unfold handleStopService
    dsimp only
    rw [hstate]
    simp

/-- Witness for the amended C6 on concrete states: a STARTED service in a
non-shutdown set, and a STOPPED service. -/
theorem C6_already_started_stopped_witness :
    handleStartService 9 c6started (some 0) = some (CtlReply.alreadySS, c6started) ∧
    handleStopService 9 (mkSt 1) (some 0) = some (CtlReply.alreadySS, mkSt 1) := by
  refine ⟨(C6_already_started_stopped 9 c6started 0).1 (by decide) (by decide),
    (C6_already_started_stopped 9 (mkSt 1) 0).2 (by decide)⟩

/-! ## C1 — the STARTED ⇒ hard-deps-STARTED invariant -/

/-- **C1 counterexample** Start service 0 (with a REGULAR dependency on
service 1), pin it started, then stop service 1 through the control
entry point (`Stop(true)` followed by `ProcessQueues`).  `ProcessQueues`
returns with service 0 STARTED, its outgoing edge hard (REGULAR), and the
edge's target in state STOPPING, not STARTED: the pinned dependent's
`doStop` returned at the start-pin guard, so the dependency can never
finish stopping while the pin holds. -/
theorem C1_counterexample :
    runCmds 9 [Cmd.startSvc 0, Cmd.pinStartSvc 0] c1init = some c1mid ∧
    Stop 9 c1mid 1 true = some c1pre ∧
    ProcessQueues 9 c1pre = some c1fin ∧
    ¬ HardDepsStarted c1fin := by
  refine ⟨by decide, by decide, by decide, by decide⟩

/-! ## C9 — protocol codec roundtrips -/

theorem length_put16 (n : Nat) : (put16 n).length = 2 := rfl

theorem length_put32 (n : Nat) : (put32 n).length = 4 := rfl

theorem length_put64 (n : Nat) : (put64 n).length = 8 := rfl

theorem drop_put16 (n : Nat) (r : List Nat) : (put16 n ++ r).drop 2 = r := rfl

theorem drop_put32 (n : Nat) (r : List Nat) : (put32 n ++ r).drop 4 = r := rfl

theorem drop_put64 (n : Nat) (r : List Nat) : (put64 n ++ r).drop 8 = r := rfl

theorem get16_put16 (n : Nat) (r : List Nat) : get16 (put16 n ++ r) = n % 65536 := by
  simp [get16, put16]
  omega

theorem get32_put32 (n : Nat) (r : List Nat) : get32 (put32 n ++ r) = n % 4294967296 := by
  simp [get32, put32]
  omega

theorem get64_put64 (n : Nat) (r : List Nat) (h : n < 18446744073709551616) :
    get64 (put64 n ++ r) = n := by
  have h1 : put64 n ++ r = put32 (n % 4294967296) ++ (put32 (n / 4294967296) ++ r) := by
    simp [put64]
  rw [get64, h1, get32_put32, drop_put32, get32_put32]
  omega

theorem toUInt32bits_lt (z : Int) : toUInt32bits z < 4294967296 := by
  unfold toUInt32bits
  omega

theorem toUInt64bits_lt (z : Int) : toUInt64bits z < 18446744073709551616 := by
  unfold toUInt64bits
  omega

theorem toInt32_toUInt32bits (z : Int) (h1 : -2147483648 ≤ z) (h2 : z < 2147483648) :
    toInt32 (toUInt32bits z) = z := by
  unfold toInt32 toUInt32bits
  split <;> omega

theorem toInt64_toUInt64bits (z : Int)
    (h1 : -9223372036854775808 ≤ z) (h2 : z < 9223372036854775808) :
    toInt64 (toUInt64bits z) = z := by
  unfold toInt64 toUInt64bits
  split <;> omega

/-- One step of the boot-time entry decode loop, on a buffer laid out as
`EncodeBootTime` lays out one entry followed by arbitrary trailing
bytes. -/
theorem decodeBootTimeEntries_step (k L : Nat) (hL : L < 65536) (name : List Nat)
    (hlen : name.length = L) (s64 st2 ty2 p32 : Nat)
    (hs : s64 < 18446744073709551616) (hp : p32 < 4294967296) (rest : List Nat) :
    decodeBootTimeEntries (k + 1)
        (put16 L ++ (name ++ (put64 s64 ++ ([st2, ty2] ++ (put32 p32 ++ rest))))) =
      (decodeBootTimeEntries k rest).map (fun es =>
        ({ name := name, startupNs := toInt64 s64, state := st2, svcType := ty2,
           pid := toInt32 p32 } : BootTimeEntry) :: es) := by
  have hD : (put16 L ++ (name ++ (put64 s64 ++ ([st2, ty2] ++ (put32 p32 ++ rest))))).length =
      16 + L + rest.length := by
    simp [put16, put64, put32]
    omega
  have hget : get16 (put16 L ++ (name ++ (put64 s64 ++ ([st2, ty2] ++
      (put32 p32 ++ rest))))) = L := by
    rw [get16_put16]
    omega
  have hdrop2 : (put16 L ++ (name ++ (put64 s64 ++ ([st2, ty2] ++
      (put32 p32 ++ rest))))).drop 2 =
      name ++ (put64 s64 ++ ([st2, ty2] ++ (put32 p32 ++ rest))) := drop_put16 _ _
  have htake : (name ++ (put64 s64 ++ ([st2, ty2] ++ (put32 p32 ++ rest)))).take L =
      name := List.take_left' hlen
  have hdropL : (put16 L ++ (name ++ (put64 s64 ++ ([st2, ty2] ++
      (put32 p32 ++ rest))))).drop (2 + L) =
      put64 s64 ++ ([st2, ty2] ++ (put32 p32 ++ rest)) := by
    have h2L : 2 + L = (put16 L ++ name).length := by
      simp [put16]
      omega
    rw [h2L, ← List.append_assoc, List.drop_left]
  have hbody8 : (put64 s64 ++ ([st2, ty2] ++ (put32 p32 ++ rest))).getD 8 0 = st2 := rfl
  have hbody9 : (put64 s64 ++ ([st2, ty2] ++ (put32 p32 ++ rest))).getD 9 0 = ty2 := rfl
  have hbody10 : (put64 s64 ++ ([st2, ty2] ++ (put32 p32 ++ rest))).drop 10 =
      put32 p32 ++ rest := rfl
  have hbody14 : (put64 s64 ++ ([st2, ty2] ++ (put32 p32 ++ rest))).drop 14 = rest := rfl
  have hget64 : get64 (put64 s64 ++ ([st2, ty2] ++ (put32 p32 ++ rest))) = s64 :=
    get64_put64 _ _ hs
  have hget32 : get32 (put32 p32 ++ rest) = p32 := by
    rw [get32_put32]
    omega
  rw [decodeBootTimeEntries]
  rw [if_neg (by omega)]
  simp only [hget]
  rw [if_neg (by omega)]
  simp only [hdrop2, htake, hdropL, hbody8, hbody9, hbody10, hbody14, hget64, hget32]

/-- Decoding the concatenated encodings of well-formed entries recovers the
list. -/
theorem decodeBootTimeEntries_encode (es : List BootTimeEntry)
    (h : ∀ e ∈ es, entryWF e) :
    decodeBootTimeEntries es.length ((es.map encodeBootTimeEntry).flatten) = some es := by
  induction es with
  | nil => rfl
  | cons e es ih =>
    obtain ⟨hn, -, hs1, hs2, hst, hty, hp1, hp2⟩ := h e (List.mem_cons_self e es)
    have hflat : ((e :: es).map encodeBootTimeEntry).flatten =
        put16 e.name.length ++ (e.name ++ (put64 (toUInt64bits e.startupNs) ++
          ([e.state % 256, e.svcType % 256] ++ (put32 (toUInt32bits e.pid) ++
            (es.map encodeBootTimeEntry).flatten)))) := by
      simp [encodeBootTimeEntry]
    rw [List.length_cons, hflat,
      decodeBootTimeEntries_step es.length e.name.length hn e.name rfl _ _ _ _
        (toUInt64bits_lt _) (toUInt32bits_lt _) _,
      ih (fun e' he' => h e' (List.mem_cons_of_mem e he'))]
    simp only [Option.map_some']
    have hstate : e.state % 256 = e.state := Nat.mod_eq_of_lt hst
    have htype : e.svcType % 256 = e.svcType := Nat.mod_eq_of_lt hty
    have hstartup : toInt64 (toUInt64bits e.startupNs) = e.startupNs :=
      toInt64_toUInt64bits _ hs1 hs2
    have hpid : toInt32 (toUInt32bits e.pid) = e.pid :=
      toInt32_toUInt32bits _ hp1 hp2
    rw [hstate, htype, hstartup, hpid]

theorem get32_put32_nil (n : Nat) : get32 (put32 n) = n % 4294967296 := by
  have := get32_put32 n []
  simpa using this

/-- **C9** The protocol codecs are mutually inverse: `DecodeServiceStatus ∘
`EncodeServiceStatus` reproduces the encoded state, target state, type,
flags byte, PID and exit code; `DecodeSvcInfo ∘ EncodeSvcInfo` reproduces
the name and the same fields (consuming the whole entry); and
`DecodeBootTime ∘ EncodeBootTime` is the identity on every `BootTimeInfo`
whose name lengths, service count and numeric fields are within wire
range. -/
theorem C9_codec_roundtrips :
    (∀ v : SvcView, v.state < 256 → v.target < 256 → v.stype < 256 →
      -2147483648 ≤ v.pid → v.pid < 2147483648 →
      -2147483648 ≤ v.exitCode → v.exitCode < 2147483648 →
      DecodeServiceStatus (EncodeServiceStatus v) =
        some { state := v.state, targetState := v.target, svcType := v.stype,
               flags := statusFlagsByte v, pid := v.pid, exitStatus := v.exitCode }) ∧
    (∀ v : SvcView, v.name.length < 65536 → v.state < 256 → v.target < 256 →
      v.stype < 256 → -2147483648 ≤ v.pid → v.pid < 2147483648 →
      DecodeSvcInfo (EncodeSvcInfo v) =
        some ({ name := v.name, state := v.state, targetState := v.target,
                svcType := v.stype, flags := statusFlagsByte v, pid := v.pid },
          2 + v.name.length + 8)) ∧
    (∀ info : BootTimeInfo, bootTimeWF info →
      DecodeBootTime (EncodeBootTime info) = some info) := by
  refine ⟨?_, ?_, ?_⟩
  · intro v hs ht hty hp1 hp2 he1 he2
    unfold EncodeServiceStatus DecodeServiceStatus
    rw [if_neg (by simp [put32])]
    have hpid : get32 (([v.state % 256, v.target % 256, v.stype % 256,
        statusFlagsByte v] ++ put32 (toUInt32bits v.pid) ++
        put32 (toUInt32bits v.exitCode)).drop 4) = toUInt32bits v.pid := by
      have : (([v.state % 256, v.target % 256, v.stype % 256, statusFlagsByte v] ++
          put32 (toUInt32bits v.pid) ++ put32 (toUInt32bits v.exitCode)).drop 4) =
          put32 (toUInt32bits v.pid) ++ put32 (toUInt32bits v.exitCode) := rfl
      rw [this, get32_put32]
      have := toUInt32bits_lt v.pid
      omega
    have hexit : get32 (([v.state % 256, v.target % 256, v.stype % 256,
        statusFlagsByte v] ++ put32 (toUInt32bits v.pid) ++
        put32 (toUInt32bits v.exitCode)).drop 8) = toUInt32bits v.exitCode := by
      have : (([v.state % 256, v.target % 256, v.stype % 256, statusFlagsByte v] ++
          put32 (toUInt32bits v.pid) ++ put32 (toUInt32bits v.exitCode)).drop 8) =
          put32 (toUInt32bits v.exitCode) := rfl
      rw [this, get32_put32_nil]
      have := toUInt32bits_lt v.exitCode
      omega
    rw [hpid, hexit, toInt32_toUInt32bits _ hp1 hp2, toInt32_toUInt32bits _ he1 he2]
    simp only [Option.some.injEq]
    have h0 : ([v.state % 256, v.target % 256, v.stype % 256, statusFlagsByte v] ++
        put32 (toUInt32bits v.pid) ++ put32 (toUInt32bits v.exitCode)).getD 0 0 =
        v.state % 256 := rfl
    have h1' : ([v.state % 256, v.target % 256, v.stype % 256, statusFlagsByte v] ++
        put32 (toUInt32bits v.pid) ++ put32 (toUInt32bits v.exitCode)).getD 1 0 =
        v.target % 256 := rfl
    have h2' : ([v.state % 256, v.target % 256, v.stype % 256, statusFlagsByte v] ++
        put32 (toUInt32bits v.pid) ++ put32 (toUInt32bits v.exitCode)).getD 2 0 =
        v.stype % 256 := rfl
    have h3' : ([v.state % 256, v.target % 256, v.stype % 256, statusFlagsByte v] ++
        put32 (toUInt32bits v.pid) ++ put32 (toUInt32bits v.exitCode)).getD 3 0 =
        statusFlagsByte v := rfl
    rw [h0, h1', h2', h3', Nat.mod_eq_of_lt hs, Nat.mod_eq_of_lt ht, Nat.mod_eq_of_lt hty]
  · intro v hn hs ht hty hp1 hp2
    have hsplit : EncodeSvcInfo v =
        put16 v.name.length ++ (v.name ++ ([v.state % 256, v.target % 256, v.stype % 256,
          statusFlagsByte v] ++ put32 (toUInt32bits v.pid))) := by
      simp [EncodeSvcInfo]
    have hlenEnc : (EncodeSvcInfo v).length = 2 + v.name.length + 8 := by
      rw [hsplit]
      simp [put16, put32]
      omega
    have hget : get16 (EncodeSvcInfo v) = v.name.length := by
      rw [hsplit, get16_put16]
      omega
    have hname : ((EncodeSvcInfo v).drop 2).take v.name.length = v.name := by
      rw [hsplit, drop_put16]
      exact List.take_left' rfl
    have hdropN : (EncodeSvcInfo v).drop (2 + v.name.length) =
        [v.state % 256, v.target % 256, v.stype % 256, statusFlagsByte v] ++
          put32 (toUInt32bits v.pid) := by
      rw [hsplit]
      have h2L : 2 + v.name.length = (put16 v.name.length ++ v.name).length := by
        simp [put16]
        omega
      rw [h2L, ← List.append_assoc, List.drop_left]
    have hdropN4 : (EncodeSvcInfo v).drop (2 + v.name.length + 4) =
        put32 (toUInt32bits v.pid) := by
      have := congrArg (fun l => List.drop 4 l) hdropN
      simpa [List.drop_drop, Nat.add_comm] using this
    unfold DecodeSvcInfo DecodeServiceName
    rw [if_neg (by omega), hget, if_neg (by omega), hname]
    simp only
    rw [if_neg (by omega)]
    rw [hdropN, hdropN4]
    have hg32 : get32 (put32 (toUInt32bits v.pid)) = toUInt32bits v.pid := by
      rw [get32_put32_nil]
      have := toUInt32bits_lt v.pid
      omega
    rw [hg32, toInt32_toUInt32bits _ hp1 hp2]
    simp only [Option.some.injEq, Prod.mk.injEq]
    refine ⟨?_, trivial⟩
    have f0 : ([v.state % 256, v.target % 256, v.stype % 256, statusFlagsByte v] ++
        put32 (toUInt32bits v.pid)).getD 0 0 = v.state % 256 := rfl
    have f1 : ([v.state % 256, v.target % 256, v.stype % 256, statusFlagsByte v] ++
        put32 (toUInt32bits v.pid)).getD 1 0 = v.target % 256 := rfl
    have f2 : ([v.state % 256, v.target % 256, v.stype % 256, statusFlagsByte v] ++
        put32 (toUInt32bits v.pid)).getD 2 0 = v.stype % 256 := rfl
    have f3 : ([v.state % 256, v.target % 256, v.stype % 256, statusFlagsByte v] ++
        put32 (toUInt32bits v.pid)).getD 3 0 = statusFlagsByte v := rfl
    rw [f0, f1, f2, f3, Nat.mod_eq_of_lt hs, Nat.mod_eq_of_lt ht, Nat.mod_eq_of_lt hty]
  · intro info hwf
    obtain ⟨⟨hk1, hk2⟩, ⟨hb1, hb2⟩, ⟨hr1, hr2⟩, hname, -, hnum, hes⟩ := hwf
    have hsplit : EncodeBootTime info =
        put64 (toUInt64bits info.kernelUptimeNs) ++
          (put64 (toUInt64bits info.bootStartNs) ++
            (put64 (toUInt64bits info.bootReadyNs) ++
              (put16 info.bootSvcName.length ++ (info.bootSvcName ++
                (put16 info.services.length ++
                  (info.services.map encodeBootTimeEntry).flatten))))) := by
      simp [EncodeBootTime]
    have hlenEnc : 28 ≤ (EncodeBootTime info).length := by
      rw [hsplit]
      simp [put64, put32, put16]
      omega
    have hku : get64 (EncodeBootTime info) = toUInt64bits info.kernelUptimeNs := by
      rw [hsplit]
      exact get64_put64 _ _ (toUInt64bits_lt _)
    have hdrop8 : (EncodeBootTime info).drop 8 =
        put64 (toUInt64bits info.bootStartNs) ++
          (put64 (toUInt64bits info.bootReadyNs) ++
            (put16 info.bootSvcName.length ++ (info.bootSvcName ++
              (put16 info.services.length ++
                (info.services.map encodeBootTimeEntry).flatten)))) := by
      rw [hsplit]
      exact drop_put64 _ _
    have hdrop16 : (EncodeBootTime info).drop 16 =
        put64 (toUInt64bits info.bootReadyNs) ++
          (put16 info.bootSvcName.length ++ (info.bootSvcName ++
            (put16 info.services.length ++
              (info.services.map encodeBootTimeEntry).flatten))) := by
      have : (EncodeBootTime info).drop 16 = ((EncodeBootTime info).drop 8).drop 8 := by
        rw [List.drop_drop]
      rw [this, hdrop8]
      exact drop_put64 _ _
    have hdrop24 : (EncodeBootTime info).drop 24 =
        put16 info.bootSvcName.length ++ (info.bootSvcName ++
          (put16 info.services.length ++
            (info.services.map encodeBootTimeEntry).flatten)) := by
      have : (EncodeBootTime info).drop 24 = ((EncodeBootTime info).drop 16).drop 8 := by
        rw [List.drop_drop]
      rw [this, hdrop16]
      exact drop_put64 _ _
    have hbs : get64 ((EncodeBootTime info).drop 8) = toUInt64bits info.bootStartNs := by
      rw [hdrop8]
      exact get64_put64 _ _ (toUInt64bits_lt _)
    have hbr : get64 ((EncodeBootTime info).drop 16) = toUInt64bits info.bootReadyNs := by
      rw [hdrop16]
      exact get64_put64 _ _ (toUInt64bits_lt _)
    have hrest := hdrop24
    have hgetL : get16 ((EncodeBootTime info).drop 24) = info.bootSvcName.length := by
      rw [hrest, get16_put16]
      omega
    have hrestLen : ((EncodeBootTime info).drop 24).length =
        2 + info.bootSvcName.length + 2 +
          ((info.services.map encodeBootTimeEntry).flatten).length := by
      rw [hrest]
      simp [put16]
      omega
    have hdropL2 : ((EncodeBootTime info).drop 24).drop 2 =
        info.bootSvcName ++ (put16 info.services.length ++
          (info.services.map encodeBootTimeEntry).flatten) := by
      rw [hrest, drop_put16]
    have htakeName : (((EncodeBootTime info).drop 24).drop 2).take info.bootSvcName.length =
        info.bootSvcName := by
      rw [hdropL2]
      exact List.take_left' rfl
    have hdropName : (((EncodeBootTime info).drop 24).drop 2).drop info.bootSvcName.length =
        put16 info.services.length ++ (info.services.map encodeBootTimeEntry).flatten := by
      rw [hdropL2]
      exact List.drop_left' rfl
    have hgetN : get16 ((((EncodeBootTime info).drop 24).drop 2).drop
        info.bootSvcName.length) = info.services.length := by
      rw [hdropName, get16_put16]
      omega
    have hdropNum : (((((EncodeBootTime info).drop 24).drop 2).drop
        info.bootSvcName.length)).drop 2 = (info.services.map encodeBootTimeEntry).flatten := by
      rw [hdropName, drop_put16]
    unfold DecodeBootTime
    rw [if_neg (by omega)]
    simp only [hku, hbs, hbr, hgetL, hgetN]
    rw [if_neg (by omega)]
    rw [if_neg (by rw [hdropL2]; simp)]
    rw [htakeName]
    rw [if_neg (by rw [hdropName]; simp [put16])]
    rw [hdropNum, decodeBootTimeEntries_encode info.services hes]
    simp only [Option.map_some', Option.some.injEq]
    rw [toInt64_toUInt64bits _ hk1 hk2, toInt64_toUInt64bits _ hb1 hb2,
      toInt64_toUInt64bits _ hr1 hr2]

/-- Witness for C9: the three roundtrips at concrete frames. -/
theorem C9_codec_roundtrips_witness :
    DecodeServiceStatus (EncodeServiceStatus
        ⟨[115, 49], 2, 2, 0, 1234, true, false, 0⟩) =
      some ⟨2, 2, 0, statusFlagsByte ⟨[115, 49], 2, 2, 0, 1234, true, false, 0⟩,
        1234, 0⟩ ∧
    DecodeSvcInfo (EncodeSvcInfo ⟨[115, 49], 2, 2, 0, 1234, true, false, 0⟩) =
      some (⟨[115, 49], 2, 2, 0,
          statusFlagsByte ⟨[115, 49], 2, 2, 0, 1234, true, false, 0⟩, 1234⟩,
        2 + ([115, 49] : List Nat).length + 8) ∧
    DecodeBootTime (EncodeBootTime ⟨5, 7, 9, [98], [⟨[97], 11, 2, 1, 33⟩]⟩) =
      some ⟨5, 7, 9, [98], [⟨[97], 11, 2, 1, 33⟩]⟩ :=
  ⟨C9_codec_roundtrips.1 _ (by decide) (by decide) (by decide) (by decide)
      (by decide) (by decide) (by decide),
   C9_codec_roundtrips.2.1 _ (by decide) (by decide) (by decide) (by decide)
      (by decide) (by decide),
   C9_codec_roundtrips.2.2 _ (by decide)⟩

/-! ## C2 — propagation-flag bookkeeping

`Steps` lemmas for the primitive state operations, then the `MachineGood`
induction over the fueled machine, and the claim theorem. -/

theorem recs_length_updRec (st : St) (i : Nat) (f : Rec → Rec) :
    (st.updRec i f).recs.length = st.recs.length := by
  simp [St.updRec]

theorem edges_length_updRec (st : St) (i : Nat) (f : Rec → Rec) :
    (st.updRec i f).edges = st.edges := rfl

theorem queues_updRec (st : St) (i : Nat) (f : Rec → Rec) :
    (st.updRec i f).propQueue = st.propQueue ∧
      (st.updRec i f).stopQueue = st.stopQueue ∧
      (st.updRec i f).consoleQueue = st.consoleQueue :=
  ⟨rfl, rfl, rfl⟩

theorem recAt_updRec_self (st : St) (i : Nat) (f : Rec → Rec)
    (h : i < st.recs.length) : (st.updRec i f).recAt i = f (st.recAt i) := by
  simp [St.updRec, St.recAt, List.getD_eq_getElem?_getD, List.getElem?_set_self, h]

theorem recAt_updRec_other (st : St) (i : Nat) (f : Rec → Rec) (i' : Nat)
    (h : i' ≠ i) : (st.updRec i f).recAt i' = st.recAt i' := by
  simp [St.updRec, St.recAt, List.getD_eq_getElem?_getD,
    List.getElem?_set_ne (fun hh => h hh.symm)]

theorem updRec_out (st : St) (i : Nat) (f : Rec → Rec)
    (h : st.recs.length ≤ i) : st.updRec i f = st := by
  simp [St.updRec, List.set_eq_of_length_le h]

theorem edge_updRec (st : St) (i : Nat) (f : Rec → Rec) (j : Nat) :
    (st.updRec i f).edge j = st.edge j := rfl

theorem edges_length_updEdge (st : St) (j : Nat) (f : Edge → Edge) :
    (st.updEdge j f).edges.length = st.edges.length := by
  simp [St.updEdge]

theorem recAt_updEdge (st : St) (j : Nat) (f : Edge → Edge) (i : Nat) :
    (st.updEdge j f).recAt i = st.recAt i := rfl

theorem edge_mem (st : St) (j : Nat) (h : j < st.edges.length) :
    st.edge j ∈ st.edges := by
  rw [St.edge, List.getD_eq_getElem?_getD, List.getElem?_eq_getElem h]
  exact List.getElem_mem h

theorem recAt_pq (st : St) (q : List Nat) (i : Nat) :
    ({ st with propQueue := q } : St).recAt i = st.recAt i := rfl

theorem recAt_sq (st : St) (q : List Nat) (i : Nat) :
    ({ st with stopQueue := q } : St).recAt i = st.recAt i := rfl

theorem Steps_refl (st : St) (hInv : Inv st) : Steps st st :=
  ⟨hInv, rfl, rfl, fun _ h => h, fun _ _ h => Or.inl h⟩

theorem Steps_trans {a b c : St} (h1 : Steps a b) (h2 : Steps b c) : Steps a c := by
  obtain ⟨i1, l1, e1, m1, f1⟩ := h1
  obtain ⟨i2, l2, e2, m2, f2⟩ := h2
  refine ⟨i2, by omega, by omega, fun i h => m2 i (m1 i h), fun i f h => ?_⟩
  rcases f2 i f h with hb | hmem
  · rcases f1 i f hb with ha | hm
    · exact Or.inl ha
    · exact Or.inr (m2 i hm)
  · exact Or.inr hmem

theorem Inv_steps {a b : St} (h : Steps a b) : Inv b := h.1

theorem Steps_of_fields (st st' : St) (hInv : Inv st) (h1 : st'.recs = st.recs)
    (h2 : st'.edges = st.edges) (h3 : st'.propQueue = st.propQueue)
    (h4 : st'.stopQueue = st.stopQueue) (h5 : st'.consoleQueue = st.consoleQueue) :
    Steps st st' := by
  cases st'
  cases st
  dsimp at h1 h2 h3 h4 h5
  subst h1 h2 h3 h4 h5
  exact Steps_refl _ hInv

theorem Inv_updRec (st : St) (i : Nat) (f : Rec → Rec) (hInv : Inv st)
    (hp : ∀ r, (f r).inPropQueue = r.inPropQueue)
    (hs : ∀ r, (f r).inStopQueue = r.inStopQueue)
    (hd : ∀ r, (f r).dependsOn = r.dependsOn)
    (hd2 : ∀ r, (f r).dependents = r.dependents) :
    Inv (st.updRec i f) := by
  rcases Nat.lt_or_ge i st.recs.length with hi | hi
  case inr => rw [updRec_out st i f hi]; exact hInv
  obtain ⟨⟨q1, q2, q3, q4, q5, q6, q7⟩, g1, g2⟩ := hInv
  have hrec : ∀ i', (st.updRec i f).recAt i' =
      if i' = i then f (st.recAt i) else st.recAt i' := by
    intro i'
    by_cases h : i' = i
    · rw [if_pos h, h, recAt_updRec_self st i f hi]
    · rw [if_neg h, recAt_updRec_other st i f i' h]
  constructor
  · refine ⟨?_, q2, ?_, q4, ?_, ?_, ?_⟩
    · intro i' hl
      rw [hrec i']
      by_cases h : i' = i
      · rw [if_pos h, hp, h]; exact q1 i hi
      · rw [if_neg h]; exact q1 i' (by rw [recs_length_updRec] at hl; exact hl)
    · intro i' hl
      rw [hrec i']
      by_cases h : i' = i
      · rw [if_pos h, hs, h]; exact q3 i hi
      · rw [if_neg h]; exact q3 i' (by rw [recs_length_updRec] at hl; exact hl)
    · intro i' h
      rw [recs_length_updRec]
      exact q5 i' h
    · intro i' h
      rw [recs_length_updRec]
      exact q6 i' h
    · intro i' h
      rw [recs_length_updRec]
      exact q7 i' h
  · refine ⟨?_, ?_⟩
    · intro e he
      rw [edges_length_updRec] at he
      have := g1 e he
      rw [recs_length_updRec]
      exact this
    · intro i' hl
      rw [hrec i']
      rw [recs_length_updRec] at hl
      by_cases h : i' = i
      · rw [if_pos h, hd, hd2]; exact g2 i hi
      · rw [if_neg h]; exact g2 i' hl

theorem Steps_updRec (st : St) (i : Nat) (f : Rec → Rec) (hInv : Inv st)
    (hfl : ∀ r g, flagOn (f r) g = true → flagOn r g = true)
    (hp : ∀ r, (f r).inPropQueue = r.inPropQueue)
    (hs : ∀ r, (f r).inStopQueue = r.inStopQueue)
    (hd : ∀ r, (f r).dependsOn = r.dependsOn)
    (hd2 : ∀ r, (f r).dependents = r.dependents) :
    Steps st (st.updRec i f) := by
  refine ⟨Inv_updRec st i f hInv hp hs hd hd2, recs_length_updRec st i f, by
    rw [edges_length_updRec], fun _ h => h, ?_⟩
  intro i' g h
  by_cases hii : i' = i
  · subst hii
    rcases Nat.lt_or_ge i' st.recs.length with hi | hi
    · rw [recAt_updRec_self st i' f hi] at h
      exact Or.inl (hfl _ g h)
    · rw [updRec_out st i' f hi] at h
      exact Or.inl h
  · rw [recAt_updRec_other st i f i' hii] at h
    exact Or.inl h

theorem updEdge_out (st : St) (j : Nat) (f : Edge → Edge)
    (h : st.edges.length ≤ j) : st.updEdge j f = st := by
  simp [St.updEdge, List.set_eq_of_length_le h]

theorem Steps_updEdge (st : St) (j : Nat) (f : Edge → Edge) (hInv : Inv st)
    (hsrc : ∀ e, (f e).src = e.src) (hdst : ∀ e, (f e).dst = e.dst) :
    Steps st (st.updEdge j f) := by
  rcases Nat.lt_or_ge j st.edges.length with hj | hj
  case inr => rw [updEdge_out st j f hj]; exact Steps_refl st hInv
  obtain ⟨hQ, g1, g2⟩ := hInv
  have hInv' : Inv (st.updEdge j f) := by
    refine ⟨hQ, ?_, ?_⟩
    · intro e he
      rcases List.mem_or_eq_of_mem_set he with h | h
      · exact g1 e h
      · subst h
        rw [hsrc, hdst]
        exact g1 (st.edge j) (edge_mem st j hj)
    · intro i hl
      have := g2 i hl
      rw [show (st.updEdge j f).edges.length = st.edges.length from by
        simp [St.updEdge]]
      exact this
  exact ⟨hInv', rfl, by simp [St.updEdge], fun _ h => h, fun _ _ h => Or.inl h⟩

theorem mem_addPropQueue (st : St) (i : Nat) (hq : QueueInv st)
    (hi : i < st.recs.length) : i ∈ (AddPropQueue st i).propQueue := by
  unfold AddPropQueue
  split
  case isTrue h => exact (hq.1 i hi).mp h
  case isFalse h => simp

theorem Steps_AddPropQueue (st : St) (i : Nat) (hInv : Inv st)
    (hi : i < st.recs.length) : Steps st (AddPropQueue st i) := by
  unfold AddPropQueue
  split
  case isTrue h => exact Steps_refl st hInv
  case isFalse h =>
    obtain ⟨⟨q1, q2, q3, q4, q5, q6, q7⟩, g1, g2⟩ := hInv
    have hnotin : i ∉ st.propQueue := by
      intro hmem
      exact h ((q1 i hi).mpr hmem)
    have hrec : ∀ i', ({ st.updRec i (fun r => { r with inPropQueue := true }) with
        propQueue := st.propQueue ++ [i] } : St).recAt i' =
        if i' = i then { st.recAt i with inPropQueue := true } else st.recAt i' := by
      intro i'
      by_cases hii : i' = i
      · subst hii
        rw [if_pos rfl, recAt_pq, recAt_updRec_self st i' _ hi]
      · rw [if_neg hii, recAt_pq, recAt_updRec_other st i _ i' hii]
    refine ⟨⟨⟨?_, ?_, ?_, q4, ?_, ?_, ?_⟩, ?_, ?_⟩, by simp [St.updRec], rfl,
      fun i' h' => List.mem_append_left _ h', ?_⟩
    · intro i' hl
      rw [hrec i']
      rw [show ({ st.updRec i (fun r => { r with inPropQueue := true }) with
        propQueue := st.propQueue ++ [i] } : St).recs.length = st.recs.length from by
        simp [St.updRec]] at hl
      by_cases hii : i' = i
      · subst hii
        rw [if_pos rfl]
        simp
      · rw [if_neg hii]
        rw [q1 i' hl]
        simp [hii]
    · simp [List.nodup_append, q2, hnotin]
    · intro i' hl
      rw [hrec i']
      rw [show ({ st.updRec i (fun r => { r with inPropQueue := true }) with
        propQueue := st.propQueue ++ [i] } : St).recs.length = st.recs.length from by
        simp [St.updRec]] at hl
      by_cases hii : i' = i
      · subst hii
        rw [if_pos rfl]
        exact q3 i' hl
      · rw [if_neg hii]
        exact q3 i' hl
    · intro i' hmem
      rw [show ({ st.updRec i (fun r => { r with inPropQueue := true }) with
        propQueue := st.propQueue ++ [i] } : St).recs.length = st.recs.length from by
        simp [St.updRec]]
      rcases List.mem_append.mp hmem with h' | h'
      · exact q5 i' h'
      · rw [List.mem_singleton.mp h']; exact hi
    · intro i' hmem
      rw [show ({ st.updRec i (fun r => { r with inPropQueue := true }) with
        propQueue := st.propQueue ++ [i] } : St).recs.length = st.recs.length from by
        simp [St.updRec]]
      exact q6 i' hmem
    · intro i' hmem
      rw [show ({ st.updRec i (fun r => { r with inPropQueue := true }) with
        propQueue := st.propQueue ++ [i] } : St).recs.length = st.recs.length from by
        simp [St.updRec]]
      exact q7 i' hmem
    · intro e he
      have := g1 e he
      rw [show ({ st.updRec i (fun r => { r with inPropQueue := true }) with
        propQueue := st.propQueue ++ [i] } : St).recs.length = st.recs.length from by
        simp [St.updRec]]
      exact this
    · intro i' hl
      rw [hrec i']
      rw [show ({ st.updRec i (fun r => { r with inPropQueue := true }) with
        propQueue := st.propQueue ++ [i] } : St).recs.length = st.recs.length from by
        simp [St.updRec]] at hl
      by_cases hii : i' = i
      · subst hii
        rw [if_pos rfl]
        exact g2 i' hl
      · rw [if_neg hii]
        exact g2 i' hl
    · intro i' g hflag
      rw [hrec i'] at hflag
      by_cases hii : i' = i
      · subst hii
        exact Or.inr (by simp)
      · rw [if_neg hii] at hflag
        exact Or.inl hflag

theorem Steps_raise (st : St) (i : Nat) (f : Rec → Rec) (hInv : Inv st)
    (hi : i < st.recs.length)
    (hp : ∀ r, (f r).inPropQueue = r.inPropQueue)
    (hs : ∀ r, (f r).inStopQueue = r.inStopQueue)
    (hd : ∀ r, (f r).dependsOn = r.dependsOn)
    (hd2 : ∀ r, (f r).dependents = r.dependents) :
    Steps st (AddPropQueue (st.updRec i f) i) := by
  have hI1 : Inv (st.updRec i f) := Inv_updRec st i f hInv hp hs hd hd2
  have hi1 : i < (st.updRec i f).recs.length := by
    rw [recs_length_updRec]; exact hi
  have h2 := Steps_AddPropQueue (st.updRec i f) i hI1 hi1
  have hmem : i ∈ (AddPropQueue (st.updRec i f) i).propQueue :=
    mem_addPropQueue (st.updRec i f) i hI1.1 hi1
  refine ⟨h2.1, by rw [h2.2.1, recs_length_updRec],
    by rw [h2.2.2.1, edges_length_updRec], ?_, ?_⟩
  · intro i' h'
    exact h2.2.2.2.1 i' h'
  · intro i' g hflag
    by_cases hii : i' = i
    · exact Or.inr (by rw [hii]; exact hmem)
    · rcases h2.2.2.2.2 i' g hflag with h | h
      · rw [recAt_updRec_other st i f i' hii] at h
        exact Or.inl h
      · exact Or.inr h

theorem mem_addTransQueue (st : St) (i : Nat) (hq : QueueInv st)
    (hi : i < st.recs.length) : i ∈ (AddTransitionQueue st i).stopQueue := by
  unfold AddTransitionQueue
  split
  case isTrue h => exact (hq.2.2.1 i hi).mp h
  case isFalse h => simp

theorem Steps_AddTransitionQueue (st : St) (i : Nat) (hInv : Inv st)
    (hi : i < st.recs.length) : Steps st (AddTransitionQueue st i) := by
  unfold AddTransitionQueue
  split
  case isTrue h => exact Steps_refl st hInv
  case isFalse h =>
    obtain ⟨⟨q1, q2, q3, q4, q5, q6, q7⟩, g1, g2⟩ := hInv
    have hnotin : i ∉ st.stopQueue := by
      intro hmem
      exact h ((q3 i hi).mpr hmem)
    have hlen : ({ st.updRec i (fun r => { r with inStopQueue := true }) with
        stopQueue := st.stopQueue ++ [i] } : St).recs.length = st.recs.length := by
      simp [St.updRec]
    have hrec : ∀ i', ({ st.updRec i (fun r => { r with inStopQueue := true }) with
        stopQueue := st.stopQueue ++ [i] } : St).recAt i' =
        if i' = i then { st.recAt i with inStopQueue := true } else st.recAt i' := by
      intro i'
      by_cases hii : i' = i
      · rw [if_pos hii, hii, recAt_sq, recAt_updRec_self st i _ hi]
      · rw [if_neg hii, recAt_sq, recAt_updRec_other st i _ i' hii]
    refine ⟨⟨⟨?_, q2, ?_, ?_, ?_, ?_, ?_⟩, ?_, ?_⟩, hlen, rfl, fun i' h' => h', ?_⟩
    · intro i' hl
      rw [hrec i', hlen] at *
      by_cases hii : i' = i
      · rw [if_pos hii, hii]
        exact q1 i hi
      · rw [if_neg hii]
        exact q1 i' (by rw [hlen] at hl; exact hl)
    · intro i' hl
      rw [hrec i']
      by_cases hii : i' = i
      · rw [if_pos hii, hii]
        simp
      · rw [if_neg hii]
        rw [q3 i' (by rw [hlen] at hl; exact hl)]
        simp [hii]
    · simp [List.nodup_append, q4, hnotin]
    · intro i' hmem
      rw [hlen]
      exact q5 i' hmem
    · intro i' hmem
      rw [hlen]
      rcases List.mem_append.mp hmem with h' | h'
      · exact q6 i' h'
      · rw [List.mem_singleton.mp h']; exact hi
    · intro i' hmem
      rw [hlen]
      exact q7 i' hmem
    · intro e he
      rw [hlen]
      exact g1 e he
    · intro i' hl
      rw [hrec i']
      rw [hlen] at hl
      by_cases hii : i' = i
      · rw [if_pos hii]
        exact g2 i hi
      · rw [if_neg hii]
        exact g2 i' hl
    · intro i' g hflag
      rw [hrec i'] at hflag
      by_cases hii : i' = i
      · rw [if_pos hii] at hflag
        refine Or.inl ?_
        rw [hii]
        cases g <;> exact hflag
      · rw [if_neg hii] at hflag
        exact Or.inl hflag

theorem Steps_UnqueueConsole (st : St) (i : Nat) (hInv : Inv st) :
    Steps st (UnqueueConsole st i) := by
  obtain ⟨⟨q1, q2, q3, q4, q5, q6, q7⟩, g1, g2⟩ := hInv
  refine ⟨⟨⟨q1, q2, q3, q4, q5, q6, ?_⟩, g1, g2⟩, rfl, rfl,
    fun _ h => h, fun _ _ h => Or.inl h⟩
  intro i' hmem
  exact q7 i' (List.mem_of_mem_erase hmem)

theorem Steps_queueForConsole (st : St) (i : Nat) (hInv : Inv st)
    (hi : i < st.recs.length) : Steps st (queueForConsole st i) := by
  have h1 : Steps st (st.updRec i (fun r => { r with waitingForConsole := true })) :=
    Steps_updRec st i _ hInv (by intro r g h; cases g <;> exact h)
      (fun r => rfl) (fun r => rfl) (fun r => rfl) (fun r => rfl)
  obtain ⟨⟨⟨q1, q2, q3, q4, q5, q6, q7⟩, g1, g2⟩, hl, he, hm, hf⟩ := h1
  unfold queueForConsole
  refine ⟨⟨⟨q1, q2, q3, q4, q5, q6, ?_⟩, g1, g2⟩, hl, he, hm, hf⟩
  intro i' hmem
  rcases List.mem_append.mp hmem with h' | h'
  · exact q7 i' h'
  · rw [List.mem_singleton.mp h', hl]
    exact hi

theorem Steps_ServiceActive (st : St) (hInv : Inv st) :
    Steps st (ServiceActive st) :=
  Steps_of_fields st (ServiceActive st) hInv rfl rfl rfl rfl rfl

theorem Steps_ServiceInactive (st : St) (hInv : Inv st) :
    Steps st (ServiceInactive st) :=
  Steps_of_fields st (ServiceInactive st) hInv rfl rfl rfl rfl rfl

theorem foldl_steps {α : Type} (l : List α) (g : St → α → St) :
    ∀ s : St, Inv s →
      (∀ s' a, a ∈ l → Inv s' → s'.recs.length = s.recs.length →
        s'.edges.length = s.edges.length → Steps s' (g s' a)) →
      Steps s (l.foldl g s) := by
  induction l with
  | nil => exact fun s hI _ => Steps_refl s hI
  | cons a as ih =>
    intro s hI h
    have h1 : Steps s (g s a) := h s a (List.mem_cons_self a as) hI rfl rfl
    refine Steps_trans h1 (ih (g s a) h1.1 ?_)
    intro s' a' ha' hI' hl he
    exact h s' a' (List.mem_cons_of_mem a ha') hI'
      (by rw [hl]; exact h1.2.1) (by rw [he]; exact h1.2.2.1)

theorem foldlP_steps {α : Type} (l : List α) (g : Bool × St → α → Bool × St) :
    ∀ (b : Bool) (s : St), Inv s →
      (∀ b' s' a, a ∈ l → Inv s' → s'.recs.length = s.recs.length →
        s'.edges.length = s.edges.length → Steps s' (g (b', s') a).2) →
      Steps s (l.foldl g (b, s)).2 := by
  induction l with
  | nil => exact fun b s hI _ => Steps_refl s hI
  | cons a as ih =>
    intro b s hI h
    have h1 : Steps s (g (b, s) a).2 := h b s a (List.mem_cons_self a as) hI rfl rfl
    rcases hg : g (b, s) a with ⟨b1, s1⟩
    rw [hg] at h1
    have h2 := ih b1 s1 h1.1 ?_
    · rw [List.foldl_cons, hg]
      exact Steps_trans h1 h2
    · intro b' s' a' ha' hI' hl he
      exact h b' s' a' (List.mem_cons_of_mem a ha') hI'
        (by rw [hl]; exact h1.2.1) (by rw [he]; exact h1.2.2.1)

theorem optFold_steps {α : Type} (l : List α) (g : St → α → Option St) :
    ∀ s : St, Inv s →
      (∀ s' a t, a ∈ l → Inv s' → s'.recs.length = s.recs.length →
        s'.edges.length = s.edges.length → g s' a = some t → Steps s' t) →
      ∀ t, optFold g l s = some t → Steps s t := by
  induction l with
  | nil =>
    intro s hI _ t ht
    injection ht with h
    exact h ▸ Steps_refl s hI
  | cons a as ih =>
    intro s hI h t ht
    unfold optFold at ht
    cases hga : g s a with
    | none => rw [hga] at ht; cases ht
    | some s1 =>
      rw [hga] at ht
      have h1 : Steps s s1 := h s a s1 (List.mem_cons_self a as) hI rfl rfl hga
      refine Steps_trans h1 (ih s1 h1.1 ?_ t ht)
      intro s' a' t' ha' hI' hl he hg'
      exact h s' a' t' (List.mem_cons_of_mem a ha') hI'
        (by rw [hl]; exact h1.2.1) (by rw [he]; exact h1.2.2.1) hg'

theorem optFoldP_steps {α : Type} (l : List α)
    (g : Bool × St → α → Option (Bool × St)) :
    ∀ (b : Bool) (s : St), Inv s →
      (∀ b' s' a t, a ∈ l → Inv s' → s'.recs.length = s.recs.length →
        s'.edges.length = s.edges.length → g (b', s') a = some t → Steps s' t.2) →
      ∀ t, optFold g l (b, s) = some t → Steps s t.2 := by
  induction l with
  | nil =>
    intro b s hI _ t ht
    injection ht with h
    exact h ▸ Steps_refl s hI
  | cons a as ih =>
    intro b s hI h t ht
    unfold optFold at ht
    cases hga : g (b, s) a with
    | none => rw [hga] at ht; cases ht
    | some p1 =>
      rw [hga] at ht
      rcases p1 with ⟨b1, s1⟩
      have h1 : Steps s s1 := by
        have := h b s a (b1, s1) (List.mem_cons_self a as) hI rfl rfl hga
        exact this
      refine Steps_trans h1 (ih b1 s1 h1.1 ?_ t ht)
      intro b' s' a' t' ha' hI' hl he hg'
      exact h b' s' a' t' (List.mem_cons_of_mem a ha') hI'
        (by rw [hl]; exact h1.2.1) (by rw [he]; exact h1.2.2.1) hg'

theorem Steps_Require (st : St) (i : Nat) (hInv : Inv st)
    (hi : i < st.recs.length) : Steps st (Require st i) := by
  have h1 : Steps st (st.updRec i (fun r => { r with requiredBy := r.requiredBy + 1 })) :=
    Steps_updRec st i _ hInv (by intro r g h; cases g <;> exact h)
      (fun r => rfl) (fun r => rfl) (fun r => rfl) (fun r => rfl)
  unfold Require
  dsimp only
  split
  · split
    · refine Steps_trans h1 (Steps_raise _ i _ h1.1 ?_ (fun r => rfl) (fun r => rfl)
        (fun r => rfl) (fun r => rfl))
      rw [h1.2.1]
      exact hi
    · exact h1
  · exact h1

theorem Steps_ForcedStop (st : St) (i : Nat) (hInv : Inv st)
    (hi : i < st.recs.length) : Steps st (ForcedStop st i) := by
  unfold ForcedStop
  dsimp only
  split
  · have h1 : Steps st (st.updRec i (fun r => { r with forceStop := true })) :=
      Steps_updRec st i _ hInv (by intro r g h; cases g <;> exact h)
        (fun r => rfl) (fun r => rfl) (fun r => rfl) (fun r => rfl)
    split
    · refine Steps_trans h1 (Steps_raise _ i _ h1.1 ?_ (fun r => rfl) (fun r => rfl)
        (fun r => rfl) (fun r => rfl))
      rw [h1.2.1]
      exact hi
    · exact h1
  · exact Steps_refl st hInv

theorem Steps_dependencyStarted (st : St) (i : Nat) (hInv : Inv st)
    (hi : i < st.recs.length) : Steps st (dependencyStarted st i) := by
  unfold dependencyStarted
  dsimp only
  split
  · exact Steps_AddTransitionQueue st i hInv hi
  · exact Steps_refl st hInv

theorem Steps_dependentStopped (st : St) (i : Nat) (hInv : Inv st)
    (hi : i < st.recs.length) : Steps st (dependentStopped st i) := by
  unfold dependentStopped
  dsimp only
  split
  · exact Steps_AddTransitionQueue st i hInv hi
  · exact Steps_refl st hInv

theorem Steps_startCheckDependencies (st : St) (i : Nat) (hInv : Inv st) :
    Steps st (startCheckDependencies st i).2 := by
  unfold startCheckDependencies
  dsimp only
  have h1 : Steps st ((st.recAt i).dependsOn.foldl
      (fun (p : Bool × St) j =>
        let st := p.2
        let e := st.edge j
        let toState := (st.recAt e.dst).state
        if e.isOnlyOrdering && toState ≠ SState.starting then p
        else if toState ≠ SState.started then
          (false, st.updEdge j (fun e => { e with waitingOn := true }))
        else p)
      (true, st)).2 := by
    refine foldlP_steps _ _ true st hInv ?_
    intro b' s' a _ hI' _ _
    dsimp only
    split
    · exact Steps_refl s' hI'
    · split
      · exact Steps_updEdge s' a _ hI' (fun e => rfl) (fun e => rfl)
      · exact Steps_refl s' hI'
  refine Steps_trans h1 ?_
  refine foldl_steps _ _ _ h1.1 ?_
  intro s' a _ hI' _ _
  dsimp only
  split
  · split
    · exact Steps_updEdge s' a _ hI' (fun e => rfl) (fun e => rfl)
    · exact Steps_refl s' hI'
  · exact Steps_refl s' hI'

theorem Steps_initiateStart (st : St) (i : Nat) (hInv : Inv st)
    (hi : i < st.recs.length) : Steps st (initiateStart st i) := by
  unfold initiateStart
  dsimp only
  have h1 : Steps st (st.updRec i (fun r =>
      { r with startFailed := false, startSkipped := false,
               state := SState.starting, waitingForDeps := true })) :=
    Steps_updRec st i _ hInv (by intro r g h; cases g <;> exact h)
      (fun r => rfl) (fun r => rfl) (fun r => rfl) (fun r => rfl)
  have h2 := Steps_startCheckDependencies
    (st.updRec i (fun r =>
      { r with startFailed := false, startSkipped := false,
               state := SState.starting, waitingForDeps := true })) i h1.1
  have h12 := Steps_trans h1 h2
  split
  · refine Steps_trans h12 (Steps_AddTransitionQueue _ i h12.1 ?_)
    rw [h12.2.1]
    exact hi
  · exact h12

theorem FlagCov_of_clear {st : St} {f : PropFlag} {i : Nat}
    (h : flagOn (st.recAt i) f = false) : FlagCov st f i := by
  intro hflag
  rw [h] at hflag
  cases hflag

theorem FlagCov_steps {st st' : St} {f : PropFlag} {i : Nat}
    (hc : FlagCov st f i) (hs : Steps st st') : FlagCov st' f i := by
  intro hflag
  rcases hs.2.2.2.2 i f hflag with h | h
  · exact hs.2.2.2.1 i (hc h)
  · exact h

theorem FlagsQueued_steps {st st' : St} (hq : FlagsQueued st)
    (hs : Steps st st') : FlagsQueued st' := by
  intro i hl f hflag
  rcases hs.2.2.2.2 i f hflag with h | h
  · exact hs.2.2.2.1 i (hq i (by rw [hs.2.1] at hl; exact hl) f h)
  · exact h

theorem PropFlagsClear_of_queued {st : St} (hq : FlagsQueued st)
    (he : st.propQueue = []) : PropFlagsClear st := by
  intro i hl f
  cases hflag : flagOn (st.recAt i) f
  · rfl
  · have := hq i hl f hflag
    rw [he] at this
    cases this

theorem FlagsQueued_of_clear {st : St} (h : PropFlagsClear st) :
    FlagsQueued st := by
  intro i hl f hflag
  rw [h i hl f] at hflag
  cases hflag

theorem Inv_popProp {st : St} {j : Nat} {rest : List Nat} (hInv : Inv st)
    (hq : st.propQueue = j :: rest) :
    Inv (({ st with propQueue := rest } : St).updRec j
      (fun r => { r with inPropQueue := false })) ∧
      j < st.recs.length ∧
      (({ st with propQueue := rest } : St).updRec j
        (fun r => { r with inPropQueue := false })).propQueue = rest := by
  obtain ⟨⟨q1, q2, q3, q4, q5, q6, q7⟩, g1, g2⟩ := hInv
  have hj : j < st.recs.length := q5 j (by rw [hq]; exact List.mem_cons_self j rest)
  have hnd : j ∉ rest ∧ rest.Nodup := by
    rw [hq] at q2
    exact ⟨(List.nodup_cons.mp q2).1, (List.nodup_cons.mp q2).2⟩
  have hlen : (({ st with propQueue := rest } : St).updRec j
      (fun r => { r with inPropQueue := false })).recs.length = st.recs.length := by
    rw [recs_length_updRec]
  have hj1 : j < ({ st with propQueue := rest } : St).recs.length := hj
  have hrec : ∀ i, (({ st with propQueue := rest } : St).updRec j
      (fun r => { r with inPropQueue := false })).recAt i =
      if i = j then { st.recAt j with inPropQueue := false } else st.recAt i := by
    intro i
    by_cases hij : i = j
    · rw [if_pos hij, hij, recAt_updRec_self _ j _ hj1]
      rfl
    · rw [if_neg hij, recAt_updRec_other _ j _ i hij]
      rfl
  have hpq : (({ st with propQueue := rest } : St).updRec j
      (fun r => { r with inPropQueue := false })).propQueue = rest := rfl
  refine ⟨⟨⟨?_, hnd.2, ?_, q4, ?_, ?_, ?_⟩, ?_, ?_⟩, hj, rfl⟩
  · intro i hl
    rw [hlen] at hl
    rw [hrec i, hpq]
    by_cases hij : i = j
    · rw [if_pos hij]
      simp [hij, hnd.1]
    · rw [if_neg hij]
      rw [q1 i hl, hq]
      simp [hij]
  · intro i hl
    rw [hlen] at hl
    rw [hrec i]
    by_cases hij : i = j
    · rw [if_pos hij, hij]
      exact q3 j hj
    · rw [if_neg hij]
      exact q3 i hl
  · intro i hmem
    rw [hlen]
    exact q5 i (by rw [hq]; exact List.mem_cons_of_mem j hmem)
  · intro i hmem
    rw [hlen]
    exact q6 i hmem
  · intro i hmem
    rw [hlen]
    exact q7 i hmem
  · intro e he
    rw [hlen]
    exact g1 e he
  · intro i hl
    rw [hlen] at hl
    rw [hrec i]
    by_cases hij : i = j
    · rw [if_pos hij]
      exact g2 j hj
    · rw [if_neg hij]
      exact g2 i hl

theorem Inv_popStop {st : St} {j : Nat} {rest : List Nat} (hInv : Inv st)
    (hq : st.stopQueue = j :: rest) :
    Inv (({ st with stopQueue := rest } : St).updRec j
      (fun r => { r with inStopQueue := false })) ∧
      j < st.recs.length ∧
      (({ st with stopQueue := rest } : St).updRec j
        (fun r => { r with inStopQueue := false })).propQueue = st.propQueue := by
  obtain ⟨⟨q1, q2, q3, q4, q5, q6, q7⟩, g1, g2⟩ := hInv
  have hj : j < st.recs.length := q6 j (by rw [hq]; exact List.mem_cons_self j rest)
  have hnd : j ∉ rest ∧ rest.Nodup := by
    rw [hq] at q4
    exact ⟨(List.nodup_cons.mp q4).1, (List.nodup_cons.mp q4).2⟩
  have hlen : (({ st with stopQueue := rest } : St).updRec j
      (fun r => { r with inStopQueue := false })).recs.length = st.recs.length := by
    rw [recs_length_updRec]
  have hj1 : j < ({ st with stopQueue := rest } : St).recs.length := hj
  have hrec : ∀ i, (({ st with stopQueue := rest } : St).updRec j
      (fun r => { r with inStopQueue := false })).recAt i =
      if i = j then { st.recAt j with inStopQueue := false } else st.recAt i := by
    intro i
    by_cases hij : i = j
    · rw [if_pos hij, hij, recAt_updRec_self _ j _ hj1]
      rfl
    · rw [if_neg hij, recAt_updRec_other _ j _ i hij]
      rfl
  have hsq : (({ st with stopQueue := rest } : St).updRec j
      (fun r => { r with inStopQueue := false })).stopQueue = rest := rfl
  refine ⟨⟨⟨?_, q2, ?_, hnd.2, ?_, ?_, ?_⟩, ?_, ?_⟩, hj, rfl⟩
  · intro i hl
    rw [hlen] at hl
    rw [hrec i]
    by_cases hij : i = j
    · rw [if_pos hij, hij]
      exact q1 j hj
    · rw [if_neg hij]
      exact q1 i hl
  · intro i hl
    rw [hlen] at hl
    rw [hrec i, hsq]
    by_cases hij : i = j
    · rw [if_pos hij]
      simp [hij, hnd.1]
    · rw [if_neg hij]
      rw [q3 i hl, hq]
      simp [hij]
  · intro i hmem
    rw [hlen]
    exact q5 i hmem
  · intro i hmem
    rw [hlen]
    exact q6 i (by rw [hq]; exact List.mem_cons_of_mem j hmem)
  · intro i hmem
    rw [hlen]
    exact q7 i hmem
  · intro e he
    rw [hlen]
    exact g1 e he
  · intro i hl
    rw [hlen] at hl
    rw [hrec i]
    by_cases hij : i = j
    · rw [if_pos hij]
      exact g2 j hj
    · rw [if_neg hij]
      exact g2 i hl

theorem Steps_consolePop (st : St) (j : Nat) (rest : List Nat) (hInv : Inv st)
    (hq : st.consoleQueue = j :: rest) :
    Steps st ({ st with consoleQueue := rest } : St) ∧ j < st.recs.length := by
  obtain ⟨⟨q1, q2, q3, q4, q5, q6, q7⟩, g1, g2⟩ := hInv
  refine ⟨⟨⟨⟨q1, q2, q3, q4, q5, q6, ?_⟩, g1, g2⟩, rfl, rfl, fun _ h => h,
    fun _ _ h => Or.inl h⟩, q7 j (by rw [hq]; exact List.mem_cons_self j rest)⟩
  intro i hmem
  exact q7 i (by rw [hq]; exact List.mem_cons_of_mem j hmem)

theorem step_Start (m : Machine) (hm : MachineGood m) :
    ∀ st i st', Inv st → i < st.recs.length →
      (stepMachine m).Start st i = some st' → Steps st st' := by
  intro st i st' hInv hi heq
  dsimp only [stepMachine] at heq
  split at heq
  · injection heq with h
    exact h ▸ Steps_refl st hInv
  · split at heq
    · have h1 : Steps st (st.updRec i (fun r =>
          { r with requiredBy := r.requiredBy + 1, startExplicit := true })) :=
        Steps_updRec st i _ hInv (by intro r g h; cases g <;> exact h)
          (fun r => rfl) (fun r => rfl) (fun r => rfl) (fun r => rfl)
      exact Steps_trans h1 (hm.doStart _ i st' h1.1 (by rw [h1.2.1]; exact hi) heq)
    · exact hm.doStart st i st' hInv hi heq

theorem step_Restart (m : Machine) (hm : MachineGood m) :
    ∀ st i p, Inv st → i < st.recs.length →
      (stepMachine m).Restart st i = some p → Steps st p.2 := by
  intro st i p hInv hi heq
  dsimp only [stepMachine] at heq
  split at heq
  · split at heq
    · cases heq
    · injection heq with h
      subst h
      have h1 : Steps st (st.updRec i (fun r =>
          { r with stopReason := SReason.normal, forceStop := true })) :=
        Steps_updRec st i _ hInv (by intro r g h; cases g <;> exact h)
          (fun r => rfl) (fun r => rfl) (fun r => rfl) (fun r => rfl)
      refine Steps_trans h1 (hm.stop2 _ i true _ h1.1 (by rw [h1.2.1]; exact hi) ?_)
      assumption
  · injection heq with h
    exact h ▸ Steps_refl st hInv

theorem step_bringUp (m : Machine) (hm : MachineGood m) :
    ∀ st i p, Inv st → i < st.recs.length →
      (stepMachine m).bringUp st i = some p → Steps st p.2 := by
  intro st i p hInv hi heq
  dsimp only [stepMachine] at heq
  cases hst : m.Started st i with
  | none => rw [hst] at heq; cases heq
  | some st2 =>
    rw [hst] at heq
    injection heq with h
    subst h
    exact hm.started st i st2 hInv hi hst

theorem step_releaseConsole (m : Machine) (hm : MachineGood m) :
    ∀ st i st', Inv st → i < st.recs.length →
      (stepMachine m).releaseConsole st i = some st' → Steps st st' := by
  intro st i st' hInv hi heq
  dsimp only [stepMachine] at heq
  have h1 : Steps st (st.updRec i (fun r => { r with haveConsole := false })) :=
    Steps_updRec st i _ hInv (by intro r g h; cases g <;> exact h)
      (fun r => rfl) (fun r => rfl) (fun r => rfl) (fun r => rfl)
  exact Steps_trans h1 (hm.pullConsole _ st' h1.1 heq)

theorem step_PullConsoleQueue (m : Machine) (hm : MachineGood m) :
    ∀ st st', Inv st →
      (stepMachine m).PullConsoleQueue st = some st' → Steps st st' := by
  intro st st' hInv heq
  dsimp only [stepMachine] at heq
  split at heq
  · injection heq with h
    exact h ▸ Steps_refl st hInv
  case h_2 j rest hq =>
    obtain ⟨h1, hj⟩ := Steps_consolePop st j rest hInv hq
    exact Steps_trans h1 (hm.acqConsole _ j st' h1.1 (by rw [h1.2.1]; exact hj) heq)

theorem step_AcquiredConsole (m : Machine) (hm : MachineGood m) :
    ∀ st i st', Inv st → i < st.recs.length →
      (stepMachine m).AcquiredConsole st i = some st' → Steps st st' := by
  intro st i st' hInv hi heq
  dsimp only [stepMachine] at heq
  have h1 : Steps st (st.updRec i (fun r =>
      { r with waitingForConsole := false, haveConsole := true })) :=
    Steps_updRec st i _ hInv (by intro r g h; cases g <;> exact h)
      (fun r => rfl) (fun r => rfl) (fun r => rfl) (fun r => rfl)
  have hi1 : i < (st.updRec i (fun r =>
      { r with waitingForConsole := false, haveConsole := true })).recs.length := by
    rw [h1.2.1]; exact hi
  split at heq
  · exact Steps_trans h1 (hm.relConsole _ i st' h1.1 hi1 heq)
  · split at heq
    · exact Steps_trans h1 (hm.allDeps _ i st' h1.1 hi1 heq)
    · exact Steps_trans h1 (hm.relConsole _ i st' h1.1 hi1 heq)

theorem step_ExecuteTransition (m : Machine) (hm : MachineGood m) :
    ∀ st i st', Inv st → i < st.recs.length →
      (stepMachine m).ExecuteTransition st i = some st' → Steps st st' := by
  intro st i st' hInv hi heq
  dsimp only [stepMachine] at heq
  have h1 : Steps st (st.updRec i (fun r => { r with waitingForDeps := false })) :=
    Steps_updRec st i _ hInv (by intro r g h; cases g <;> exact h)
      (fun r => rfl) (fun r => rfl) (fun r => rfl) (fun r => rfl)
  have hi1 : i < (st.updRec i
      (fun r => { r with waitingForDeps := false })).recs.length := by
    rw [h1.2.1]; exact hi
  split at heq
  · split at heq
    · exact Steps_trans h1 (hm.allDeps _ i st' h1.1 hi1 heq)
    · injection heq with h
      exact h ▸ Steps_refl st hInv
  · split at heq
    · split at heq
      · exact Steps_trans h1 (hm.stopped _ i st' h1.1 hi1 heq)
      · injection heq with h
        exact h ▸ Steps_refl st hInv
    · injection heq with h
      exact h ▸ Steps_refl st hInv

theorem step_Release (m : Machine) (hm : MachineGood m) :
    ∀ st i b st', Inv st → i < st.recs.length →
      (stepMachine m).Release st i b = some st' → Steps st st' := by
  intro st i b st' hInv hi heq
  dsimp only [stepMachine] at heq
  have h1 : Steps st (st.updRec i (fun r =>
      { r with requiredBy := r.requiredBy - 1 })) :=
    Steps_updRec st i _ hInv (by intro r g h; cases g <;> exact h)
      (fun r => rfl) (fun r => rfl) (fun r => rfl) (fun r => rfl)
  set st1 := st.updRec i (fun r => { r with requiredBy := r.requiredBy - 1 })
  split at heq
  · have h2 : Steps st1 (st1.updRec i (fun r => { r with desired := SState.stopped })) :=
      Steps_updRec st1 i _ h1.1 (by intro r g h; cases g <;> exact h)
        (fun r => rfl) (fun r => rfl) (fun r => rfl) (fun r => rfl)
    set st2 := st1.updRec i (fun r => { r with desired := SState.stopped })
    have h12 := Steps_trans h1 h2
    split at heq
    · injection heq with h
      exact h ▸ h12
    · by_cases hnr : (!(st2.recAt i).propRequire) = true
      · rw [if_pos hnr] at heq
        have h3 : Steps st2 (AddPropQueue (st2.updRec i (fun r =>
            { r with propRelease := !(st2.recAt i).propRequire,
                     propRequire := false })) i) :=
          Steps_raise st2 i _ h12.1 (by rw [h12.2.1]; exact hi)
            (fun r => rfl) (fun r => rfl) (fun r => rfl) (fun r => rfl)
        set st4 := AddPropQueue (st2.updRec i (fun r =>
            { r with propRelease := !(st2.recAt i).propRequire,
                     propRequire := false })) i
        have hS := Steps_trans h12 h3
        split at heq
        · have h5 : Steps st4 (st4.updRec i (fun r =>
              { r with stopReason := SReason.normal })) :=
            Steps_updRec st4 i _ hS.1 (by intro r g h; cases g <;> exact h)
              (fun r => rfl) (fun r => rfl) (fun r => rfl) (fun r => rfl)
          refine Steps_trans (Steps_trans hS h5) (hm.stop2 _ i false st' h5.1 ?_ heq)
          rw [recs_length_updRec, hS.2.1]
          exact hi
        · injection heq with h
          exact h ▸ hS
      · rw [if_neg hnr] at heq
        have h3 : Steps st2 (st2.updRec i (fun r =>
            { r with propRelease := !(st2.recAt i).propRequire,
                     propRequire := false })) :=
          Steps_updRec st2 i _ h12.1
            (by intro r g h; cases g <;>
              first | exact h | exact absurd h hnr | exact Bool.noConfusion h)
            (fun r => rfl) (fun r => rfl) (fun r => rfl) (fun r => rfl)
        set st4 := st2.updRec i (fun r =>
            { r with propRelease := !(st2.recAt i).propRequire,
                     propRequire := false })
        have hS := Steps_trans h12 h3
        split at heq
        · have h5 : Steps st4 (st4.updRec i (fun r =>
              { r with stopReason := SReason.normal })) :=
            Steps_updRec st4 i _ hS.1 (by intro r g h; cases g <;> exact h)
              (fun r => rfl) (fun r => rfl) (fun r => rfl) (fun r => rfl)
          refine Steps_trans (Steps_trans hS h5) (hm.stop2 _ i false st' h5.1 ?_ heq)
          rw [recs_length_updRec, hS.2.1]
          exact hi
        · injection heq with h
          exact h ▸ hS
  · injection heq with h
    exact h ▸ h1

theorem step_ReleaseDependencies (m : Machine) (hm : MachineGood m) :
    ∀ st i st', Inv st → i < st.recs.length →
      (stepMachine m).ReleaseDependencies st i = some st' → Steps st st' := by
  intro st i st' hInv hi heq
  dsimp only [stepMachine] at heq
  have hb : ∀ a ∈ (st.recAt i).dependsOn, a < st.edges.length :=
    (hInv.2.2 i hi).1
  refine optFold_steps _ _ st hInv ?_ st' heq
  intro s a t ha hI hl he hg
  split at hg
  · have hE : Steps s (s.updEdge a (fun e => { e with holdingAcq := false })) :=
      Steps_updEdge s a _ hI (fun e => rfl) (fun e => rfl)
    have hdst : (s.edge a).dst < s.recs.length := by
      have hmem : s.edge a ∈ s.edges := edge_mem s a (by rw [he]; exact hb a ha)
      exact (hI.2.1 (s.edge a) hmem).2
    exact Steps_trans hE (hm.release _ (s.edge a).dst true t hE.1
      (by rw [hE.2.1]; exact hdst) hg)
  · injection hg with h
    exact h ▸ Steps_refl s hI

theorem step_allDepsStarted (m : Machine) (hm : MachineGood m) :
    ∀ st i st', Inv st → i < st.recs.length →
      (stepMachine m).allDepsStarted st i = some st' → Steps st st' := by
  intro st i st' hInv hi heq
  dsimp only [stepMachine] at heq
  split at heq
  · injection heq with h
    exact h ▸ Steps_queueForConsole st i hInv hi
  · have h1 : Steps st (st.updRec i (fun r => { r with waitingForDeps := false })) :=
      Steps_updRec st i _ hInv (by intro r g h; cases g <;> exact h)
        (fun r => rfl) (fun r => rfl) (fun r => rfl) (fun r => rfl)
    set st1 := st.updRec i (fun r => { r with waitingForDeps := false })
    cases hbu : m.bringUp st1 i with
    | none => rw [hbu] at heq; cases heq
    | some p =>
      rw [hbu] at heq
      rcases p with ⟨ok, st2⟩
      have h2 : Steps st1 st2 :=
        hm.bringUp st1 i (ok, st2) h1.1 (by rw [h1.2.1]; exact hi) hbu
      have h12 := Steps_trans h1 h2
      have heq2 : (if ok = true then some st2
          else m.failedToStart (st2.updRec i (fun r =>
            { r with state := SState.stopping })) i false true) = some st' := heq
      clear heq
      split at heq2
      · injection heq2 with h
        exact h ▸ h12
      · have h3 : Steps st2 (st2.updRec i (fun r =>
            { r with state := SState.stopping })) :=
          Steps_updRec st2 i _ h12.1 (by intro r g h; cases g <;> exact h)
            (fun r => rfl) (fun r => rfl) (fun r => rfl) (fun r => rfl)
        refine Steps_trans (Steps_trans h12 h3) (hm.failed _ i false true st' h3.1 ?_ heq2)
        rw [recs_length_updRec, h12.2.1]
        exact hi

theorem Steps_condRaise (st : St) (i : Nat) (c : Bool) (f : Rec → Rec) (hInv : Inv st)
    (hi : i < st.recs.length)
    (hfl : c = false → ∀ r g, flagOn (f r) g = true → flagOn r g = true)
    (hp : ∀ r, (f r).inPropQueue = r.inPropQueue)
    (hs : ∀ r, (f r).inStopQueue = r.inStopQueue)
    (hd : ∀ r, (f r).dependsOn = r.dependsOn)
    (hd2 : ∀ r, (f r).dependents = r.dependents) :
    Steps st (if c = true then AddPropQueue (st.updRec i f) i else st.updRec i f) := by
  cases c
  · rw [if_neg (by simp)]
    exact Steps_updRec st i f hInv (hfl rfl) hp hs hd hd2
  · rw [if_pos rfl]
    exact Steps_raise st i f hInv hi hp hs hd hd2

theorem step_doStart (m : Machine) (hm : MachineGood m) :
    ∀ st i st', Inv st → i < st.recs.length →
      (stepMachine m).doStart st i = some st' → Steps st st' := by
  intro st i st' hInv hi heq
  dsimp only [stepMachine] at heq
  have h1 : Steps st (st.updRec i (fun r => { r with desired := SState.started })) :=
    Steps_updRec st i _ hInv (by intro r g h; cases g <;> exact h)
      (fun r => rfl) (fun r => rfl) (fun r => rfl) (fun r => rfl)
  set st1 := st.updRec i (fun r => { r with desired := SState.started })
  have hi1 : i < st1.recs.length := by rw [h1.2.1]; exact hi
  by_cases hwa : (st.recAt i).state ≠ SState.stopped
  · simp only [ne_eq, hwa, not_false_eq_true, if_true, decide_True, Bool.not_true,
      Bool.false_eq_true, if_false] at heq
    split at heq
    · injection heq with h
      exact h ▸ h1
    · split at heq
      · injection heq with h
        exact h ▸ h1
      · split at heq
        · injection heq with h
          exact h ▸ h1
        · injection heq with h
          exact h ▸ Steps_trans h1 (Steps_initiateStart st1 i h1.1 hi1)
  · simp only [hwa, if_false, decide_False, Bool.not_false, eq_self_iff_true,
      if_true] at heq
    split at heq
    · exact Steps_trans h1 (hm.failed st1 i false false st' h1.1 hi1 heq)
    · have hfold : Steps st1 ((st1.recAt i).dependents.foldl
          (fun st j =>
            if (!(st.edge j).isHard) = true then
              if (!(st.edge j).holdingAcq) = true ∧
                  ((st.recAt (st.edge j).src).state = SState.started ∨
                    (st.recAt (st.edge j).src).state = SState.starting) then
                (st.updEdge j (fun e => { e with holdingAcq := true })).updRec i
                  (fun r => { r with requiredBy := r.requiredBy + 1 })
              else st
            else st) st1) := by
        refine foldl_steps _ _ st1 h1.1 ?_
        intro s a _ hI _ _
        split
        · split
          · have hE : Steps s (s.updEdge a (fun e => { e with holdingAcq := true })) :=
              Steps_updEdge s a _ hI (fun e => rfl) (fun e => rfl)
            exact Steps_trans hE (Steps_updRec _ i _ hE.1
              (by intro r g h; cases g <;> exact h)
              (fun r => rfl) (fun r => rfl) (fun r => rfl) (fun r => rfl))
          · exact Steps_refl s hI
        · exact Steps_refl s hI
      set st2 := (st1.recAt i).dependents.foldl
          (fun st j =>
            if (!(st.edge j).isHard) = true then
              if (!(st.edge j).holdingAcq) = true ∧
                  ((st.recAt (st.edge j).src).state = SState.started ∨
                    (st.recAt (st.edge j).src).state = SState.starting) then
                (st.updEdge j (fun e => { e with holdingAcq := true })).updRec i
                  (fun r => { r with requiredBy := r.requiredBy + 1 })
              else st
            else st) st1
      have h2 := Steps_trans h1 hfold
      have h3 : Steps st2 (ServiceActive st2) := Steps_ServiceActive st2 h2.1
      have h23 := Steps_trans h2 h3
      have h4 : Steps (ServiceActive st2)
          (if (!((ServiceActive st2).recAt i).propRelease) = true then
            AddPropQueue ((ServiceActive st2).updRec i (fun r =>
              { r with propRequire := !((ServiceActive st2).recAt i).propRelease,
                       propRelease := false })) i
          else (ServiceActive st2).updRec i (fun r =>
              { r with propRequire := !((ServiceActive st2).recAt i).propRelease,
                       propRelease := false })) := by
        refine Steps_condRaise _ i _ _ h23.1 (by rw [h23.2.1]; exact hi) ?_
          (fun r => rfl) (fun r => rfl) (fun r => rfl) (fun r => rfl)
        intro hc r g h
        cases g <;>
          first
            | exact h
            | exact absurd h (by rw [hc]; exact Bool.false_ne_true)
            | exact Bool.noConfusion h
      have h5 := Steps_trans h23 h4
      have h6 := Steps_trans h5 (Steps_initiateStart _ i h5.1 (by rw [h5.2.1]; exact hi))
      injection heq with h
      exact h ▸ h6

theorem step_Started (m : Machine) (hm : MachineGood m) :
    ∀ st i st', Inv st → i < st.recs.length →
      (stepMachine m).Started st i = some st' → Steps st st' := by
  intro st i st' hInv hi heq
  dsimp only [stepMachine] at heq
  have hnext : ∀ st1, Steps st st1 →
      (let st2 := st1.updRec i (fun r => { r with state := SState.started })
       if (st2.recAt i).forceStop = true ∨ (st2.recAt i).desired = SState.stopped then
         m.doStop st2 i false
       else
         some ((st2.recAt i).dependents.foldl
           (fun st j =>
             if (st.edge j).waitingOn = true then
               (dependencyStarted st (st.edge j).src).updEdge j
                 (fun e => { e with waitingOn := false })
             else st) st2)) = some st' → Steps st st' := by
    intro st1 hs1 heq2
    have h2 : Steps st1 (st1.updRec i (fun r => { r with state := SState.started })) :=
      Steps_updRec st1 i _ hs1.1 (by intro r g h; cases g <;> exact h)
        (fun r => rfl) (fun r => rfl) (fun r => rfl) (fun r => rfl)
    set st2 := st1.updRec i (fun r => { r with state := SState.started })
    have h12 := Steps_trans hs1 h2
    have hi2 : i < st2.recs.length := by rw [h12.2.1]; exact hi
    dsimp only at heq2
    split at heq2
    · exact Steps_trans h12 (hm.stop2 st2 i false st' h12.1 hi2 heq2)
    · injection heq2 with h
      refine h ▸ Steps_trans h12 ?_
      have hb : ∀ a ∈ (st2.recAt i).dependents, a < st2.edges.length :=
        (h12.1.2.2 i hi2).2
      refine foldl_steps _ _ st2 h12.1 ?_
      intro s a ha hI hl he
      split
      · have hsrc : (s.edge a).src < s.recs.length := by
          have hmem : s.edge a ∈ s.edges := edge_mem s a (by rw [he]; exact hb a ha)
          exact (hI.2.1 (s.edge a) hmem).1
        have hD : Steps s (dependencyStarted s (s.edge a).src) :=
          Steps_dependencyStarted s _ hI hsrc
        exact Steps_trans hD (Steps_updEdge _ a _ hD.1 (fun e => rfl) (fun e => rfl))
      · exact Steps_refl s hI
  split at heq
  · exact Option.noConfusion heq
  · next st1 hscrut =>
      split at hscrut
      · exact hnext st1 (hm.relConsole st i st1 hInv hi hscrut) heq
      · injection hscrut with h
        subst h
        exact hnext st (Steps_refl st hInv) heq

theorem step_failedToStart (m : Machine) (hm : MachineGood m) :
    ∀ st i b c st', Inv st → i < st.recs.length →
      (stepMachine m).failedToStart st i b c = some st' → Steps st st' := by
  intro st i b c st' hInv hi heq
  dsimp only [stepMachine] at heq
  have h1 : Steps st (st.updRec i (fun r => { r with desired := SState.stopped })) :=
    Steps_updRec st i _ hInv (by intro r g h; cases g <;> exact h)
      (fun r => rfl) (fun r => rfl) (fun r => rfl) (fun r => rfl)
  set st1 := st.updRec i (fun r => { r with desired := SState.stopped })
  have hs2 : Steps st (if (st1.recAt i).waitingForConsole = true then
      (UnqueueConsole st1 i).updRec i (fun r => { r with waitingForConsole := false })
    else st1) := by
    split
    · refine Steps_trans h1 (Steps_trans (Steps_UnqueueConsole st1 i h1.1) ?_)
      exact Steps_updRec _ i _ (Steps_UnqueueConsole st1 i h1.1).1
        (by intro r g h; cases g <;> exact h)
        (fun r => rfl) (fun r => rfl) (fun r => rfl) (fun r => rfl)
    · exact h1
  set st2 := if (st1.recAt i).waitingForConsole = true then
      (UnqueueConsole st1 i).updRec i (fun r => { r with waitingForConsole := false })
    else st1
  split at heq
  · exact Option.noConfusion heq
  · next st3 hscrut =>
      have hs3 : Steps st st3 := by
        split at hscrut
        · have hk : Steps st2 (st2.updRec i (fun r =>
              { r with startExplicit := false })) :=
            Steps_updRec st2 i _ hs2.1 (by intro r g h; cases g <;> exact h)
              (fun r => rfl) (fun r => rfl) (fun r => rfl) (fun r => rfl)
          refine Steps_trans hs2 (Steps_trans hk
            (hm.release _ i false st3 hk.1 ?_ hscrut))
          rw [hk.2.1, hs2.2.1]
          exact hi
        · injection hscrut with h
          exact h ▸ hs2
      have hi3 : i < st3.recs.length := by rw [hs3.2.1]; exact hi
      have hb3 : ∀ a ∈ (st3.recAt i).dependents, a < st3.edges.length :=
        (hs3.1.2.2 i hi3).2
      split at heq
      · exact Option.noConfusion heq
      · next st4 hfoldEq =>
          have hs4 : Steps st3 st4 := by
            refine optFold_steps _ _ st3 hs3.1 ?_ st4 hfoldEq
            intro s a t ha hI hl he hg
            have hrest : ∀ s2 t2, Steps s s2 →
                ((if (s2.edge a).holdingAcq = true then
                    m.Release (s2.updEdge a (fun e =>
                      { e with holdingAcq := false })) i false
                  else some s2) = some t2) → Steps s t2 := by
              intro s2 t2 hs2' hrel
              split at hrel
              · have hE : Steps s2 (s2.updEdge a (fun e =>
                    { e with holdingAcq := false })) :=
                  Steps_updEdge s2 a _ hs2'.1 (fun e => rfl) (fun e => rfl)
                refine Steps_trans hs2' (Steps_trans hE
                  (hm.release _ i false t2 hE.1 ?_ hrel))
                rw [hE.2.1, hs2'.2.1, hl]
                exact hi3
              · injection hrel with h
                exact h ▸ hs2'
            have hsrc : (s.edge a).src < s.recs.length := by
              have hmem : s.edge a ∈ s.edges :=
                edge_mem s a (by rw [he]; exact hb3 a ha)
              exact (hI.2.1 (s.edge a) hmem).1
            split at hg
            · exact Option.noConfusion hg
            · next s2 hin =>
                refine hrest s2 t ?_ hg
                split at hin
                · split at hin
                  · injection hin with h
                    exact h ▸ Steps_raise s (s.edge a).src _ hI hsrc
                      (fun r => rfl) (fun r => rfl) (fun r => rfl) (fun r => rfl)
                  · injection hin with h
                    exact h ▸ Steps_refl s hI
                · split at hin
                  · injection hin with h
                    exact h ▸ Steps_raise s (s.edge a).src _ hI hsrc
                      (fun r => rfl) (fun r => rfl) (fun r => rfl) (fun r => rfl)
                  · injection hin with h
                    exact h ▸ Steps_refl s hI
                · split at hin
                  · injection hin with h
                    have hE : Steps s (s.updEdge a (fun e =>
                        { e with waitingOn := false })) :=
                      Steps_updEdge s a _ hI (fun e => rfl) (fun e => rfl)
                    refine h ▸ Steps_trans hE (Steps_dependencyStarted _ _ hE.1 ?_)
                    rw [hE.2.1]
                    exact hsrc
                  · injection hin with h
                    exact h ▸ Steps_refl s hI
          have hs04 := Steps_trans hs3 hs4
          have h5 : Steps st4 (st4.updRec i (fun r =>
              { r with startFailed := true, pinnedStarted := false })) :=
            Steps_updRec st4 i _ hs04.1 (by intro r g h; cases g <;> exact h)
              (fun r => rfl) (fun r => rfl) (fun r => rfl) (fun r => rfl)
          have hs05 := Steps_trans hs04 h5
          split at heq
          · refine Steps_trans hs05 (hm.stopped _ i st' hs05.1 ?_ heq)
            rw [hs05.2.1]
            exact hi
          · injection heq with h
            exact h ▸ hs05

theorem step_Stopped (m : Machine) (hm : MachineGood m) :
    ∀ st i st', Inv st → i < st.recs.length →
      (stepMachine m).Stopped st i = some st' → Steps st st' := by
  intro st i st' hInv hi heq
  dsimp only [stepMachine] at heq
  split at heq
  · exact Option.noConfusion heq
  · next st1 hscrut =>
      have hs1 : Steps st st1 := by
        split at hscrut
        · exact hm.relConsole st i st1 hInv hi hscrut
        · injection hscrut with h
          exact h ▸ Steps_refl st hInv
      have h2 : Steps st1 (st1.updRec i (fun r => { r with forceStop := false })) :=
        Steps_updRec st1 i _ hs1.1 (by intro r g h; cases g <;> exact h)
          (fun r => rfl) (fun r => rfl) (fun r => rfl) (fun r => rfl)
      set st2 := st1.updRec i (fun r => { r with forceStop := false })
      have hs2 : Steps st st2 := Steps_trans hs1 h2
      have hi2 : i < st2.recs.length := by rw [hs2.2.1]; exact hi
      have hb2 : ∀ a ∈ (st2.recAt i).dependents, a < st2.edges.length :=
        (hs2.1.2.2 i hi2).2
      split at heq
      · exact Option.noConfusion heq
      · next st3 hscrut3 =>
          have hs3 : Steps st st3 := by
            split at hscrut3
            · refine Steps_trans hs2 ?_
              refine optFold_steps _ _ st2 hs2.1 ?_ st3 hscrut3
              intro s a t ha hI hl he hg
              split at hg
              · have hsrc : (s.edge a).src < s.recs.length := by
                  have hmem : s.edge a ∈ s.edges :=
                    edge_mem s a (by rw [he]; exact hb2 a ha)
                  exact (hI.2.1 (s.edge a) hmem).1
                have hmid : Steps s (if (s.edge a).waitingOn = true then
                    dependencyStarted (s.updEdge a (fun e =>
                      { e with waitingOn := false })) (s.edge a).src
                  else s) := by
                  split
                  · have hE : Steps s (s.updEdge a (fun e =>
                        { e with waitingOn := false })) :=
                      Steps_updEdge s a _ hI (fun e => rfl) (fun e => rfl)
                    refine Steps_trans hE (Steps_dependencyStarted _ _ hE.1 ?_)
                    rw [hE.2.1]
                    exact hsrc
                  · exact Steps_refl s hI
                set s1 := if (s.edge a).waitingOn = true then
                    dependencyStarted (s.updEdge a (fun e =>
                      { e with waitingOn := false })) (s.edge a).src
                  else s
                split at hg
                · have hE1 : Steps s1 (s1.updEdge a (fun e =>
                      { e with holdingAcq := false })) :=
                    Steps_updEdge s1 a _ hmid.1 (fun e => rfl) (fun e => rfl)
                  refine Steps_trans hmid (Steps_trans hE1
                    (hm.release _ i false t hE1.1 ?_ hg))
                  rw [hE1.2.1, hmid.2.1, hl, hs2.2.1]
                  exact hi
                · injection hg with h
                  exact h ▸ hmid
              · injection hg with h
                exact h ▸ Steps_refl s hI
            · injection hscrut3 with h
              exact h ▸ hs2
          have hi3 : i < st3.recs.length := by rw [hs3.2.1]; exact hi
          have hb3 : ∀ a ∈ (st3.recAt i).dependsOn, a < st3.edges.length :=
            (hs3.1.2.2 i hi3).1
          have hfold4 : Steps st3 ((st3.recAt i).dependsOn.foldl
              (fun s j => dependentStopped s (s.edge j).dst) st3) := by
            refine foldl_steps _ _ st3 hs3.1 ?_
            intro s a ha hI hl he
            have hdst : (s.edge a).dst < s.recs.length := by
              have hmem : s.edge a ∈ s.edges :=
                edge_mem s a (by rw [he]; exact hb3 a ha)
              exact (hI.2.1 (s.edge a) hmem).2
            exact Steps_dependentStopped s _ hI hdst
          set st4 := (st3.recAt i).dependsOn.foldl
              (fun s j => dependentStopped s (s.edge j).dst) st3
          have hs4 : Steps st st4 := Steps_trans hs3 hfold4
          have h5 : Steps st4 (st4.updRec i (fun r =>
              { r with state := SState.stopped })) :=
            Steps_updRec st4 i _ hs4.1 (by intro r g h; cases g <;> exact h)
              (fun r => rfl) (fun r => rfl) (fun r => rfl) (fun r => rfl)
          set st5 := st4.updRec i (fun r => { r with state := SState.stopped })
          have hs5 : Steps st st5 := Steps_trans hs4 h5
          have hi5 : i < st5.recs.length := by rw [hs5.2.1]; exact hi
          split at heq
          · exact Option.noConfusion heq
          · next st6 hscrut6 =>
              have hs6 : Steps st st6 := by
                split at hscrut6
                · injection hscrut6 with h
                  exact h ▸ Steps_trans hs5 (Steps_initiateStart st5 i hs5.1 hi5)
                · split at hscrut6
                  · have hk : Steps st5 (st5.updRec i (fun r =>
                        { r with startExplicit := false })) :=
                      Steps_updRec st5 i _ hs5.1 (by intro r g h; cases g <;> exact h)
                        (fun r => rfl) (fun r => rfl) (fun r => rfl) (fun r => rfl)
                    refine Steps_trans hs5 (Steps_trans hk
                      (hm.release _ i false st6 hk.1 ?_ hscrut6))
                    rw [hk.2.1, hs5.2.1]
                    exact hi
                  · split at hscrut6
                    · injection hscrut6 with h
                      exact h ▸ Steps_trans hs5 (Steps_ServiceInactive st5 hs5.1)
                    · injection hscrut6 with h
                      exact h ▸ hs5
              split at heq
              · split at heq
                · split at heq
                  · split at heq
                    · split at heq
                      · next hc2 =>
                          refine Steps_trans hs6 (hm.start st6 _ st' hs6.1 hc2 heq)
                      · injection heq with h
                        exact h ▸ hs6
                    · injection heq with h
                      exact h ▸ hs6
                  · injection heq with h
                    exact h ▸ hs6
                · injection heq with h
                  exact h ▸ hs6
              · injection heq with h
                exact h ▸ hs6

theorem Steps_condTrans (st : St) (i : Nat) (c : Bool) (f : Rec → Rec) (hInv : Inv st)
    (hi : i < st.recs.length)
    (hfl : ∀ r g, flagOn (f r) g = true → flagOn r g = true)
    (hp : ∀ r, (f r).inPropQueue = r.inPropQueue)
    (hs : ∀ r, (f r).inStopQueue = r.inStopQueue)
    (hd : ∀ r, (f r).dependsOn = r.dependsOn)
    (hd2 : ∀ r, (f r).dependents = r.dependents) :
    Steps st (if c = true then AddTransitionQueue (st.updRec i f) i
      else st.updRec i f) := by
  have h1 := Steps_updRec st i f hInv hfl hp hs hd hd2
  split
  · exact Steps_trans h1 (Steps_AddTransitionQueue _ i h1.1
      (by rw [h1.2.1]; exact hi))
  · exact h1

theorem step_doStop (m : Machine) (hm : MachineGood m) :
    ∀ st i b st', Inv st → i < st.recs.length →
      (stepMachine m).doStop st i b = some st' → Steps st st' := by
  intro st i b st' hInv hi heq
  dsimp only [stepMachine] at heq
  split at heq
  · injection heq with h
    exact h ▸ Steps_refl st hInv
  · have h1 : Steps st (st.updRec i (fun r =>
        { r with inAutoRestart := false, inUserRestart := false })) :=
      Steps_updRec st i _ hInv (by intro r g h; cases g <;> exact h)
        (fun r => rfl) (fun r => rfl) (fun r => rfl) (fun r => rfl)
    set st1 := st.updRec i (fun r =>
        { r with inAutoRestart := false, inUserRestart := false })
    have hnext : ∀ (fr : Bool) (s2 : St), Steps st s2 →
        (match
          (if (!fr) = true ∧ (s2.recAt i).startExplicit = true then
            m.Release (s2.updRec i (fun r => { r with startExplicit := false })) i false
          else some s2) with
        | Option.none => Option.none
        | some st3 =>
          match m.stopDependents st3 i fr b with
          | Option.none => Option.none
          | some (allDepsStopped, st4) =>
            if (st4.recAt i).state ≠ SState.started then
              if (st4.recAt i).state = SState.starting then
                if (!(st4.recAt i).waitingForDeps) = true ∧
                    (!(st4.recAt i).waitingForConsole) = true then
                  if (!internalCanInterruptStart) = true then some st4
                  else if (!internalInterruptStart) = true then some st4
                  else
                    some (if allDepsStopped = true then
                        AddTransitionQueue (st4.updRec i (fun r =>
                          { r with state := SState.stopping,
                                   waitingForDeps := !allDepsStopped })) i
                      else st4.updRec i (fun r =>
                          { r with state := SState.stopping,
                                   waitingForDeps := !allDepsStopped }))
                else
                  some (if allDepsStopped = true then
                      AddTransitionQueue ((if (st4.recAt i).waitingForConsole = true then
                            (UnqueueConsole st4 i).updRec i (fun r =>
                              { r with waitingForConsole := false })
                          else st4).updRec i (fun r =>
                          { r with state := SState.stopping,
                                   waitingForDeps := !allDepsStopped })) i
                    else (if (st4.recAt i).waitingForConsole = true then
                          (UnqueueConsole st4 i).updRec i (fun r =>
                            { r with waitingForConsole := false })
                        else st4).updRec i (fun r =>
                        { r with state := SState.stopping,
                                 waitingForDeps := !allDepsStopped }))
              else some st4
            else
              some (if allDepsStopped = true then
                  AddTransitionQueue (st4.updRec i (fun r =>
                    { r with state := SState.stopping,
                             waitingForDeps := !allDepsStopped })) i
                else st4.updRec i (fun r =>
                    { r with state := SState.stopping,
                             waitingForDeps := !allDepsStopped }))) = some st' →
        Steps st st' := by
      intro fr s2 hs2 heq2
      split at heq2
      · exact Option.noConfusion heq2
      · next st3 hscrut3 =>
          have hs3 : Steps st st3 := by
            split at hscrut3
            · have hk : Steps s2 (s2.updRec i (fun r =>
                  { r with startExplicit := false })) :=
                Steps_updRec s2 i _ hs2.1 (by intro r g h; cases g <;> exact h)
                  (fun r => rfl) (fun r => rfl) (fun r => rfl) (fun r => rfl)
              refine Steps_trans hs2 (Steps_trans hk
                (hm.release _ i false st3 hk.1 ?_ hscrut3))
              rw [hk.2.1, hs2.2.1]
              exact hi
            · injection hscrut3 with h
              exact h ▸ hs2
          have hi3 : i < st3.recs.length := by rw [hs3.2.1]; exact hi
          split at heq2
          · exact Option.noConfusion heq2
          · next b4 st4 hsd =>
              have hs4 : Steps st st4 :=
                Steps_trans hs3 (hm.stopDeps st3 i _ _ (b4, st4) hs3.1 hi3 hsd)
              have hi4 : i < st4.recs.length := by rw [hs4.2.1]; exact hi
              split at heq2
              · split at heq2
                · split at heq2
                  · split at heq2
                    · injection heq2 with h
                      exact h ▸ hs4
                    · split at heq2
                      · injection heq2 with h
                        exact h ▸ hs4
                      · injection heq2 with h
                        refine h ▸ Steps_trans hs4
                          (Steps_condTrans st4 i _ _ hs4.1 hi4
                            (by intro r g hh; cases g <;> exact hh)
                            (fun r => rfl) (fun r => rfl) (fun r => rfl) (fun r => rfl))
                  · have hs5 : Steps st4
                        (if (st4.recAt i).waitingForConsole = true then
                          (UnqueueConsole st4 i).updRec i (fun r =>
                            { r with waitingForConsole := false })
                        else st4) := by
                      split
                      · refine Steps_trans (Steps_UnqueueConsole st4 i hs4.1) ?_
                        exact Steps_updRec _ i _ (Steps_UnqueueConsole st4 i hs4.1).1
                          (by intro r g hh; cases g <;> exact hh)
                          (fun r => rfl) (fun r => rfl) (fun r => rfl) (fun r => rfl)
                      · exact Steps_refl st4 hs4.1
                    have hs05 := Steps_trans hs4 hs5
                    injection heq2 with h
                    refine h ▸ Steps_trans hs05 (Steps_condTrans _ i _ _ hs05.1 ?_
                      (by intro r g hh; cases g <;> exact hh)
                      (fun r => rfl) (fun r => rfl) (fun r => rfl) (fun r => rfl))
                    rw [hs05.2.1]
                    exact hi
                · injection heq2 with h
                  exact h ▸ hs4
              · injection heq2 with h
                refine h ▸ Steps_trans hs4
                  (Steps_condTrans st4 i _ _ hs4.1 hi4
                    (by intro r g hh; cases g <;> exact hh)
                    (fun r => rfl) (fun r => rfl) (fun r => rfl) (fun r => rfl))
    refine hnext _ _ ?_ heq
    split
    · exact Steps_trans h1 (Steps_updRec st1 i _ h1.1
        (by intro r g h; cases g <;> exact h)
        (fun r => rfl) (fun r => rfl) (fun r => rfl) (fun r => rfl))
    · exact h1

theorem step_stopDependents (m : Machine) (hm : MachineGood m) :
    ∀ st i b c p, Inv st → i < st.recs.length →
      (stepMachine m).stopDependents st i b c = some p → Steps st p.2 := by
  intro st i b c p hInv hi heq
  dsimp only [stepMachine] at heq
  have hb : ∀ a ∈ (st.recAt i).dependents, a < st.edges.length :=
    (hInv.2.2 i hi).2
  refine optFoldP_steps _ _ true st hInv ?_ p heq
  intro b' s a t ha hI hl he hg
  have hsrcb : (s.edge a).src < s.recs.length := by
    have hmem : s.edge a ∈ s.edges := edge_mem s a (by rw [he]; exact hb a ha)
    exact (hI.2.1 (s.edge a) hmem).1
  have hib : i < s.recs.length := by rw [hl]; exact hi
  split at hg
  · have hs2 : Steps s (if (s.recAt i).forceStop = true then
        (if (s.recAt i).desired = SState.stopped then
          ForcedStop (s.updRec (s.edge a).src (fun r =>
            { r with stopReason := SReason.depFailed,
                     desired := SState.stopped })) (s.edge a).src
        else ForcedStop s (s.edge a).src)
      else s) := by
      split
      · split
        · have hk : Steps s (s.updRec (s.edge a).src (fun r =>
              { r with stopReason := SReason.depFailed,
                       desired := SState.stopped })) :=
            Steps_updRec s _ _ hI (by intro r g hh; cases g <;> exact hh)
              (fun r => rfl) (fun r => rfl) (fun r => rfl) (fun r => rfl)
          refine Steps_trans hk (Steps_ForcedStop _ _ hk.1 ?_)
          rw [hk.2.1]
          exact hsrcb
        · exact Steps_ForcedStop s _ hI hsrcb
      · exact Steps_refl s hI
    set s2 := if (s.recAt i).forceStop = true then
        (if (s.recAt i).desired = SState.stopped then
          ForcedStop (s.updRec (s.edge a).src (fun r =>
            { r with stopReason := SReason.depFailed,
                     desired := SState.stopped })) (s.edge a).src
        else ForcedStop s (s.edge a).src)
      else s
    have hsrc2 : (s.edge a).src < s2.recs.length := by
      rw [hs2.2.1]
      exact hsrcb
    split at hg
    · split at hg
      · split at hg
        · split at hg
          · exact Option.noConfusion hg
          · next s4 hscrut4 =>
              have hk3 : Steps s2 (s2.updRec (s.edge a).src (fun r =>
                  { r with desired := SState.stopped })) :=
                Steps_updRec s2 _ _ hs2.1 (by intro r g hh; cases g <;> exact hh)
                  (fun r => rfl) (fun r => rfl) (fun r => rfl) (fun r => rfl)
              set s3 := s2.updRec (s.edge a).src (fun r =>
                  { r with desired := SState.stopped })
              have hs3 : Steps s s3 := Steps_trans hs2 hk3
              have hs4 : Steps s s4 := by
                split at hscrut4
                · have hk4 : Steps s3 (s3.updRec (s.edge a).src (fun r =>
                      { r with startExplicit := false })) :=
                    Steps_updRec s3 _ _ hs3.1 (by intro r g hh; cases g <;> exact hh)
                      (fun r => rfl) (fun r => rfl) (fun r => rfl) (fun r => rfl)
                  refine Steps_trans hs3 (Steps_trans hk4
                    (hm.release _ _ true s4 hk4.1 ?_ hscrut4))
                  rw [hk4.2.1, hs3.2.1]
                  exact hsrcb
                · injection hscrut4 with h
                  exact h ▸ hs3
              cases hg
              refine Steps_trans hs4 (Steps_raise s4 _ _ hs4.1 ?_
                (fun r => rfl) (fun r => rfl) (fun r => rfl) (fun r => rfl))
              rw [hs4.2.1]
              exact hsrcb
        · cases hg
          exact hs2
      · split at hg
        · cases hg
          refine Steps_trans hs2 (Steps_raise s2 _ _ hs2.1 hsrc2
            (fun r => rfl) (fun r => rfl) (fun r => rfl) (fun r => rfl))
        · cases hg
          exact hs2
    · cases hg
      exact hs2
  · split at hg
    · have hmid : Steps s (if (s.edge a).waitingOn = true then
          dependencyStarted (s.updEdge a (fun e =>
            { e with waitingOn := false })) (s.edge a).src
        else s) := by
        split
        · have hE : Steps s (s.updEdge a (fun e => { e with waitingOn := false })) :=
            Steps_updEdge s a _ hI (fun e => rfl) (fun e => rfl)
          refine Steps_trans hE (Steps_dependencyStarted _ _ hE.1 ?_)
          rw [hE.2.1]
          exact hsrcb
        · exact Steps_refl s hI
      set s1 := if (s.edge a).waitingOn = true then
          dependencyStarted (s.updEdge a (fun e =>
            { e with waitingOn := false })) (s.edge a).src
        else s
      split at hg
      · split at hg
        · exact Option.noConfusion hg
        · next s2 hrel =>
            have hE1 : Steps s1 (s1.updEdge a (fun e =>
                { e with holdingAcq := false })) :=
              Steps_updEdge s1 a _ hmid.1 (fun e => rfl) (fun e => rfl)
            cases hg
            refine Steps_trans hmid (Steps_trans hE1
              (hm.release _ i false s2 hE1.1 ?_ hrel))
            rw [hE1.2.1, hmid.2.1]
            exact hib
      · cases hg
        exact hmid
    · cases hg
      exact Steps_refl s hI

theorem propRequireStage_good (st : St) (i : Nat) (hInv : Inv st)
    (hi : i < st.recs.length) :
    Steps st (propRequireStage st i) ∧
      FlagCov (propRequireStage st i) PropFlag.require i := by
  unfold propRequireStage
  split
  · have hb : ∀ a ∈ (st.recAt i).dependsOn, a < st.edges.length :=
      (hInv.2.2 i hi).1
    have hnext : ∀ s1 : St, Steps st s1 →
        Steps st (s1.updRec i (fun r => { r with propRequire := false })) ∧
          FlagCov (s1.updRec i (fun r => { r with propRequire := false }))
            PropFlag.require i := by
      intro s1 hf
      have hcl : Steps s1 (s1.updRec i (fun r => { r with propRequire := false })) :=
        Steps_updRec s1 i _ hf.1
          (by intro r g h; cases g <;> first | exact h | exact Bool.noConfusion h)
          (fun r => rfl) (fun r => rfl) (fun r => rfl) (fun r => rfl)
      refine ⟨Steps_trans hf hcl, FlagCov_of_clear ?_⟩
      rw [recAt_updRec_self s1 i _ (by rw [hf.2.1]; exact hi)]
      rfl
    refine hnext _ ?_
    refine foldl_steps _ _ st hInv ?_
    intro s a ha hI hl he
    dsimp only
    split
    · have hdst : (s.edge a).dst < s.recs.length := by
        have hmem : s.edge a ∈ s.edges := edge_mem s a (by rw [he]; exact hb a ha)
        exact (hI.2.1 (s.edge a) hmem).2
      have hR : Steps s (Require s (s.edge a).dst) := Steps_Require s _ hI hdst
      exact Steps_trans hR (Steps_updEdge _ a _ hR.1 (fun e => rfl) (fun e => rfl))
    · exact Steps_refl s hI
  · next hflag =>
      exact ⟨Steps_refl st hInv, fun hf => absurd hf hflag⟩

theorem step_propReleaseStage (m : Machine) (hm : MachineGood m) :
    ∀ st i st', Inv st → i < st.recs.length →
      (stepMachine m).propReleaseStage st i = some st' →
      Steps st st' ∧ FlagCov st' PropFlag.release i := by
  intro st i st' hInv hi heq
  dsimp only [stepMachine] at heq
  split at heq
  · split at heq
    · exact Option.noConfusion heq
    · next st1 hrd =>
        injection heq with h
        subst h
        have hRD : Steps st st1 := hm.releaseDeps st i st1 hInv hi hrd
        have hcl : Steps st1 (st1.updRec i (fun r => { r with propRelease := false })) :=
          Steps_updRec st1 i _ hRD.1
            (by intro r g h; cases g <;> first | exact h | exact Bool.noConfusion h)
            (fun r => rfl) (fun r => rfl) (fun r => rfl) (fun r => rfl)
        refine ⟨Steps_trans hRD hcl, FlagCov_of_clear ?_⟩
        rw [recAt_updRec_self st1 i _ (by rw [hRD.2.1]; exact hi)]
        rfl
  · next hflag =>
      injection heq with h
      subst h
      exact ⟨Steps_refl st hInv, fun hf => absurd hf hflag⟩

theorem step_propFailureStage (m : Machine) (hm : MachineGood m) :
    ∀ st i st', Inv st → i < st.recs.length →
      (stepMachine m).propFailureStage st i = some st' →
      Steps st st' ∧ FlagCov st' PropFlag.failure i := by
  intro st i st' hInv hi heq
  dsimp only [stepMachine] at heq
  split at heq
  · have h1 : Steps st (st.updRec i (fun r =>
        { r with propFailure := false, stopReason := SReason.depFailed,
                 state := SState.stopped })) :=
      Steps_updRec st i _ hInv
        (by intro r g h; cases g <;> first | exact h | exact Bool.noConfusion h)
        (fun r => rfl) (fun r => rfl) (fun r => rfl) (fun r => rfl)
    set st1 := st.updRec i (fun r =>
        { r with propFailure := false, stopReason := SReason.depFailed,
                 state := SState.stopped })
    have hi1 : i < st1.recs.length := by rw [h1.2.1]; exact hi
    have h2 : Steps st1 st' := hm.failed st1 i true true st' h1.1 hi1 heq
    refine ⟨Steps_trans h1 h2, FlagCov_steps (FlagCov_of_clear ?_) h2⟩
    rw [recAt_updRec_self st i _ hi]
    rfl
  · next hflag =>
      injection heq with h
      subst h
      exact ⟨Steps_refl st hInv, fun hf => absurd hf hflag⟩

theorem step_propStartStage (m : Machine) (hm : MachineGood m) :
    ∀ st i st', Inv st → i < st.recs.length →
      (stepMachine m).propStartStage st i = some st' →
      Steps st st' ∧ FlagCov st' PropFlag.start i := by
  intro st i st' hInv hi heq
  dsimp only [stepMachine] at heq
  split at heq
  · have h1 : Steps st (st.updRec i (fun r => { r with propStart := false })) :=
      Steps_updRec st i _ hInv
        (by intro r g h; cases g <;> first | exact h | exact Bool.noConfusion h)
        (fun r => rfl) (fun r => rfl) (fun r => rfl) (fun r => rfl)
    set st1 := st.updRec i (fun r => { r with propStart := false })
    have hi1 : i < st1.recs.length := by rw [h1.2.1]; exact hi
    have h2 : Steps st1 st' := hm.doStart st1 i st' h1.1 hi1 heq
    refine ⟨Steps_trans h1 h2, FlagCov_steps (FlagCov_of_clear ?_) h2⟩
    rw [recAt_updRec_self st i _ hi]
    rfl
  · next hflag =>
      injection heq with h
      subst h
      exact ⟨Steps_refl st hInv, fun hf => absurd hf hflag⟩

theorem step_propStopStage (m : Machine) (hm : MachineGood m) :
    ∀ st i st', Inv st → i < st.recs.length →
      (stepMachine m).propStopStage st i = some st' →
      Steps st st' ∧ FlagCov st' PropFlag.stop i := by
  intro st i st' hInv hi heq
  dsimp only [stepMachine] at heq
  split at heq
  · have h1 : Steps st (st.updRec i (fun r => { r with propStop := false })) :=
      Steps_updRec st i _ hInv
        (by intro r g h; cases g <;> first | exact h | exact Bool.noConfusion h)
        (fun r => rfl) (fun r => rfl) (fun r => rfl) (fun r => rfl)
    set st1 := st.updRec i (fun r => { r with propStop := false })
    have hi1 : i < st1.recs.length := by rw [h1.2.1]; exact hi
    have h2 : Steps st1 st' := hm.stop2 st1 i _ st' h1.1 hi1 heq
    refine ⟨Steps_trans h1 h2, FlagCov_steps (FlagCov_of_clear ?_) h2⟩
    rw [recAt_updRec_self st i _ hi]
    rfl
  · next hflag =>
      injection heq with h
      subst h
      exact ⟨Steps_refl st hInv, fun hf => absurd hf hflag⟩

theorem step_propPinStage (m : Machine) (hm : MachineGood m) :
    ∀ st i st', Inv st → i < st.recs.length →
      (stepMachine m).propPinStage st i = some st' →
      Steps st st' ∧ FlagCov st' PropFlag.pinDpt i := by
  intro st i st' hInv hi heq
  dsimp only [stepMachine] at heq
  split at heq
  · have h1 : Steps st (st.updRec i (fun r => { r with propPinDpt := false })) :=
      Steps_updRec st i _ hInv
        (by intro r g h; cases g <;> first | exact h | exact Bool.noConfusion h)
        (fun r => rfl) (fun r => rfl) (fun r => rfl) (fun r => rfl)
    set st1 := st.updRec i (fun r => { r with propPinDpt := false })
    have hi1 : i < st1.recs.length := by rw [h1.2.1]; exact hi
    have hclear1 : flagOn (st1.recAt i) PropFlag.pinDpt = false := by
      rw [recAt_updRec_self st i _ hi]
      rfl
    split at heq
    · have h2 : Steps st1 (st1.updRec i (fun r =>
          { r with deptPinnedStarted := (st1.recAt i).dependents.any (fun j =>
              (st1.edge j).isHard && (st1.recAt (st1.edge j).src).isStartPinned) })) :=
        Steps_updRec st1 i _ h1.1 (by intro r g h; cases g <;> exact h)
          (fun r => rfl) (fun r => rfl) (fun r => rfl) (fun r => rfl)
      set st2 := st1.updRec i (fun r =>
          { r with deptPinnedStarted := (st1.recAt i).dependents.any (fun j =>
              (st1.edge j).isHard && (st1.recAt (st1.edge j).src).isStartPinned) })
      have hs2 := Steps_trans h1 h2
      have hi2 : i < st2.recs.length := by rw [hs2.2.1]; exact hi
      have hb2 : ∀ a ∈ (st2.recAt i).dependsOn, a < st2.edges.length :=
        (hs2.1.2.2 i hi2).1
      have hnext : ∀ s3 : St, Steps st s3 → FlagCov s3 PropFlag.pinDpt i →
          ((if (!(s3.recAt i).deptPinnedStarted) = true ∧
              (!(s3.recAt i).pinnedStarted) = true then
            (if ((s3.recAt i).desired = SState.stopped ∨
                  (s3.recAt i).forceStop = true) ∧
                (s3.recAt i).state = SState.started then
              m.doStop s3 i false
            else some s3)
          else some s3) = some st') →
          Steps st st' ∧ FlagCov st' PropFlag.pinDpt i := by
        intro s3 hs3 hcov heq2
        split at heq2
        · split at heq2
          · have hd : Steps s3 st' := hm.stop2 s3 i false st' hs3.1
              (by rw [hs3.2.1]; exact hi) heq2
            exact ⟨Steps_trans hs3 hd, FlagCov_steps hcov hd⟩
          · injection heq2 with h
            subst h
            exact ⟨hs3, hcov⟩
        · injection heq2 with h
          subst h
          exact ⟨hs3, hcov⟩
      refine hnext _ ?_ ?_ heq
      case _ =>
        refine Steps_trans hs2 ?_
        refine foldl_steps _ _ st2 hs2.1 ?_
        intro s a ha hI hl he
        split
        · split
          · have hdst : (s.edge a).dst < s.recs.length := by
              have hmem : s.edge a ∈ s.edges := edge_mem s a (by rw [he]; exact hb2 a ha)
              exact (hI.2.1 (s.edge a) hmem).2
            exact Steps_raise s _ _ hI hdst
              (fun r => rfl) (fun r => rfl) (fun r => rfl) (fun r => rfl)
          · exact Steps_refl s hI
        · exact Steps_refl s hI
      case _ =>
        refine @FlagCov_steps st1 _ PropFlag.pinDpt i (FlagCov_of_clear hclear1) ?_
        refine Steps_trans h2 ?_
        refine foldl_steps _ _ st2 hs2.1 ?_
        intro s a ha hI hl he
        split
        · split
          · have hdst : (s.edge a).dst < s.recs.length := by
              have hmem : s.edge a ∈ s.edges :=
                edge_mem s a (by rw [he]; exact hb2 a ha)
              exact (hI.2.1 (s.edge a) hmem).2
            exact Steps_raise s _ _ hI hdst
              (fun r => rfl) (fun r => rfl) (fun r => rfl) (fun r => rfl)
          · exact Steps_refl s hI
        · exact Steps_refl s hI
    · injection heq with h
      subst h
      exact ⟨h1, FlagCov_of_clear hclear1⟩
  · next hflag =>
      injection heq with h
      subst h
      exact ⟨Steps_refl st hInv, fun hf => absurd hf hflag⟩

theorem step_DoPropagation (m : Machine) (hm : MachineGood m) :
    ∀ st i st', Inv st → i < st.recs.length →
      (stepMachine m).DoPropagation st i = some st' →
      Steps st st' ∧ ∀ f, FlagCov st' f i := by
  intro st i st' hInv hi heq
  dsimp only [stepMachine] at heq
  obtain ⟨hs0, hcov0⟩ := propRequireStage_good st i hInv hi
  set st0 := propRequireStage st i
  have hi0 : i < st0.recs.length := by rw [hs0.2.1]; exact hi
  split at heq
  · exact Option.noConfusion heq
  · next st1 hrel =>
      obtain ⟨hrel1, hcovR⟩ := hm.stageRel st0 i st1 hs0.1 hi0 hrel
      have hs1 := Steps_trans hs0 hrel1
      have hi1 : i < st1.recs.length := by rw [hs1.2.1]; exact hi
      have hcov0' := FlagCov_steps hcov0 hrel1
      split at heq
      · exact Option.noConfusion heq
      · next st2 hfail =>
          obtain ⟨hfail1, hcovF⟩ := hm.stageFail st1 i st2 hs1.1 hi1 hfail
          have hs2 := Steps_trans hs1 hfail1
          have hi2 : i < st2.recs.length := by rw [hs2.2.1]; exact hi
          have hcov0'' := FlagCov_steps hcov0' hfail1
          have hcovR' := FlagCov_steps hcovR hfail1
          split at heq
          · exact Option.noConfusion heq
          · next st3 hstart =>
              obtain ⟨hstart1, hcovS⟩ := hm.stageStart st2 i st3 hs2.1 hi2 hstart
              have hs3 := Steps_trans hs2 hstart1
              have hi3 : i < st3.recs.length := by rw [hs3.2.1]; exact hi
              have hcov0''' := FlagCov_steps hcov0'' hstart1
              have hcovR'' := FlagCov_steps hcovR' hstart1
              have hcovF' := FlagCov_steps hcovF hstart1
              split at heq
              · exact Option.noConfusion heq
              · next st4 hstop =>
                  obtain ⟨hstop1, hcovT⟩ := hm.stageStop st3 i st4 hs3.1 hi3 hstop
                  have hs4 := Steps_trans hs3 hstop1
                  have hi4 : i < st4.recs.length := by rw [hs4.2.1]; exact hi
                  obtain ⟨hpin1, hcovP⟩ := hm.stagePin st4 i st' hs4.1 hi4 heq
                  have hs5 := Steps_trans hs4 hpin1
                  refine ⟨hs5, ?_⟩
                  intro f
                  cases f
                  · exact FlagCov_steps (FlagCov_steps hcov0''' hstop1) hpin1
                  · exact FlagCov_steps (FlagCov_steps hcovR'' hstop1) hpin1
                  · exact FlagCov_steps (FlagCov_steps hcovF' hstop1) hpin1
                  · exact FlagCov_steps (FlagCov_steps hcovS hstop1) hpin1
                  · exact FlagCov_steps hcovT hpin1
                  · exact hcovP

theorem step_drainPropQueue (m : Machine) (hm : MachineGood m) :
    ∀ st st', Inv st → FlagsQueued st →
      (stepMachine m).drainPropQueue st = some st' →
      Inv st' ∧ st'.recs.length = st.recs.length ∧
        st'.edges.length = st.edges.length ∧
        st'.propQueue = [] ∧ PropFlagsClear st' := by
  intro st st' hInv hFQ heq
  dsimp only [stepMachine] at heq
  split at heq
  · next hq =>
      injection heq with h
      subst h
      exact ⟨hInv, rfl, rfl, hq, PropFlagsClear_of_queued hFQ hq⟩
  · next j rest hq =>
      obtain ⟨hI2, hj, hpq2⟩ := Inv_popProp hInv hq
      set st2 := ({ st with propQueue := rest } : St).updRec j
        (fun r => { r with inPropQueue := false })
      have hlen2 : st2.recs.length = st.recs.length := by
        rw [recs_length_updRec]
      have hedg2 : st2.edges.length = st.edges.length := by
        rw [edges_length_updRec]
      split at heq
      · exact Option.noConfusion heq
      · next st3 hdp =>
          obtain ⟨hDP, hcov⟩ := hm.doProp st2 j st3 hI2
            (by rw [hlen2]; exact hj) hdp
          have hFQ3 : FlagsQueued st3 := by
            intro i' hl f hflag
            by_cases hij : i' = j
            · exact hij ▸ hcov f (hij ▸ hflag)
            · rcases hDP.2.2.2.2 i' f hflag with hfl2 | hmem
              · have hrec : st2.recAt i' = st.recAt i' := by
                  rw [recAt_updRec_other _ j _ i' hij]
                  rfl
                rw [hrec] at hfl2
                have hmem0 : i' ∈ st.propQueue :=
                  hFQ i' (by rw [hDP.2.1, hlen2] at hl; exact hl) f hfl2
                rw [hq] at hmem0
                rcases List.mem_cons.mp hmem0 with h | h
                · exact absurd h hij
                · exact hDP.2.2.2.1 i' (by rw [hpq2]; exact h)
              · exact hmem
          obtain ⟨hI', hl', he', hpq', hcl'⟩ :=
            hm.drain st3 st' hDP.1 hFQ3 heq
          refine ⟨hI', ?_, ?_, hpq', hcl'⟩
          · rw [hl', hDP.2.1, hlen2]
          · rw [he', hDP.2.2.1, hedg2]

theorem step_ProcessQueues (m : Machine) (hm : MachineGood m) :
    ∀ st st', Inv st → FlagsQueued st →
      (stepMachine m).ProcessQueues st = some st' →
      Inv st' ∧ st'.recs.length = st.recs.length ∧
        st'.edges.length = st.edges.length ∧
        st'.propQueue = [] ∧ st'.stopQueue = [] ∧ PropFlagsClear st' := by
  intro st st' hInv hFQ heq
  dsimp only [stepMachine] at heq
  split at heq
  · next hq =>
      injection heq with h
      subst h
      exact ⟨hInv, rfl, rfl, hq.1, hq.2, PropFlagsClear_of_queued hFQ hq.1⟩
  · split at heq
    · exact Option.noConfusion heq
    · next st1 hdr =>
        obtain ⟨hI1, hl1, he1, hpq1, hcl1⟩ := hm.drain st st1 hInv hFQ hdr
        split at heq
        · next hsq1 =>
            obtain ⟨hI', hl', he', hpq', hsq', hcl'⟩ :=
              hm.process st1 st' hI1 (FlagsQueued_of_clear hcl1) heq
            exact ⟨hI', by rw [hl', hl1], by rw [he', he1], hpq', hsq', hcl'⟩
        · next j rest hsq1 =>
            obtain ⟨hI3, hj, hpq3⟩ := Inv_popStop hI1 hsq1
            set st3 := ({ st1 with stopQueue := rest } : St).updRec j
              (fun r => { r with inStopQueue := false })
            have hlen3 : st3.recs.length = st1.recs.length := by
              rw [recs_length_updRec]
            have hedg3 : st3.edges.length = st1.edges.length := by
              rw [edges_length_updRec]
            have hcl3 : PropFlagsClear st3 := by
              intro i' hl f
              by_cases hij : i' = j
              · subst hij
                rw [recAt_updRec_self _ i' _ (by exact hj)]
                have := hcl1 i' (by exact hj) f
                cases f <;> exact this
              · rw [recAt_updRec_other _ j _ i' hij]
                exact hcl1 i' (by rw [hlen3] at hl; exact hl) f
            split at heq
            · exact Option.noConfusion heq
            · next st4 hex =>
                have hE : Steps st3 st4 := hm.execTrans st3 j st4 hI3
                  (by rw [hlen3]; exact hj) hex
                obtain ⟨hI', hl', he', hpq', hsq', hcl'⟩ :=
                  hm.process st4 st' hE.1
                    (FlagsQueued_steps (FlagsQueued_of_clear hcl3) hE) heq
                refine ⟨hI', ?_, ?_, hpq', hsq', hcl'⟩
                · rw [hl', hE.2.1, hlen3, hl1]
                · rw [he', hE.2.2.1, hedg3, he1]

theorem step_Stop (m : Machine) (hm : MachineGood m) :
    ∀ st i b st', Inv st → i < st.recs.length →
      (stepMachine m).Stop st i b = some st' → Steps st st' := by
  intro st i b st' hInv hi heq
  dsimp only [stepMachine] at heq
  have hnext : ∀ (s2 : St), Steps st s2 →
      (if (s2.recAt i).isStartPinned = true then some s2
       else
         if (b = true ∨ (s2.recAt i).requiredBy = 0) ∧
             ((if (s2.recAt i).requiredBy = 0 then
                 (if (!(s2.recAt i).propRequire) = true then
                   AddPropQueue (s2.updRec i (fun r =>
                     { r with propRelease := !(s2.recAt i).propRequire })) i
                 else s2.updRec i (fun r =>
                     { r with propRelease := !(s2.recAt i).propRequire }))
               else s2).recAt i).state ≠ SState.stopped then
           m.doStop ((if (s2.recAt i).requiredBy = 0 then
               (if (!(s2.recAt i).propRequire) = true then
                 AddPropQueue (s2.updRec i (fun r =>
                   { r with propRelease := !(s2.recAt i).propRequire })) i
               else s2.updRec i (fun r =>
                   { r with propRelease := !(s2.recAt i).propRequire }))
             else s2).updRec i (fun r => { r with stopReason := SReason.normal }))
             i false
         else some (if (s2.recAt i).requiredBy = 0 then
             (if (!(s2.recAt i).propRequire) = true then
               AddPropQueue (s2.updRec i (fun r =>
                 { r with propRelease := !(s2.recAt i).propRequire })) i
             else s2.updRec i (fun r =>
                 { r with propRelease := !(s2.recAt i).propRequire }))
           else s2)) = some st' → Steps st st' := by
    have htail : ∀ (d : Prop) (idec : Decidable d) (s3 : St), Steps st s3 →
        ((if d ∧ (s3.recAt i).state ≠ SState.stopped then
            m.doStop (s3.updRec i (fun r =>
              { r with stopReason := SReason.normal })) i false
          else some s3) = some st') → Steps st st' := by
      intro d idec s3 hs3 h
      split at h
      · have hk := Steps_updRec s3 i (fun r =>
            { r with stopReason := SReason.normal }) hs3.1
          (by intro r g hh; cases g <;> exact hh)
          (fun r => rfl) (fun r => rfl) (fun r => rfl) (fun r => rfl)
        refine Steps_trans (Steps_trans hs3 hk) (hm.stop2 _ i false st' hk.1 ?_ h)
        rw [recs_length_updRec, hs3.2.1]
        exact hi
      · injection h with hh
        exact hh ▸ hs3
    intro s2 hs2 heq2
    have hi2 : i < s2.recs.length := by rw [hs2.2.1]; exact hi
    by_cases hpin : (s2.recAt i).isStartPinned = true
    · rw [if_pos hpin] at heq2
      injection heq2 with h
      exact h ▸ hs2
    · rw [if_neg hpin] at heq2
      refine htail _ _ _ ?_ heq2
      split
      · refine Steps_trans hs2 (Steps_condRaise s2 i _ _ hs2.1 hi2 ?_
          (fun r => rfl) (fun r => rfl) (fun r => rfl) (fun r => rfl))
        intro hc r g h
        cases g <;>
          first
            | exact h
            | exact absurd h (by rw [hc]; exact Bool.false_ne_true)
            | exact Bool.noConfusion h
      · exact hs2
  refine hnext _ ?_ heq
  split
  · have hk1 : Steps st (st.updRec i (fun r =>
        { r with startExplicit := false, requiredBy := r.requiredBy - 1 })) :=
      Steps_updRec st i _ hInv (by intro r g h; cases g <;> exact h)
        (fun r => rfl) (fun r => rfl) (fun r => rfl) (fun r => rfl)
    split
    · exact Steps_trans hk1 (Steps_updRec _ i _ hk1.1
        (by intro r g h; cases g <;> exact h)
        (fun r => rfl) (fun r => rfl) (fun r => rfl) (fun r => rfl))
    · exact hk1
  · split
    · exact Steps_updRec st i _ hInv (by intro r g h; cases g <;> exact h)
        (fun r => rfl) (fun r => rfl) (fun r => rfl) (fun r => rfl)
    · exact Steps_refl st hInv

theorem step_Unpin (m : Machine) (hm : MachineGood m) :
    ∀ st i st', Inv st → FlagsQueued st → i < st.recs.length →
      (stepMachine m).Unpin st i = some st' →
      Inv st' ∧ st'.recs.length = st.recs.length ∧
        st'.edges.length = st.edges.length ∧ FlagsQueued st' := by
  intro st i st' hInv hFQ hi heq
  dsimp only [stepMachine] at heq
  have goodOf : ∀ s : St, Steps st s →
      Inv s ∧ s.recs.length = st.recs.length ∧
        s.edges.length = st.edges.length ∧ FlagsQueued s :=
    fun s hs => ⟨hs.1, hs.2.1, hs.2.2.1, FlagsQueued_steps hFQ hs⟩
  have hfin : ∀ s4 : St,
      (Inv s4 ∧ s4.recs.length = st.recs.length ∧
        s4.edges.length = st.edges.length ∧ FlagsQueued s4) →
      (some (if (s4.recAt i).pinnedStopped = true then
          s4.updRec i (fun r => { r with pinnedStopped := false })
        else s4) = some st') →
      Inv st' ∧ st'.recs.length = st.recs.length ∧
        st'.edges.length = st.edges.length ∧ FlagsQueued st' := by
    intro s4 hg heq2
    injection heq2 with h
    subst h
    split
    · have hk : Steps s4 (s4.updRec i (fun r =>
          { r with pinnedStopped := false })) :=
        Steps_updRec s4 i _ hg.1 (by intro r g hh; cases g <;> exact hh)
          (fun r => rfl) (fun r => rfl) (fun r => rfl) (fun r => rfl)
      exact ⟨hk.1, by rw [hk.2.1, hg.2.1], by rw [hk.2.2.1, hg.2.2.1],
        FlagsQueued_steps hg.2.2.2 hk⟩
    · exact hg
  split at heq
  · have h1 : Steps st (st.updRec i (fun r => { r with pinnedStarted := false })) :=
      Steps_updRec st i _ hInv (by intro r g h; cases g <;> exact h)
        (fun r => rfl) (fun r => rfl) (fun r => rfl) (fun r => rfl)
    set st1 := st.updRec i (fun r => { r with pinnedStarted := false })
    have hi1 : i < st1.recs.length := by rw [h1.2.1]; exact hi
    split at heq
    · injection heq with h
      subst h
      exact goodOf st1 h1
    · have hb1 : ∀ a ∈ (st1.recAt i).dependsOn, a < st1.edges.length :=
        (h1.1.2.2 i hi1).1
      have hfold : Steps st1 ((st1.recAt i).dependsOn.foldl
          (fun s j =>
            if (s.edge j).isHard = true then
              if (s.recAt (s.edge j).dst).deptPinnedStarted = true then
                AddPropQueue (s.updRec (s.edge j).dst (fun r =>
                  { r with propPinDpt := true })) (s.edge j).dst
              else s
            else s) st1) := by
        refine foldl_steps _ _ st1 h1.1 ?_
        intro s a ha hI hl he
        split
        · split
          · have hdst : (s.edge a).dst < s.recs.length := by
              have hmem : s.edge a ∈ s.edges :=
                edge_mem s a (by rw [he]; exact hb1 a ha)
              exact (hI.2.1 (s.edge a) hmem).2
            exact Steps_raise s _ _ hI hdst
              (fun r => rfl) (fun r => rfl) (fun r => rfl) (fun r => rfl)
          · exact Steps_refl s hI
        · exact Steps_refl s hI
      set st2 := (st1.recAt i).dependsOn.foldl
          (fun s j =>
            if (s.edge j).isHard = true then
              if (s.recAt (s.edge j).dst).deptPinnedStarted = true then
                AddPropQueue (s.updRec (s.edge j).dst (fun r =>
                  { r with propPinDpt := true })) (s.edge j).dst
              else s
            else s) st1
      have hs2 : Steps st st2 := Steps_trans h1 hfold
      have hi2 : i < st2.recs.length := by rw [hs2.2.1]; exact hi
      have hnext2 : ∀ (s2b t : St), Steps st s2b →
          ((if (s2b.recAt i).desired = SState.stopped ∨
              (s2b.recAt i).forceStop = true then
            (match m.doStop s2b i false with
            | Option.none => Option.none
            | some x => m.ProcessQueues x)
          else some s2b) = some t) →
          (Inv t ∧ t.recs.length = st.recs.length ∧
            t.edges.length = st.edges.length ∧ FlagsQueued t) := by
        intro s2b t hs2b h
        split at h
        · split at h
          · exact Option.noConfusion h
          · next x hds =>
              have hsx : Steps st x :=
                Steps_trans hs2b (hm.stop2 s2b i false x hs2b.1
                  (by rw [hs2b.2.1]; exact hi) hds)
              obtain ⟨hI', hl', he', _, _, hcl'⟩ :=
                hm.process x t hsx.1 (FlagsQueued_steps hFQ hsx) h
              exact ⟨hI', by rw [hl', hsx.2.1], by rw [he', hsx.2.2.1],
                FlagsQueued_of_clear hcl'⟩
        · injection h with hh
          subst hh
          exact goodOf s2b hs2b
      split at heq
      · exact Option.noConfusion heq
      · next st4 hscrut4 =>
          refine hfin st4 ?_ heq
          split at hscrut4
          · refine hnext2 _ st4 ?_ hscrut4
            split
            · exact Steps_trans hs2 (Steps_raise st2 i _ hs2.1 hi2
                (fun r => rfl) (fun r => rfl) (fun r => rfl) (fun r => rfl))
            · exact hs2
          · injection hscrut4 with h
            subst h
            exact goodOf st2 hs2
  · injection heq with h
    subst h
    split
    · have hk : Steps st (st.updRec i (fun r =>
          { r with pinnedStopped := false })) :=
        Steps_updRec st i _ hInv (by intro r g hh; cases g <;> exact hh)
          (fun r => rfl) (fun r => rfl) (fun r => rfl) (fun r => rfl)
      exact goodOf _ hk
    · exact goodOf st (Steps_refl st hInv)

theorem haltedGood : MachineGood haltedMachine := by
  constructor <;> (intros; rename_i heq; exact Option.noConfusion heq)

theorem stepGood (m : Machine) (hm : MachineGood m) :
    MachineGood (stepMachine m) where
  release := step_Release m hm
  releaseDeps := step_ReleaseDependencies m hm
  doStart := step_doStart m hm
  allDeps := step_allDepsStarted m hm
  bringUp := step_bringUp m hm
  started := step_Started m hm
  stopped := step_Stopped m hm
  failed := step_failedToStart m hm
  stop2 := step_doStop m hm
  stopDeps := step_stopDependents m hm
  relConsole := step_releaseConsole m hm
  pullConsole := step_PullConsoleQueue m hm
  acqConsole := step_AcquiredConsole m hm
  stageRel := step_propReleaseStage m hm
  stageFail := step_propFailureStage m hm
  stageStart := step_propStartStage m hm
  stageStop := step_propStopStage m hm
  stagePin := step_propPinStage m hm
  doProp := step_DoPropagation m hm
  execTrans := step_ExecuteTransition m hm
  drain := step_drainPropQueue m hm
  process := step_ProcessQueues m hm
  start := step_Start m hm
  stop := step_Stop m hm
  restart := step_Restart m hm
  unpin := step_Unpin m hm

theorem machineGood : ∀ fu, MachineGood (machine fu)
  | 0 => haltedGood
  | fu + 1 => stepGood (machine fu) (machineGood fu)

/-- **C2** Whenever `ProcessQueues` returns, all six propagation flags are
false on every service in the set: starting from any state satisfying the
structural invariant `Inv` (queue/flag bookkeeping and graph
well-formedness) in which every raised propagation flag is covered by
propagation-queue membership (`FlagsQueued` — every operation that sets a
flag also enqueues the service, which is the claim's second reading), a
returning `ProcessQueues` leaves a state with both scheduler queues empty
and `PropFlagsClear`. -/
theorem C2_prop_flags_clear (fu : Nat) (st st' : St) (hInv : Inv st)
    (hq : FlagsQueued st) (h : ProcessQueues fu st = some st') :
    PropFlagsClear st' ∧ st'.propQueue = [] ∧ st'.stopQueue = [] :=
  let g := (machineGood fu).process st st' hInv hq h
  ⟨g.2.2.2.2.2, g.2.2.2.1, g.2.2.2.2.1⟩

/-- Witness for C2: the pin scenario's queue-laden state `c1pre` drains to
`c1fin` with all propagation flags clear. -/
theorem C2_prop_flags_clear_witness :
    Inv c1pre ∧ FlagsQueued c1pre ∧ ProcessQueues 9 c1pre = some c1fin ∧
      PropFlagsClear c1fin ∧ c1fin.propQueue = [] ∧ c1fin.stopQueue = [] := by
  refine ⟨by decide, by decide, by decide, ?_⟩
  have h := C2_prop_flags_clear 9 c1pre c1fin (by decide) (by decide) (by decide)
  exact ⟨h.1, h.2.1, h.2.2⟩

theorem edge_updEdge_self (st : St) (j : Nat) (f : Edge → Edge)
    (h : j < st.edges.length) : (st.updEdge j f).edge j = f (st.edge j) := by
  simp [St.updEdge, St.edge, List.getD_eq_getElem?_getD, List.getElem?_set_self, h]

theorem edge_updEdge_other (st : St) (j : Nat) (f : Edge → Edge) (k : Nat)
    (h : k ≠ j) : (st.updEdge j f).edge k = st.edge k := by
  simp [St.updEdge, St.edge, List.getD_eq_getElem?_getD,
    List.getElem?_set_ne (fun hh => h hh.symm)]

theorem foldl_keep {σ α : Type} (F : σ → α → σ) (P : σ → Prop)
    (h : ∀ s a, P s → P (F s a)) :
    ∀ (l : List α) (s : σ), P s → P (l.foldl F s) := by
  intro l
  induction l with
  | nil => exact fun s hs => hs
  | cons a as ih => exact fun s hs => ih (F s a) (h s a hs)

/-- **C1** The invariant survives only as establishment-time gating, and
its per-state form cannot be repaired by excluding start-pinned services.
(i) A STARTING service whose dependency check still fails is never
promoted by `ExecuteTransition` (it returns the state unchanged), and
(ii) `startCheckDependencies` marks `waiting_on` on every outgoing
non-ordering-only edge whose target is not yet STARTED — so promotion to
STARTED is gated on every such edge having been released by a STARTED
target.  (iii) The per-state invariant at `ProcessQueues` return fails
even restricted to services that are not start-pinned: continuing the
counterexample trace from `c1fin` with `StartService 0` (which resets
the pinned, stop-bounced dependent's desired state to STARTED) and then
`Unpin 0` followed by the queue drain reaches a `ProcessQueues` return
in which service 0 is STARTED and no longer start-pinned while its hard
dependency is still STOPPING: `Unpin` does not resume the stop because
`desired` is STARTED again, and the `prop_pin_dpt` drain on the
dependency does not either because the dependency's state is STOPPING,
not STARTED. -/
theorem C1_start_gating :
    (∀ fu st i st', (st.recAt i).state = SState.starting →
      checkDepsStarted st i = false →
      ExecuteTransition (fu + 1) st i = some st' → st' = st) ∧
    (∀ st (i j : Nat), j ∈ (st.recAt i).dependsOn → j < st.edges.length →
      (st.edge j).isOnlyOrdering = false →
      (st.recAt (st.edge j).dst).state ≠ SState.started →
      ((startCheckDependencies st i).2.edge j).waitingOn = true) ∧
    (runCmds 9 [Cmd.startSvc 0] c1fin = some c1rs ∧
      Unpin 9 c1rs 0 = some c1up ∧
      ProcessQueues 9 c1up = some c1end ∧
      (c1end.recAt 0).state = SState.started ∧
      (c1end.recAt 0).isStartPinned = false ∧
      c1end.propQueue = [] ∧ c1end.stopQueue = [] ∧
      ¬ HardDepsStartedUnpinned c1end) := by
  refine ⟨?_, ?_, by decide, by decide, by decide, by decide, by decide,
    by decide, by decide, by decide⟩
  · intro fu st i st' hstate hchk heq
    have heq2 : (stepMachine (machine fu)).ExecuteTransition st i = some st' := heq
    dsimp only [stepMachine] at heq2
    rw [if_pos hstate] at heq2
    rw [if_neg (by simp [hchk])] at heq2
    injection heq2 with h
    exact h.symm
  · intro st i j hmem hjlen hord htgt
    unfold startCheckDependencies
    dsimp only
    refine foldl_keep _ (fun s : St => (s.edge j).waitingOn = true) ?_ _ _ ?_
    · intro s a hs
      dsimp only
      split
      · split
        · rcases Nat.lt_or_ge a s.edges.length with hal | hal
          · by_cases haj : a = j
            · subst haj
              rw [edge_updEdge_self s a _ hal]
            · rw [edge_updEdge_other s a _ j (fun hh => haj hh.symm)]
              exact hs
          · rw [updEdge_out s a _ hal]
            exact hs
        · exact hs
      · exact hs
    · obtain ⟨l1, l2, hl⟩ := List.append_of_mem hmem
      rw [hl, List.foldl_append, List.foldl_cons]
      refine foldl_keep _ (fun p : Bool × St => (p.2.edge j).waitingOn = true)
        ?_ _ _ ?_
      · intro p a hp
        dsimp only
        split
        · exact hp
        · split
          · rcases Nat.lt_or_ge a p.2.edges.length with hal | hal
            · by_cases haj : a = j
              · subst haj
                rw [edge_updEdge_self p.2 a _ hal]
              · rw [edge_updEdge_other p.2 a _ j (fun hh => haj hh.symm)]
                exact hp
            · rw [updEdge_out p.2 a _ hal]
              exact hp
          · exact hp
      · have hnextP : ∀ p : Bool × St,
            (p.2.edge j).depType = (st.edge j).depType →
            (p.2.edge j).dst = (st.edge j).dst →
            (p.2.recAt (st.edge j).dst).state =
              (st.recAt (st.edge j).dst).state →
            p.2.edges.length = st.edges.length →
            (((if (p.2.edge j).isOnlyOrdering &&
                  decide ((p.2.recAt (p.2.edge j).dst).state ≠ SState.starting)
                then p
              else if (p.2.recAt (p.2.edge j).dst).state ≠ SState.started then
                (false, p.2.updEdge j (fun e => { e with waitingOn := true }))
              else p) : Bool × St).2.edge j).waitingOn = true := by
          intro p h1 h2 h3 h4
          have hioo : (p.2.edge j).isOnlyOrdering = false := by
            unfold Edge.isOnlyOrdering
            unfold Edge.isOnlyOrdering at hord
            rw [h1]
            exact hord
          rw [if_neg (by simp [hioo])]
          rw [if_pos (by rw [h2, h3]; exact htgt)]
          dsimp only
          rw [edge_updEdge_self p.2 j _ (by rw [h4]; exact hjlen)]
        have hP0 := foldl_keep
          (fun (p : Bool × St) j =>
            if (p.2.edge j).isOnlyOrdering &&
                decide ((p.2.recAt (p.2.edge j).dst).state ≠ SState.starting)
              then p
            else if (p.2.recAt (p.2.edge j).dst).state ≠ SState.started then
              (false, p.2.updEdge j (fun e => { e with waitingOn := true }))
            else p)
          (fun p : Bool × St =>
            (p.2.edge j).depType = (st.edge j).depType ∧
              (p.2.edge j).dst = (st.edge j).dst ∧
              (p.2.recAt (st.edge j).dst).state =
                (st.recAt (st.edge j).dst).state ∧
              p.2.edges.length = st.edges.length)
          ?_ l1 (true, st) ⟨rfl, rfl, rfl, rfl⟩
        · exact hnextP _ hP0.1 hP0.2.1 hP0.2.2.1 hP0.2.2.2
        · intro p a hp
          dsimp only
          split
          · exact hp
          · split
            · rcases Nat.lt_or_ge a p.2.edges.length with hal | hal
              · by_cases haj : a = j
                · subst haj
                  rw [edge_updEdge_self p.2 a _ hal]
                  exact ⟨hp.1, hp.2.1, hp.2.2.1, by
                    rw [edges_length_updEdge]; exact hp.2.2.2⟩
                · rw [edge_updEdge_other p.2 a _ j (fun hh => haj hh.symm)]
                  exact ⟨hp.1, hp.2.1, hp.2.2.1, by
                    rw [edges_length_updEdge]; exact hp.2.2.2⟩
              · rw [updEdge_out p.2 a _ hal]
                exact hp
            · exact hp

/-- Witness for C1 at the two-service REGULAR-dependency set: the
freshly-initiated start of service 0 marks `waiting_on` on its edge and
is not promoted while the check fails. -/
theorem C1_start_gating_witness :
    (((initiateStart c1init 0).recAt 0).state = SState.starting ∧
      checkDepsStarted (initiateStart c1init 0) 0 = false ∧
      ExecuteTransition 9 (initiateStart c1init 0) 0 =
        some (initiateStart c1init 0)) ∧
    (0 ∈ (c1init.recAt 0).dependsOn ∧ 0 < c1init.edges.length ∧
      (c1init.edge 0).isOnlyOrdering = false ∧
      (c1init.recAt (c1init.edge 0).dst).state ≠ SState.started ∧
      ((startCheckDependencies c1init 0).2.edge 0).waitingOn = true) := by
  refine ⟨⟨by decide, by decide, by decide⟩,
    by decide, by decide, by decide, by decide, ?_⟩
  exact C1_start_gating.2.1 c1init 0 0 (by decide) (by decide) (by decide) (by decide)

end Slinit